import Mathlib

/-!
# GEGL buffer views: a shallow embedding of `gegl/buffer/gegl-buffer.c`

The last part embeds the point operation of `operations/common/invert-gamma.c`
and its OpenCL kernel.

The GObject instances the buffer code works on live in a heap, a list of
objects addressed by their index; a C pointer is an `Option Ptr`, `none`
being `NULL`.  Every operation passes the heap explicitly.  A result of
`none` at the outermost level of an operation stands for an execution that
does not return: a failed `g_assert`, a dereference of `NULL` or of an
object of the wrong type, or a source walk that never ends.

`gint` values are integers; the sums and differences the constructor and
`get_next_swap_path` compute on them are reduced to 32 bits (`to_gint`), as
the compiled program leaves them.
-/

namespace Gegl

/-- An object address; `NULL` is `Option.none`. -/
abbrev Ptr := Nat

/-- The C struct `GeglRectangle`. -/
structure GeglRectangle where
  x : Int
  y : Int
  width : Int
  height : Int
deriving DecidableEq, Repr

/-- A babl pixel format: an opaque descriptor, identified by its name, that
carries its bytes per pixel. -/
structure Babl where
  name : String
  bytes_per_pixel : Int
deriving DecidableEq, Repr

/-- The babl library call `babl_format_get_bytes_per_pixel` on a non-NULL format. -/
def babl_format_get_bytes_per_pixel (format : Babl) : Int :=
  format.bytes_per_pixel

/-- The format `babl_format ("RGBA float")`: four floats of four bytes. -/
def babl_format_RGBA_float : Babl :=
  { name := "RGBA float", bytes_per_pixel := 16 }

/-- The fields of `GeglBufferHeader` that `gegl_buffer_set_extent` writes. -/
structure GeglBufferHeader where
  x : Int
  y : Int
  width : Int
  height : Int
deriving DecidableEq, Repr

/-- The concrete GType of a tile backend, as told apart by
`GEGL_IS_TILE_BACKEND_FILE`, `GEGL_IS_TILE_BACKEND_RAM` and
`GEGL_IS_TILE_BACKEND_TILE_DIR`. -/
inductive GeglTileBackendType where
  | ram
  | file
  | tile_dir
  | custom
deriving DecidableEq, Repr

/-- A `GeglTileBackend` instance: the state the buffer code reads or writes. -/
structure GeglTileBackend where
  type : GeglTileBackendType
  tile_width : Int
  tile_height : Int
  format : Option Babl
  path : Option String
  header : Option GeglBufferHeader
  shared : Bool
deriving DecidableEq, Repr

/-- A `GeglTile`: `address` tells tiles apart, the other fields are those the
buffer code reads or writes; `rev` is a `guint`, kept below 2^32. -/
structure GeglTile where
  address : Ptr
  x : Int
  y : Int
  z : Int
  rev : Nat
  lock_count : Int
  ref_count : Int
  tile_storage : Option Ptr
deriving DecidableEq, Repr

/-- A `GeglTileStorage` instance.  It is a tile handler, so it has a `source`;
`changed_handlers` lists the buffers connected to its `changed` signal
through `gegl_buffer_storage_changed`; `hot_tile` is the hot-tile slot, which
holds one reference to the tile in it. -/
structure GeglTileStorage where
  source : Option Ptr
  format : Option Babl
  tile_width : Int
  tile_height : Int
  width : Int
  height : Int
  changed_handlers : List Ptr
  hot_tile : Option GeglTile
deriving DecidableEq, Repr

/-- A `GeglBuffer` instance; `source` is the field of its `GeglTileHandler` part. -/
structure GeglBuffer where
  source : Option Ptr
  extent : GeglRectangle
  abyss : GeglRectangle
  abyss_tracks_extent : Bool
  shift_x : Int
  shift_y : Int
  format : Option Babl
  soft_format : Option Babl
  tile_width : Int
  tile_height : Int
  path : Option String
  backend : Option Ptr
  tile_storage : Option Ptr
  lock_count : Int
deriving DecidableEq, Repr

/-- An object of the heap, by its GType. -/
inductive GObject where
  | buffer (b : GeglBuffer)
  | tile_storage (s : GeglTileStorage)
  | tile_backend (k : GeglTileBackend)
  | tile_handler (source : Option Ptr)
deriving DecidableEq, Repr

/-- The heap: the object at address `p` is `heap[p]?`. -/
abbrev Heap := List GObject

/-- The type check `GEGL_IS_BUFFER (p)`. -/
def GEGL_IS_BUFFER (heap : Heap) (p : Ptr) : Bool :=
  match heap[p]? with
  | some (GObject.buffer _) => true
  | _ => false

/-- The type check `GEGL_IS_TILE_STORAGE (p)`. -/
def GEGL_IS_TILE_STORAGE (heap : Heap) (p : Ptr) : Bool :=
  match heap[p]? with
  | some (GObject.tile_storage _) => true
  | _ => false

/-- The type check `GEGL_IS_TILE_BACKEND (p)`. -/
def GEGL_IS_TILE_BACKEND (heap : Heap) (p : Ptr) : Bool :=
  match heap[p]? with
  | some (GObject.tile_backend _) => true
  | _ => false

/-- The read `GEGL_TILE_HANDLER (p)->source`; the outer `none` when `p` is not
a tile handler (buffers and tile storages are tile handlers, backends are not). -/
def handler_source (heap : Heap) (p : Ptr) : Option (Option Ptr) :=
  match heap[p]? with
  | some (GObject.buffer b) => some b.source
  | some (GObject.tile_storage s) => some s.source
  | some (GObject.tile_handler source) => some source
  | _ => none

/-- The do-while loop of `gegl_buffer_backend2`, entered with the value `tmp`
just loaded from a handler's `source`: it ends when `tmp` is `NULL` or a tile
backend, and loads the next source otherwise. -/
def gegl_buffer_backend2_walk : Nat → Heap → Option Ptr → Option (Option Ptr)
  | _, _, none => some none
  | 0, _, some _ => none
  | fuel + 1, heap, some tmp =>
    if GEGL_IS_TILE_BACKEND heap tmp then some (some tmp)
    else
      match handler_source heap tmp with
      | none => none
      | some next => gegl_buffer_backend2_walk fuel heap next

/-- The function `gegl_buffer_backend2` on the buffer with fields `buffer`.
The walk visits each object at most once unless it runs forever, so one unit
of fuel per object (the heap's and the buffer itself) is exact. -/
def gegl_buffer_backend2 (heap : Heap) (buffer : GeglBuffer) : Option (Option Ptr) :=
  gegl_buffer_backend2_walk (heap.length + 1) heap buffer.source

/-- The function `gegl_buffer_backend`: the cached `buffer->backend` when set,
else the backend found by `gegl_buffer_backend2`, cached when found.  Returns
the buffer's fields after the call and the C result. -/
def gegl_buffer_backend (heap : Heap) (buffer : GeglBuffer) :
    Option (GeglBuffer × Option Ptr) :=
  match buffer.backend with
  | some backend => some (buffer, some backend)
  | none =>
    match gegl_buffer_backend2 heap buffer with
    | none => none
    | some none => some (buffer, none)
    | some (some tmp) => some ({ buffer with backend := some tmp }, some tmp)

/-- The do-while loop of `gegl_buffer_tile_storage`, entered with the value
`tmp` just loaded from a handler's `source`: it ends when `tmp` is a tile
storage; `GEGL_IS_TILE_STORAGE (NULL)` is false, so on `NULL` the next
iteration dereferences `NULL`. -/
def gegl_buffer_tile_storage_walk : Nat → Heap → Option Ptr → Option Ptr
  | _, _, none => none
  | 0, _, some _ => none
  | fuel + 1, heap, some tmp =>
    if GEGL_IS_TILE_STORAGE heap tmp then some tmp
    else
      match handler_source heap tmp with
      | none => none
      | some next => gegl_buffer_tile_storage_walk fuel heap next

/-- The function `gegl_buffer_tile_storage` on the buffer with fields `buffer`,
with one unit of fuel per object (the heap's and the buffer itself). -/
def gegl_buffer_tile_storage (heap : Heap) (buffer : GeglBuffer) : Option Ptr :=
  gegl_buffer_tile_storage_walk (heap.length + 1) heap buffer.source

/-- The function `gegl_buffer_set_extent`.  It returns `FALSE` without effect
when `buffer` is not a buffer; else it stores the extent, copies it into the
header of the buffer's backend when there is one, and copies it into the
abyss when `abyss_tracks_extent` is set. -/
def gegl_buffer_set_extent (heap : Heap) (buffer : Ptr) (extent : GeglRectangle) :
    Option (Heap × Bool) :=
  match heap[buffer]? with
  | some (GObject.buffer b) =>
    let b1 := { b with extent := extent }
    match gegl_buffer_backend heap b1 with
    | some (b2, some backend) =>
      match heap[backend]? with
      | some (GObject.tile_backend k) =>
        let heap1 :=
          match k.header with
          | some _ =>
            heap.set backend (GObject.tile_backend
              { k with header := some { x := b2.extent.x, y := b2.extent.y,
                                        width := b2.extent.width,
                                        height := b2.extent.height } })
          | none => heap
        let b3 := if b2.abyss_tracks_extent then { b2 with abyss := extent } else b2
        some (heap1.set buffer (GObject.buffer b3), true)
      | _ => none
    | _ => none
  | _ => some (heap, false)

/-- The function `gegl_buffer_set_abyss`. -/
def gegl_buffer_set_abyss (heap : Heap) (buffer : Ptr) (abyss : GeglRectangle) :
    Option (Heap × Bool) :=
  match heap[buffer]? with
  | some (GObject.buffer b) =>
    some (heap.set buffer (GObject.buffer { b with abyss := abyss }), true)
  | _ => some (heap, false)

/-- The function `gegl_buffer_set_format`; the result's second component is the
returned format pointer.  `babl_format_get_bytes_per_pixel` is only defined
on a format, so a call with a `NULL` storage format does not return. -/
def gegl_buffer_set_format (heap : Heap) (buffer : Ptr) (format : Option Babl) :
    Option (Heap × Option Babl) :=
  match heap[buffer]? with
  | some (GObject.buffer b) =>
    match format with
    | none =>
      some (heap.set buffer (GObject.buffer { b with soft_format := b.format }), b.format)
    | some f =>
      match b.format with
      | none => none
      | some g =>
        if babl_format_get_bytes_per_pixel f = babl_format_get_bytes_per_pixel g then
          some (heap.set buffer (GObject.buffer { b with soft_format := some f }), some f)
        else
          some (heap, none)
  | _ => none

/-- Modelled from the spec: `gegl_rectangle_intersect` is not among the sources
at hand.  The intersection of two rectangles, as a rectangle; when the two do
not overlap in a region of positive width and height the destination is set
to (0, 0, 0, 0) and the call returns `FALSE`. -/
def gegl_rectangle_intersect (src1 src2 : GeglRectangle) : GeglRectangle × Bool :=
  let x1 := max src1.x src2.x
  let x2 := min (src1.x + src1.width) (src2.x + src2.width)
  if x2 ≤ x1 then ({ x := 0, y := 0, width := 0, height := 0 }, false)
  else
    let y1 := max src1.y src2.y
    let y2 := min (src1.y + src1.height) (src2.y + src2.height)
    if y2 ≤ y1 then ({ x := 0, y := 0, width := 0, height := 0 }, false)
    else ({ x := x1, y := y1, width := x2 - x1, height := y2 - y1 }, true)

/-- Modelled from the spec: `gegl_rectangle_equal` is not among the sources at
hand.  Two rectangles are equal when their four fields agree. -/
def gegl_rectangle_equal (r1 r2 : GeglRectangle) : Bool :=
  r1.x == r2.x && r1.y == r2.y && r1.width == r2.width && r1.height == r2.height

/-- The pixel at (px, py) lies inside the rectangle. -/
def GeglRectangle.covers (r : GeglRectangle) (px py : Int) : Prop :=
  r.x ≤ px ∧ px < r.x + r.width ∧ r.y ≤ py ∧ py < r.y + r.height

instance (r : GeglRectangle) (px py : Int) : Decidable (r.covers px py) := by
  unfold GeglRectangle.covers
  infer_instance

/-- What the constructor reads from outside the heap: `gegl_config ()`, the
process id, the static counter of `get_next_swap_path`, and the width and
height `gegl_tile_storage_new` gives a new storage. -/
structure GeglEnv where
  swap : Option String
  tile_width : Int
  tile_height : Int
  pid : Int
  no : Int
  storage_width : Int
  storage_height : Int
deriving DecidableEq, Repr

/-- The construct properties handed to `g_object_new (GEGL_TYPE_BUFFER, ...)`;
a property left out has the default of its param spec. -/
structure GeglBufferParams where
  source : Option Ptr
  x : Int
  y : Int
  width : Int
  height : Int
  shift_x : Int
  shift_y : Int
  abyss_x : Int
  abyss_y : Int
  abyss_width : Int
  abyss_height : Int
  format : Option Babl
  tile_width : Int
  tile_height : Int
  path : Option String
  backend : Option Ptr
deriving DecidableEq, Repr

/-- The param-spec defaults of the construct properties. -/
def GeglBufferParams.default (env : GeglEnv) : GeglBufferParams :=
  { source := none, x := 0, y := 0, width := -1, height := -1,
    shift_x := 0, shift_y := 0,
    abyss_x := 0, abyss_y := 0, abyss_width := 0, abyss_height := 0,
    format := none, tile_width := env.tile_width, tile_height := env.tile_height,
    path := none, backend := none }

/-- The value of a `gint` computation: the result reduced to 32 bits, two's
complement, as the compiled program leaves it. -/
def to_gint (v : Int) : Int :=
  (v + 2147483648) % 4294967296 - 2147483648

/-- What `g_object_new` leaves in the field of an int construct property with
the param-spec range `minimum` to `maximum`: the value when it lies in the
range; for a value out of range GObject warns and does not call
`gegl_buffer_set_property`, so the field keeps `initial`, what the instance
initialisation left there. -/
def construct_int (minimum maximum initial value : Int) : Int :=
  if minimum ≤ value ∧ value ≤ maximum then value else initial

/-- The construct properties of the extent, the shift and the abyss lie in the
ranges of their param specs, as `gegl_buffer_class_init` declares them:
`G_MININT / 2` to `G_MAXINT / 2` for the coordinates and shifts, -1 to
`G_MAXINT` for the sizes. -/
def GeglBufferParams.in_range (params : GeglBufferParams) : Prop :=
  (-1073741824 ≤ params.x ∧ params.x ≤ 1073741823) ∧
  (-1073741824 ≤ params.y ∧ params.y ≤ 1073741823) ∧
  (-1 ≤ params.width ∧ params.width ≤ 2147483647) ∧
  (-1 ≤ params.height ∧ params.height ≤ 2147483647) ∧
  (-1073741824 ≤ params.shift_x ∧ params.shift_x ≤ 1073741823) ∧
  (-1073741824 ≤ params.shift_y ∧ params.shift_y ≤ 1073741823) ∧
  (-1073741824 ≤ params.abyss_x ∧ params.abyss_x ≤ 1073741823) ∧
  (-1073741824 ≤ params.abyss_y ∧ params.abyss_y ≤ 1073741823) ∧
  (-1 ≤ params.abyss_width ∧ params.abyss_width ≤ 2147483647) ∧
  (-1 ≤ params.abyss_height ∧ params.abyss_height ≤ 2147483647)

instance (params : GeglBufferParams) : Decidable params.in_range := by
  unfold GeglBufferParams.in_range
  infer_instance

/-- The instance as the parent constructor leaves it: zeroed memory,
`gegl_buffer_init` (tile size 128 by 64), then `gegl_buffer_set_property` for
each construct property whose value passes the validation of its param spec
(a `NULL` format or backend is not stored, `soft_format` is still `NULL`). -/
def construct_properties (params : GeglBufferParams) : GeglBuffer :=
  { source := params.source,
    extent := { x := construct_int (-1073741824) 1073741823 0 params.x,
                y := construct_int (-1073741824) 1073741823 0 params.y,
                width := construct_int (-1) 2147483647 0 params.width,
                height := construct_int (-1) 2147483647 0 params.height },
    abyss := { x := construct_int (-1073741824) 1073741823 0 params.abyss_x,
               y := construct_int (-1073741824) 1073741823 0 params.abyss_y,
               width := construct_int (-1) 2147483647 0 params.abyss_width,
               height := construct_int (-1) 2147483647 0 params.abyss_height },
    abyss_tracks_extent := false,
    shift_x := construct_int (-1073741824) 1073741823 0 params.shift_x,
    shift_y := construct_int (-1073741824) 1073741823 0 params.shift_y,
    format := params.format,
    soft_format := none,
    tile_width := construct_int (-1) 2147483647 128 params.tile_width,
    tile_height := construct_int (-1) 2147483647 64 params.tile_height,
    path := params.path,
    backend := params.backend,
    tile_storage := none,
    lock_count := 0 }

/-- The GLib call `g_ascii_strcasecmp (a, b) == 0`. -/
def g_ascii_strcasecmp_eq (a b : String) : Bool :=
  a.toList.map Char.toLower == b.toList.map Char.toLower

/-- The GLib call `g_build_filename (dir, file, NULL)`: an empty element is
skipped; else the directory without its trailing separators and the file
without its leading separators are joined by one separator, and a directory
made of separators only is kept as it is, with no separator added. -/
def g_build_filename (dir file : String) : String :=
  if dir.isEmpty then file
  else if file.isEmpty then dir
  else
    (if (dir.toList.reverse.dropWhile (fun c => c == '/')).isEmpty then dir
      else String.mk (dir.toList.reverse.dropWhile (fun c => c == '/')).reverse ++ "/") ++
      String.mk (file.toList.dropWhile (fun c => c == '/'))

/-- The function `get_next_swap_path`: `g_error` aborts without a swap
directory; else the file name is the process id, a dash and the counter,
which `g_atomic_int_inc` then takes up by one, as a `gint`. -/
def get_next_swap_path (env : GeglEnv) : Option (GeglEnv × String) :=
  match env.swap with
  | none => none
  | some swap_dir =>
    let filename := toString env.pid ++ "-" ++ toString env.no
    some ({ env with no := to_gint (env.no + 1) }, g_build_filename swap_dir filename)

/-- The accessor `gegl_tile_backend_get_format`, which reads the backend's format. -/
def gegl_tile_backend_get_format (heap : Heap) (backend : Ptr) : Option (Option Babl) :=
  match heap[backend]? with
  | some (GObject.tile_backend k) => some k.format
  | _ => none

/-- Modelled from the spec: `gegl_tile_storage_new` is not among the sources at
hand.  A tile storage built on a backend: a handler chain whose source is the
backend, with the backend's format and tile size, no listener and no hot tile
yet. -/
def gegl_tile_storage_new (env : GeglEnv) (backend : Ptr) (k : GeglTileBackend) :
    GeglTileStorage :=
  { source := some backend,
    format := k.format,
    tile_width := k.tile_width,
    tile_height := k.tile_height,
    width := env.storage_width,
    height := env.storage_height,
    changed_handlers := [],
    hot_tile := none }

/-- Modelled from the spec: the backend classes are not among the sources at
hand.  The instance `g_object_new (GEGL_TYPE_TILE_BACKEND_RAM, ...)` makes: an
in-memory map, with no file header and not shared. -/
def gegl_tile_backend_ram_new (tile_width tile_height : Int) (format : Option Babl) :
    GeglTileBackend :=
  { type := GeglTileBackendType.ram, tile_width := tile_width,
    tile_height := tile_height, format := format, path := none,
    header := none, shared := false }

/-- Modelled from the spec: the backend classes are not among the sources at
hand.  The instance `g_object_new (GEGL_TYPE_TILE_BACKEND_FILE, ...)` makes: a
swap file at `path` with a header that records an extent. -/
def gegl_tile_backend_file_new (tile_width tile_height : Int) (format : Option Babl)
    (path : String) : GeglTileBackend :=
  { type := GeglTileBackendType.file, tile_width := tile_width,
    tile_height := tile_height, format := format, path := some path,
    header := some { x := 0, y := 0, width := 0, height := 0 }, shared := false }

/-- Lines 540-597 of `gegl_buffer_constructor`: no source and no backend were
given, so a backend is made: the RAM backend when the buffer's path, or else
the configured swap, is unset or reads "ram", a file backend at the
buffer's path or at the next swap path otherwise.  Returns the environment,
the buffer's format and the new backend. -/
def constructor_new_backend (env : GeglEnv) (b : GeglBuffer) :
    Option (GeglEnv × Option Babl × GeglTileBackend) :=
  let format : Option Babl :=
    match b.format with
    | none => some babl_format_RGBA_float
    | some f => some f
  let maybe_path : Option String :=
    match b.path with
    | some path => some path
    | none => env.swap
  let use_ram : Bool :=
    match maybe_path with
    | some path => g_ascii_strcasecmp_eq path "ram"
    | none => true
  if use_ram = true then
    some (env, format, gegl_tile_backend_ram_new b.tile_width b.tile_height format)
  else
    match b.path with
    | some path =>
      some (env, format, gegl_tile_backend_file_new b.tile_width b.tile_height format path)
    | none =>
      match get_next_swap_path env with
      | none => none
      | some (env1, path) =>
        some (env1, format,
          gegl_tile_backend_file_new b.tile_width b.tile_height format path)

/-- Lines 526-603 of `gegl_buffer_constructor`: the format is taken from a
source that is a tile storage or a buffer; without a source a tile storage is
built on the given backend, or on a new one, and becomes the source.  New
objects are appended to the heap.  Returns the environment, the heap, the
buffer's fields and the local variable `backend`. -/
def constructor_source (env : GeglEnv) (heap : Heap) (b : GeglBuffer)
    (backend : Option Ptr) : Option (GeglEnv × Heap × GeglBuffer × Option Ptr) :=
  match b.source with
  | some source =>
    match heap[source]? with
    | some (GObject.tile_storage s) => some (env, heap, { b with format := s.format }, backend)
    | some (GObject.buffer p) => some (env, heap, { b with format := p.format }, backend)
    | _ => some (env, heap, b, backend)
  | none =>
    match b.backend with
    | some given =>
      match heap[given]? with
      | some (GObject.tile_backend k) =>
        let storage : Ptr := heap.length
        some (env, heap ++ [GObject.tile_storage (gegl_tile_storage_new env given k)],
          { b with format := k.format, source := some storage }, some given)
      | _ => none
    | none =>
      match constructor_new_backend env b with
      | none => none
      | some (env1, format, k) =>
        let made : Ptr := heap.length
        let storage : Ptr := heap.length + 1
        some (env1,
          heap ++ [GObject.tile_backend k,
                   GObject.tile_storage (gegl_tile_storage_new env1 made k)],
          { b with format := format, backend := some made, source := some storage },
          some made)

/-- Lines 608-613 of `gegl_buffer_constructor`: when the source is a tile
storage, its `changed` signal is connected to the buffer. -/
def constructor_connect (heap : Heap) (self : Ptr) (source : Option Ptr) : Heap :=
  match source with
  | none => heap
  | some src =>
    match heap[src]? with
    | some (GObject.tile_storage s) =>
      heap.set src (GObject.tile_storage
        { s with changed_handlers := s.changed_handlers ++ [self] })
    | _ => heap

/-- Lines 617-642 of `gegl_buffer_constructor`: an extent with width or height
-1 is inherited from the source object `src`. -/
def constructor_extent (src : Option GObject) (b : GeglBuffer) : GeglBuffer :=
  if b.extent.width = -1 ∨ b.extent.height = -1 then
    match src with
    | some (GObject.buffer p) =>
      { b with extent := { x := p.extent.x, y := p.extent.y,
                            width := p.extent.width, height := p.extent.height } }
    | some (GObject.tile_storage s) =>
      { b with extent := { x := 0, y := 0, width := s.width, height := s.height } }
    | _ => { b with extent := { x := 0, y := 0, width := 0, height := 0 } }
  else b

/-- Lines 644-674 of `gegl_buffer_constructor`: an all-zero abyss becomes the
extent and is tracked; a zero-sized one only draws a warning; one with width
or height -1 is the abyss of the source, read as a buffer, moved by the shift
in `gint` arithmetic. -/
def constructor_abyss (src : Option GObject) (b : GeglBuffer) : Option GeglBuffer :=
  let b := { b with abyss_tracks_extent := false }
  if b.abyss.width = 0 ∧ b.abyss.height = 0 ∧ b.abyss.x = 0 ∧ b.abyss.y = 0 then
    some { b with abyss := { x := b.extent.x, y := b.extent.y,
                              width := b.extent.width, height := b.extent.height },
                  abyss_tracks_extent := true }
  else if b.abyss.width = 0 ∧ b.abyss.height = 0 then
    some b
  else if b.abyss.width = -1 ∨ b.abyss.height = -1 then
    match src with
    | some (GObject.buffer p) =>
      some { b with abyss := { x := to_gint (p.abyss.x - b.shift_x),
                                y := to_gint (p.abyss.y - b.shift_y),
                                width := p.abyss.width, height := p.abyss.height } }
    | _ => none
  else some b

/-- Lines 676-712 of `gegl_buffer_constructor`: with a buffer as source the
abyss is intersected with the parent's, moved by the shift in `gint`
arithmetic, and the abyss stops tracking the extent when the intersection is
not the whole extent. -/
def constructor_intersect (src : Option GObject) (b : GeglBuffer) : GeglBuffer :=
  match src with
  | some (GObject.buffer p) =>
    let parent : GeglRectangle :=
      { x := to_gint (p.abyss.x - b.shift_x), y := to_gint (p.abyss.y - b.shift_y),
        width := p.abyss.width, height := p.abyss.height }
    let request : GeglRectangle :=
      { x := b.abyss.x, y := b.abyss.y, width := b.abyss.width, height := b.abyss.height }
    let self := (gegl_rectangle_intersect parent request).1
    let tracks : Bool :=
      if b.abyss_tracks_extent = true ∧
          (b.extent.x ≠ self.x ∨ b.extent.y ≠ self.y ∨
           b.extent.width ≠ self.width ∨ b.extent.height ≠ self.height) then false
      else b.abyss_tracks_extent
    { b with abyss_tracks_extent := tracks,
             abyss := { x := self.x, y := self.y, width := self.width, height := self.height } }
  | _ => b

/-- Lines 714-727 of `gegl_buffer_constructor`: the shift of a source that is a
buffer is added to the buffer's own, a `gint` sum. -/
def constructor_shift (src : Option GObject) (b : GeglBuffer) : GeglBuffer :=
  match src with
  | some (GObject.buffer source_buf) =>
    { b with shift_x := to_gint (b.shift_x + source_buf.shift_x),
             shift_y := to_gint (b.shift_y + source_buf.shift_y) }
  | _ => b

/-- Lines 617-727 of `gegl_buffer_constructor`: extent, abyss and shift. -/
def constructor_view (heap : Heap) (b : GeglBuffer) : Option GeglBuffer :=
  let src : Option GObject := b.source.bind (fun source => heap[source]?)
  match constructor_abyss src (constructor_extent src b) with
  | none => none
  | some b1 => some (constructor_shift src (constructor_intersect src b1))

/-- The function `gegl_buffer_constructor`, run by `g_object_new` on the
construct properties `params`.  The new instance takes the next free address
and is stored there with its final fields; the result is the environment,
the heap and the address of the new buffer. -/
def gegl_buffer_constructor (env : GeglEnv) (heap : Heap) (params : GeglBufferParams) :
    Option (GeglEnv × Heap × Ptr) :=
  let self : Ptr := heap.length
  let b0 := construct_properties params
  let heap0 := heap ++ [GObject.buffer b0]
  match gegl_buffer_backend heap0 b0 with
  | none => none
  | some (b1, backend0) =>
    match constructor_source env heap0 b1 backend0 with
    | none => none
    | some (env1, heap1, b2, backend) =>
      let heap2 := constructor_connect heap1 self b2.source
      match backend with
      | none => none
      | some _ =>
        match constructor_view heap2 b2 with
        | none => none
        | some b3 =>
          match gegl_buffer_tile_storage heap2 b3 with
          | none => none
          | some storage =>
            some (env1,
              heap2.set self (GObject.buffer
                { b3 with tile_storage := some storage, soft_format := b3.format }),
              self)

/-- The function `gegl_buffer_create_sub_buffer`; `extent` may be `NULL`.  The
result's last component is the returned pointer. -/
def gegl_buffer_create_sub_buffer (env : GeglEnv) (heap : Heap) (buffer : Ptr)
    (extent : Option GeglRectangle) : Option (GeglEnv × Heap × Option Ptr) :=
  match heap[buffer]? with
  | some (GObject.buffer b) =>
    match extent with
    | none => some (env, heap, some buffer)
    | some e =>
      if gegl_rectangle_equal e b.extent = true then some (env, heap, some buffer)
      else
        let params : GeglBufferParams :=
          if e.width < 0 ∨ e.height < 0 then
            { GeglBufferParams.default env with
              source := some buffer, x := e.x, y := e.y, width := 0, height := 0 }
          else
            { GeglBufferParams.default env with
              source := some buffer, x := e.x, y := e.y,
              width := e.width, height := e.height }
        match gegl_buffer_constructor env heap params with
        | none => none
        | some (env1, heap1, sub) => some (env1, heap1, some sub)
  | _ => some (env, heap, none)

/-- The parent's abyss as `gegl_buffer_constructor` moves it by the buffer's
shift (sx, sy): the two subtractions are `gint` computations. -/
def moved_abyss (P : GeglBuffer) (sx sy : Int) : GeglRectangle :=
  { x := to_gint (P.abyss.x - sx), y := to_gint (P.abyss.y - sy),
    width := P.abyss.width, height := P.abyss.height }

/-- The parent's abyss translated by (-sx, -sy), in the words of the
specification: over the integers. -/
def translated_abyss (P : GeglBuffer) (sx sy : Int) : GeglRectangle :=
  { x := P.abyss.x - sx, y := P.abyss.y - sy, width := P.abyss.width, height := P.abyss.height }

/-- The requested abyss of a construction on parent `P`: the extent when the
four abyss parameters are zero, the parameters themselves otherwise. -/
def requested_abyss (params : GeglBufferParams) (P : GeglBuffer) : GeglRectangle :=
  if params.abyss_width = 0 ∧ params.abyss_height = 0 ∧
      params.abyss_x = 0 ∧ params.abyss_y = 0 then
    (if params.width = -1 ∨ params.height = -1 then P.extent
     else { x := params.x, y := params.y, width := params.width, height := params.height })
  else
    { x := params.abyss_x, y := params.abyss_y,
      width := params.abyss_width, height := params.abyss_height }

/-- The shift stored at the end of a chain of nested sub-buffers, as the
constructor computes it: each construction adds the stored shift of its parent
to its own construction shift, as a `gint`. -/
def chain_shift : Int → List Int → Int
  | start, [] => start
  | start, shift :: rest => chain_shift (to_gint (shift + start)) rest

/-- No sum along the chain leaves the range of a `gint`. -/
def sums_in_gint : Int → List Int → Prop
  | _, [] => True
  | start, shift :: rest =>
    (-2147483648 ≤ shift + start ∧ shift + start ≤ 2147483647) ∧
      sums_in_gint (shift + start) rest

/-- An environment for the worked examples: no swap configured. -/
def example_env : GeglEnv :=
  { swap := none, tile_width := 128, tile_height := 64, pid := 4711, no := 1,
    storage_width := 2147483647, storage_height := 2147483647 }

/-- The construct properties of `gegl_buffer_new` for the extent (0, 0, 256, 256). -/
def example_root_params : GeglBufferParams :=
  { GeglBufferParams.default example_env with
    x := 0, y := 0, width := 256, height := 256, format := some babl_format_RGBA_float }

/-- The buffer `gegl_buffer_new` makes from `example_root_params` on an empty heap. -/
def example_root : GeglBuffer :=
  { source := some 2,
    extent := { x := 0, y := 0, width := 256, height := 256 },
    abyss := { x := 0, y := 0, width := 256, height := 256 },
    abyss_tracks_extent := true,
    shift_x := 0, shift_y := 0,
    format := some babl_format_RGBA_float,
    soft_format := some babl_format_RGBA_float,
    tile_width := 128, tile_height := 64,
    path := none, backend := some 1, tile_storage := some 2, lock_count := 0 }

/-- The RAM backend made along with `example_root`. -/
def example_backend : GeglTileBackend :=
  gegl_tile_backend_ram_new 128 64 (some babl_format_RGBA_float)

/-- The heap after that construction: the buffer, its RAM backend and its tile storage. -/
def example_heap : Heap :=
  [GObject.buffer example_root,
   GObject.tile_backend example_backend,
   GObject.tile_storage
     { source := some 1, format := some babl_format_RGBA_float,
       tile_width := 128, tile_height := 64,
       width := 2147483647, height := 2147483647, changed_handlers := [0],
       hot_tile := none }]

/-- A sub-buffer of `example_root` that reaches over the parent's abyss: made with
extent (200, 200, 100, 100), its abyss is clipped and does not track the extent. -/
def example_clipped : GeglBuffer :=
  { source := some 0,
    extent := { x := 200, y := 200, width := 100, height := 100 },
    abyss := { x := 200, y := 200, width := 56, height := 56 },
    abyss_tracks_extent := false,
    shift_x := 0, shift_y := 0,
    format := some babl_format_RGBA_float,
    soft_format := some babl_format_RGBA_float,
    tile_width := 128, tile_height := 64,
    path := none, backend := some 1, tile_storage := some 2, lock_count := 0 }

/-- A chain of nested sub-buffers: starting from `parent`, each entry of the
list is constructed with the buffer made before it as source.  Returns the
last buffer made (`parent` itself for the empty list). -/
def construct_chain (env : GeglEnv) (heap : Heap) (parent : Ptr) :
    List GeglBufferParams → Option (GeglEnv × Heap × Ptr)
  | [] => some (env, heap, parent)
  | params :: rest =>
    match gegl_buffer_constructor env heap { params with source := some parent } with
    | none => none
    | some (env1, heap1, sub) => construct_chain env1 heap1 sub rest

/-- A run of `gegl_buffer_set_format` calls on one buffer, one per entry of the
list (`none` is a call with `NULL`); the returned formats are dropped. -/
def set_format_calls (heap : Heap) (buffer : Ptr) : List (Option Babl) → Option Heap
  | [] => some heap
  | format :: rest =>
    match gegl_buffer_set_format heap buffer format with
    | none => none
    | some (heap1, _) => set_format_calls heap1 buffer rest

/-- Construct properties that ask for an inherited abyss: abyss width -1. -/
def example_inherit_params : GeglBufferParams :=
  { GeglBufferParams.default example_env with
    source := some 0, x := 0, y := 0, width := 10, height := 10,
    abyss_x := 0, abyss_y := 0, abyss_width := -1, abyss_height := 5 }

/-- Construct properties of a shifted view with an abyss of its own. -/
def example_shifted_params : GeglBufferParams :=
  { GeglBufferParams.default example_env with
    source := some 0, x := 0, y := 0, width := 50, height := 50,
    shift_x := 10, shift_y := 20,
    abyss_x := -20, abyss_y := -30, abyss_width := 40, abyss_height := 60 }

/-- Construct properties with the largest shift the param spec of shift-x lets
through, `G_MAXINT / 2`. -/
def example_far_shift_params : GeglBufferParams :=
  { GeglBufferParams.default example_env with
    source := some 0, x := 0, y := 0, width := 10, height := 10,
    shift_x := 1073741823, shift_y := 0 }

/-- Construct properties with an x beyond the range of its param spec. -/
def example_far_params : GeglBufferParams :=
  { GeglBufferParams.default example_env with
    x := 2000000000, y := 0, width := 10, height := 10,
    format := some babl_format_RGBA_float }

/-- The format `babl_format ("RaGaBaA float")`: as wide as "RGBA float". -/
def babl_format_RaGaBaA_float : Babl :=
  { name := "RaGaBaA float", bytes_per_pixel := 16 }

/-- The format `babl_format ("RGBA u8")`: four bytes per pixel. -/
def babl_format_RGBA_u8 : Babl :=
  { name := "RGBA u8", bytes_per_pixel := 4 }

/-- The function `gegl_buffer_get_format`; `buffer` may be `NULL`. -/
def gegl_buffer_get_format (heap : Heap) (buffer : Option Ptr) : Option (Option Babl) :=
  match buffer with
  | none => some none
  | some p =>
    match heap[p]? with
    | some (GObject.buffer b) => some b.format
    | _ => none

/-- The function `gegl_buffer_internal_get_format`: the buffer's format when it
is set, else the format of the backend `gegl_buffer_backend` finds. -/
def gegl_buffer_internal_get_format (heap : Heap) (buffer : GeglBuffer) :
    Option (GeglBuffer × Option Babl) :=
  match buffer.format with
  | some format => some (buffer, some format)
  | none =>
    match gegl_buffer_backend heap buffer with
    | some (b1, some backend) =>
      match gegl_tile_backend_get_format heap backend with
      | some format => some (b1, format)
      | none => none
    | _ => none

/-- The case `PROP_FORMAT` of `gegl_buffer_get_property`: the soft format, else
the format, else the internal format; the result's second component is the
pointer stored in the value. -/
def gegl_buffer_get_property_format (heap : Heap) (buffer : Ptr) :
    Option (Heap × Option Babl) :=
  match heap[buffer]? with
  | some (GObject.buffer b) =>
    match b.soft_format with
    | some format => some (heap, some format)
    | none =>
      match b.format with
      | some format => some (heap, some format)
      | none =>
        match gegl_buffer_internal_get_format heap b with
        | none => none
        | some (b1, format) => some (heap.set buffer (GObject.buffer b1), format)
  | _ => none

/-- Construct properties of a buffer on the tile storage of `example_heap`, with
no extent given. -/
def example_on_storage_params : GeglBufferParams :=
  { GeglBufferParams.default example_env with source := some 2 }

/-- Construct properties of `gegl_buffer_new_for_backend` on the backend of
`example_heap`, for the extent (0, 0, 64, 64). -/
def example_on_backend_params : GeglBufferParams :=
  { GeglBufferParams.default example_env with
    x := 0, y := 0, width := 64, height := 64,
    format := some babl_format_RGBA_float, backend := some 1 }

/-- The callback `gegl_buffer_storage_changed`: it emits "changed" with `rect`
on the buffer passed as user data.  An emission is recorded as the pair of the
emitting buffer and the rectangle. -/
def gegl_buffer_storage_changed (rect : GeglRectangle) (userdata : Ptr) :
    Ptr × GeglRectangle :=
  (userdata, rect)

/-- The tile storage at `storage` emits `changed (rect)`: GLib runs the connected
callbacks in the order of their connection.  Returns the emissions of
"changed" by buffers that follow. -/
def tile_storage_emit_changed (heap : Heap) (storage : Ptr) (rect : GeglRectangle) :
    List (Ptr × GeglRectangle) :=
  match heap[storage]? with
  | some (GObject.tile_storage s) => s.changed_handlers.map (gegl_buffer_storage_changed rect)
  | _ => []

/-- An environment whose configured swap reads "RAM", in capitals. -/
def example_env_RAM : GeglEnv :=
  { example_env with swap := some "RAM" }

/-- An environment with a swap directory configured. -/
def example_env_swap : GeglEnv :=
  { example_env with swap := some "/tmp/swap" }

/-- A run of `n` calls of `get_next_swap_path`, one after the other; returns the
paths in the order of the calls. -/
def get_next_swap_path_calls : Nat → GeglEnv → Option (GeglEnv × List String)
  | 0, env => some (env, [])
  | n + 1, env =>
    match get_next_swap_path env with
    | none => none
    | some (env1, path) =>
      match get_next_swap_path_calls n env1 with
      | none => none
      | some (env2, paths) => some (env2, path :: paths)

/-- The function `gegl_buffer_make_uri` of `gegl-buffer-share.c`: the text it
writes into the caller's buffer, which is taken to be large enough; `host` may
be `NULL`, and `%i` prints an integer in decimal. -/
def gegl_buffer_make_uri (host : Option String) (port process handle : Int) : String :=
  let p0 : String := "buffer://" ++ (match host with
    | some h => h
    | none => "")
  let p1 : String := if port ≠ 0 then p0 ++ (":" ++ toString port) else p0
  let p2 : String := p1 ++ "/"
  let p3 : String := if process ≠ 0 then p2 ++ toString process else p2
  let p4 : String := p3 ++ "/"
  if handle ≠ 0 ∨ (1 : Int) ≠ 0 then p4 ++ toString handle else p4

/-- The URI as the claim words it: "buffer://", the host (empty for `NULL`), a
colon and the port when the port is not 0, a slash, the process when it is
not 0, a slash, the handle. -/
def buffer_uri_text (host : Option String) (port process handle : Int) : String :=
  "buffer://" ++ host.getD "" ++ (if port ≠ 0 then ":" ++ toString port else "") ++ "/" ++
    (if process ≠ 0 then toString process else "") ++ "/" ++ toString handle

/-- Modelled from the spec: `gegl_tile_lock` is not among the sources at hand.
It increments the lock counter (the copy of a shared payload has no part in
the embedding, which carries no pixels). -/
def gegl_tile_lock (tile : GeglTile) : GeglTile :=
  { tile with lock_count := tile.lock_count + 1 }

/-- Modelled from the spec: `gegl_tile_unlock` is not among the sources at hand.
It decrements the lock counter and bumps the revision on the transition to zero. -/
def gegl_tile_unlock (tile : GeglTile) : GeglTile :=
  if tile.lock_count - 1 = 0 then
    { tile with lock_count := tile.lock_count - 1, rev := (tile.rev + 1) % 2 ^ 32 }
  else
    { tile with lock_count := tile.lock_count - 1 }

/-- Lines 754-774 of `gegl_buffer_get_tile`: what the buffer does to a tile its
source returned.  A tile without tile storage is locked, given the buffer's,
unlocked, and its revision taken back by one (`rev--` on a `guint`, wrapping at
zero); then the address is stored. -/
def gegl_buffer_get_tile_adopt (buffer : GeglBuffer) (x y z : Int) (tile : GeglTile) :
    GeglTile :=
  let tile1 : GeglTile :=
    match tile.tile_storage with
    | none =>
      let locked := gegl_tile_lock tile
      let unlocked := gegl_tile_unlock { locked with tile_storage := buffer.tile_storage }
      { unlocked with rev := if unlocked.rev = 0 then 2 ^ 32 - 1 else unlocked.rev - 1 }
    | some _ => tile
  { tile1 with x := x, y := y, z := z }

/-- The function `gegl_buffer_get_tile` on the buffer with fields `handler`, which
`gegl_buffer_command` runs for `GEGL_TILE_GET`.  The call
`gegl_tile_source_get_tile (source, x, y, z)` runs the command of the source:
this function again when the source is a buffer, and `get`, the GET of a tile
source of another kind (tile storage, other handler, backend), otherwise.
`g_assert (0)` aborts without a source.  One unit of fuel per buffer passed. -/
def gegl_buffer_get_tile (get : Ptr → Int → Int → Int → Option GeglTile) :
    Nat → Heap → GeglBuffer → Int → Int → Int → Option (Option GeglTile)
  | 0, _, _, _, _, _ => none
  | fuel + 1, heap, handler, x, y, z =>
    match handler.source with
    | none => none
    | some source =>
      let got : Option (Option GeglTile) :=
        match heap[source]? with
        | some (GObject.buffer parent) => gegl_buffer_get_tile get fuel heap parent x y z
        | some _ => some (get source x y z)
        | none => none
      match got with
      | none => none
      | some none => some none
      | some (some tile) => some (some (gegl_buffer_get_tile_adopt handler x y z tile))

/-- The tile source a GET on the buffer ends at: the first source down the
chain of sources that is not a buffer.  One unit of fuel per buffer passed. -/
def downstream_source : Nat → Heap → GeglBuffer → Option Ptr
  | 0, _, _ => none
  | fuel + 1, heap, handler =>
    match handler.source with
    | none => none
    | some source =>
      match heap[source]? with
      | some (GObject.buffer parent) => downstream_source fuel heap parent
      | some _ => some source
      | none => none

/-- A tile as a tile storage may hand it out: not bound to a storage yet. -/
def example_tile : GeglTile :=
  { address := 77, x := 0, y := 0, z := 0, rev := 0, lock_count := 0, ref_count := 1,
    tile_storage := none }

/-- A GET that has a tile for the addresses with z = 0 only. -/
def example_get (_source : Ptr) (_x _y z : Int) : Option GeglTile :=
  if z = 0 then some example_tile else none

/-- Modelled from the spec: `gegl_tile_unref` is not among the sources at hand.
It gives up one reference to the tile. -/
def gegl_tile_unref (tile : GeglTile) : GeglTile :=
  { tile with ref_count := tile.ref_count - 1 }

/-- The function `_gegl_buffer_drop_hot_tile` on the buffer with fields `buffer`:
a tile in the hot-tile slot of the buffer's tile storage is unreferenced and
the slot set to `NULL`.  Returns the heap and the tiles after their
`gegl_tile_unref`, one entry per call. -/
def _gegl_buffer_drop_hot_tile (heap : Heap) (buffer : GeglBuffer) :
    Option (Heap × List GeglTile) :=
  match buffer.tile_storage with
  | none => none
  | some storage =>
    match heap[storage]? with
    | some (GObject.tile_storage s) =>
      match s.hot_tile with
      | some tile =>
        some (heap.set storage (GObject.tile_storage { s with hot_tile := none }),
          [gegl_tile_unref tile])
      | none => some (heap, [])
    | _ => none

/-- Modelled from the spec: `gegl_buffer_flush` is not among the sources at hand.
A synchronous FLUSH down the chain, which moves no object of the embedding;
whether it first empties the hot-tile slot, as `_gegl_buffer_drop_hot_tile`
does, is left open by `drops`. -/
def gegl_buffer_flush (drops : Bool) (heap : Heap) (buffer : GeglBuffer) :
    Option (Heap × List GeglTile) :=
  if drops = true then _gegl_buffer_drop_hot_tile heap buffer else some (heap, [])

/-- Modelled from the spec: `gegl_tile_source_reinit` is not among the sources at
hand.  REINIT discards the volatile state of the handlers below `source`;
whether that empties the hot-tile slot of a tile storage, unreferencing the
tile, is left open by `drops`. -/
def gegl_tile_source_reinit (drops : Bool) (heap : Heap) (source : Ptr) :
    Heap × List GeglTile :=
  match heap[source]? with
  | some (GObject.tile_storage s) =>
    match s.hot_tile with
    | some tile =>
      if drops = true then
        (heap.set source (GObject.tile_storage { s with hot_tile := none }),
          [gegl_tile_unref tile])
      else (heap, [])
    | none => (heap, [])
  | _ => (heap, [])

/-- The backend type checks of `gegl_buffer_dispose`: the backend is a file, RAM
or tile-directory backend. -/
def is_internal_backend (heap : Heap) (backend : Option Ptr) : Bool :=
  match backend with
  | none => false
  | some be =>
    match heap[be]? with
    | some (GObject.tile_backend k) =>
      k.type == GeglTileBackendType.file || k.type == GeglTileBackendType.ram ||
        k.type == GeglTileBackendType.tile_dir
    | _ => false

/-- The function `gegl_buffer_dispose`, up to the call of the parent class's
dispose, which is not among the sources at hand.  The sampler cleanup and the
OpenCL cache have no state in the embedding.  On a tile storage source a
backend that is not internal is flushed and the source is reinitialised; then
the hot tile is dropped.  Returns the heap and the tiles after their
`gegl_tile_unref`, one entry per call. -/
def gegl_buffer_dispose (flush_drops reinit_drops : Bool) (heap : Heap) (object : Ptr) :
    Option (Heap × List GeglTile) :=
  match heap[object]? with
  | some (GObject.buffer buffer) =>
    let on_storage : Bool :=
      match buffer.source with
      | some source => GEGL_IS_TILE_STORAGE heap source
      | none => false
    if on_storage = true then
      match gegl_buffer_backend heap buffer with
      | none => none
      | some (b1, backend) =>
        let heap1 := heap.set object (GObject.buffer b1)
        let flushed : Option (Heap × List GeglTile) :=
          if is_internal_backend heap1 backend = true then some (heap1, [])
          else gegl_buffer_flush flush_drops heap1 b1
        match flushed with
        | none => none
        | some (heap2, released1) =>
          match b1.source with
          | none => none
          | some source =>
            let reinit := gegl_tile_source_reinit reinit_drops heap2 source
            match _gegl_buffer_drop_hot_tile reinit.1 b1 with
            | none => none
            | some (heap4, released3) => some (heap4, released1 ++ reinit.2 ++ released3)
    else _gegl_buffer_drop_hot_tile heap buffer
  | _ => none

/-- A tile held in a hot-tile slot: two references, one of them the slot's. -/
def example_hot_tile : GeglTile :=
  { address := 78, x := 1, y := 2, z := 0, rev := 4, lock_count := 0, ref_count := 2,
    tile_storage := some 2 }

/-- The heap of `example_heap` with the sub-buffer `example_clipped` and a hot tile
in the slot of the tile storage. -/
def example_hot_heap : Heap :=
  [GObject.buffer example_root,
   GObject.tile_backend example_backend,
   GObject.tile_storage
     { source := some 1, format := some babl_format_RGBA_float,
       tile_width := 128, tile_height := 64,
       width := 2147483647, height := 2147483647, changed_handlers := [0],
       hot_tile := some example_hot_tile },
   GObject.buffer example_clipped]

/-! ## The operation `gegl:invert-gamma`

Sample buffers are lists of components, four to a pixel, as `gfloat *in` and
`gfloat *out` address them.  The components are of a type `α` with a one and a
subtraction, so that `1 - x` stands for the value of the C expression
`1.0 - in[k]` stored to a `gfloat`; rounding has no part in the embedding.  An
access beyond the end of a buffer gives `none`. -/

/-- The body of the `while (samples--)` loop of `process` with the pointers `in`
and `out` advanced by `off` components, and the loop after it: three
components are inverted, the fourth is copied, both pointers move on by
four. -/
def process_loop {α : Type} [One α] [Sub α] : Nat → Nat → List α → List α → Option (List α)
  | 0, _, _, out => some out
  | samples + 1, off, in_buf, out =>
    match in_buf[off]?, in_buf[off + 1]?, in_buf[off + 2]?, in_buf[off + 3]? with
    | some in0, some in1, some in2, some in3 =>
      if off + 3 < out.length then
        process_loop samples (off + 4) in_buf
          ((((out.set off (1 - in0)).set (off + 1) (1 - in1)).set (off + 2) (1 - in2)).set
            (off + 3) in3)
      else none
    | _, _, _, _ => none

/-- The kernel `cl_invert_gamma` of `invert-gamma.cl.h` for the work item `gid`:
`in` and `out` point to `float4`, so element `gid` is the four components
from `4 * gid` on; `xyz` is inverted and `w` copied. -/
def cl_invert_gamma {α : Type} [One α] [Sub α] (in_buf out : List α) (gid : Nat) :
    Option (List α) :=
  match in_buf[4 * gid]?, in_buf[4 * gid + 1]?, in_buf[4 * gid + 2]?,
      in_buf[4 * gid + 3]? with
  | some x, some y, some z, some w =>
    if 4 * gid + 3 < out.length then
      some ((((out.set (4 * gid) (1 - x)).set (4 * gid + 1) (1 - y)).set (4 * gid + 2)
        (1 - z)).set (4 * gid + 3) w)
    else none
  | _, _, _, _ => none

/-- Modelled from the spec: `gegl_clEnqueueNDRangeKernel` is not among the sources
at hand.  A one-dimensional range of `global_worksize` work items, each of
which runs the kernel once with its own `gid`; they are run in ascending
order here. -/
def enqueue_cl_invert_gamma {α : Type} [One α] [Sub α] :
    Nat → List α → List α → Option (List α)
  | 0, _, out => some out
  | global_worksize + 1, in_buf, out =>
    match enqueue_cl_invert_gamma global_worksize in_buf out with
    | some out1 => cl_invert_gamma in_buf out1 global_worksize
    | none => none

/-- The function `cl_process` of `invert-gamma.c`.  `compiled` tells whether
`cl_data` is set after `gegl_cl_compile_and_build`, `set_args_err` and
`enqueue_err` are the `cl_err` of the two OpenCL calls, `0` being
`CL_SUCCESS`; `CL_CHECK` jumps to `error` on any other value.  Returns the
`gboolean` and the output buffer: `TRUE` on the three error paths, `FALSE`
after the kernel was enqueued. -/
def cl_process {α : Type} [One α] [Sub α] (compiled : Bool) (set_args_err enqueue_err : Int)
    (in_buf out : List α) (global_worksize : Nat) : Option (Bool × List α) :=
  if compiled = false then some (true, out)
  else if set_args_err ≠ 0 then some (true, out)
  else if enqueue_err ≠ 0 then some (true, out)
  else
    match enqueue_cl_invert_gamma global_worksize in_buf out with
    | some out1 => some (false, out1)
    | none => none

/-- The function `process` of `invert-gamma.c`.  `use_opencl` is the value of
`gegl_operation_use_opencl (op)`; `samples`, a `glong`, is taken as a count:
with a negative value the loop runs off the buffers.  Returns the `gboolean`
and the output buffer. -/
def process {α : Type} [One α] [Sub α] (use_opencl compiled : Bool)
    (set_args_err enqueue_err : Int) (in_buf out_buf : List α) (samples : Nat) :
    Option (Bool × List α) :=
  let cpu (out : List α) : Option (Bool × List α) :=
    match process_loop samples 0 in_buf out with
    | some out1 => some (true, out1)
    | none => none
  if use_opencl = true then
    match cl_process compiled set_args_err enqueue_err in_buf out_buf samples with
    | none => none
    | some (true, out1) => some (true, out1)
    | some (false, out1) => cpu out1
  else cpu out_buf

/-- The pixel `i` of a sample buffer: the four components from `4 * i` on. -/
def pixel {α : Type} (buf : List α) (i : Nat) : Option (α × α × α × α) :=
  match buf[4 * i]?, buf[4 * i + 1]?, buf[4 * i + 2]?, buf[4 * i + 3]? with
  | some r, some g, some b, some a => some (r, g, b, a)
  | _, _, _, _ => none

/-- The per-pixel function in the words of the specification: the three colour
components are inverted and alpha is copied unchanged. -/
def inverted_pixel {α : Type} [One α] [Sub α] (p : α × α × α × α) : α × α × α × α :=
  (1 - p.1, 1 - p.2.1, 1 - p.2.2.1, p.2.2.2)

/-! ## Locking a buffer

The file lock of a shared backend is kept outside the heap: `file_locked` says
whether the buffer's backend holds it, `calls` lists the calls made to the
backend's lock functions, oldest first.  The mutex of the tile storage has no
part in a sequential run. -/

/-- A call of one of the file backend's lock functions; `granted` is the value
`gegl_tile_backend_file_try_lock` returned. -/
inductive FileLockCall where
  | try_lock (granted : Bool)
  | unlock
deriving DecidableEq, Repr

/-- The heap together with the state of the backend's file lock. -/
structure LockState where
  heap : Heap
  file_locked : Bool
  calls : List FileLockCall
deriving DecidableEq, Repr

/-- Modelled from the spec: `gegl_tile_backend_file_try_lock` is not among the
sources at hand.  The advisory file lock is taken when it is `granted`, which
is the value returned. -/
def gegl_tile_backend_file_try_lock (granted : Bool) (s : LockState) : LockState × Bool :=
  ({ s with file_locked := s.file_locked || granted,
            calls := s.calls ++ [FileLockCall.try_lock granted] }, granted)

/-- Modelled from the spec: `gegl_tile_backend_file_unlock` is not among the
sources at hand.  The advisory file lock is released; returns TRUE. -/
def gegl_tile_backend_file_unlock (s : LockState) : LockState × Bool :=
  ({ s with file_locked := false, calls := s.calls ++ [FileLockCall.unlock] }, true)

/-- The function `gegl_buffer_is_shared` on the buffer with fields `buffer`:
`backend->priv->shared` of the backend `gegl_buffer_backend` finds, which
may cache the backend in the buffer.  `none` is the dereference of a `NULL`
backend or a crashed lookup. -/
def gegl_buffer_is_shared (heap : Heap) (buffer : GeglBuffer) : Option (GeglBuffer × Bool) :=
  match gegl_buffer_backend heap buffer with
  | some (b1, some backend) =>
    match heap[backend]? with
    | some (GObject.tile_backend k) => some (b1, k.shared)
    | _ => none
  | _ => none

/-- The function `gegl_buffer_try_lock`; `granted` is what the backend's try-lock
returns if it is called.  `&buffer->tile_storage->mutex` needs a tile storage.
Returns the state and the `gboolean`: the last statement is `return TRUE`. -/
def gegl_buffer_try_lock (granted : Bool) (s : LockState) (buffer : Ptr) :
    Option (LockState × Bool) :=
  match s.heap[buffer]? with
  | some (GObject.buffer b) =>
    match gegl_buffer_backend s.heap b with
    | none => none
    | some (b1, _) =>
      match b1.tile_storage with
      | none => none
      | some _ =>
        if b1.lock_count > 0 then
          let b2 : GeglBuffer := { b1 with lock_count := b1.lock_count + 1 }
          some ({ s with heap := s.heap.set buffer (GObject.buffer b2) }, true)
        else
          match gegl_buffer_is_shared s.heap b1 with
          | none => none
          | some (b2, shared) =>
            let tried : LockState × Bool :=
              if shared = true then gegl_tile_backend_file_try_lock granted s else (s, true)
            let b3 : GeglBuffer :=
              if tried.2 = true then { b2 with lock_count := b2.lock_count + 1 } else b2
            some ({ tried.1 with heap := s.heap.set buffer (GObject.buffer b3) }, true)
  | _ => none

/-- The function `gegl_buffer_lock`: `gegl_buffer_try_lock` is called until it
returns something other than FALSE; call number i of the backend's try-lock
would be `grants i`.  One unit of fuel per call. -/
def gegl_buffer_lock : Nat → (Nat → Bool) → LockState → Ptr → Option (LockState × Bool)
  | 0, _, _, _ => none
  | fuel + 1, grants, s, buffer =>
    match gegl_buffer_try_lock (grants 0) s buffer with
    | none => none
    | some (s1, false) => gegl_buffer_lock fuel (fun i => grants (i + 1)) s1 buffer
    | some (s1, true) => some (s1, true)

/-- The function `gegl_buffer_unlock`.  A failing `g_assert` aborts: `none`. -/
def gegl_buffer_unlock (s : LockState) (buffer : Ptr) : Option (LockState × Bool) :=
  match s.heap[buffer]? with
  | some (GObject.buffer b) =>
    match gegl_buffer_backend s.heap b with
    | none => none
    | some (b1, _) =>
      match b1.tile_storage with
      | none => none
      | some _ =>
        if b1.lock_count ≥ 0 then
          let b2 : GeglBuffer := { b1 with lock_count := b1.lock_count - 1 }
          if b2.lock_count ≥ 0 then
            if b2.lock_count = 0 then
              match gegl_buffer_is_shared s.heap b2 with
              | none => none
              | some (b3, shared) =>
                let s1 : LockState := { s with heap := s.heap.set buffer (GObject.buffer b3) }
                if shared = true then some (gegl_tile_backend_file_unlock s1)
                else some (s1, true)
            else some ({ s with heap := s.heap.set buffer (GObject.buffer b2) }, true)
          else none
        else none
  | _ => none

/-- The value of `buffer->lock_count`. -/
def lock_count_of (s : LockState) (buffer : Ptr) : Option Int :=
  match s.heap[buffer]? with
  | some (GObject.buffer b) => some b.lock_count
  | _ => none

/-- A call on a buffer: `gegl_buffer_try_lock`, with what the backend would
grant, or `gegl_buffer_unlock`. -/
inductive LockCall where
  | try_lock (granted : Bool)
  | unlock
deriving DecidableEq, Repr

/-- One call of a sequence. -/
def lock_call (s : LockState) (buffer : Ptr) : LockCall → Option (LockState × Bool)
  | LockCall.try_lock granted => gegl_buffer_try_lock granted s buffer
  | LockCall.unlock => gegl_buffer_unlock s buffer

/-- A sequence of calls on the buffer, run from the state `s`. -/
def lock_calls (buffer : Ptr) : LockState → List LockCall → Option LockState
  | s, [] => some s
  | s, call :: rest =>
    match lock_call s buffer call with
    | none => none
    | some (s1, _) => lock_calls buffer s1 rest

/-- The heap of `example_heap` with a shared file backend in place of the RAM
backend. -/
def example_shared_heap : Heap :=
  [GObject.buffer example_root,
   GObject.tile_backend
     { example_backend with type := GeglTileBackendType.file,
                            path := some "/tmp/shared.gegl", shared := true },
   GObject.tile_storage
     { source := some 1, format := some babl_format_RGBA_float,
       tile_width := 128, tile_height := 64,
       width := 2147483647, height := 2147483647, changed_handlers := [0],
       hot_tile := none }]

/-- The buffer has a tile storage and a cached backend, and that backend is
shared. -/
def on_shared_backend (heap : Heap) (buffer : Ptr) : Bool :=
  match heap[buffer]? with
  | some (GObject.buffer b) =>
    match b.tile_storage, b.backend with
    | some _, some backend =>
      match heap[backend]? with
      | some (GObject.tile_backend k) => k.shared
      | _ => false
    | _, _ => false
  | _ => false

/-- The type check `GEGL_IS_TILE_HANDLER (p)`: buffers, tile storages and other
handlers are tile handlers, backends are not. -/
def GEGL_IS_TILE_HANDLER (heap : Heap) (p : Ptr) : Bool :=
  match heap[p]? with
  | some (GObject.tile_backend _) => false
  | some _ => true
  | none => false

/-- The GLib call `g_slist_remove (list, data)`: the first element equal to
`data` is removed, if there is one. -/
def g_slist_remove (list : List Ptr) (data : Ptr) : List Ptr :=
  list.erase data

/-- The GLib call `g_slist_insert (list, data, position)`: `data` becomes the
element at `position`; a position that is negative or larger than the number
of elements adds at the end. -/
def g_slist_insert (list : List Ptr) (data : Ptr) (position : Int) : List Ptr :=
  if position < 0 then list ++ [data]
  else list.take position.toNat ++ data :: list.drop position.toNat

/-- The GLib call `g_slist_find (list, data)`, as a truth value. -/
def g_slist_find (list : List Ptr) (data : Ptr) : Bool :=
  list.contains data

/-- Modelled from the spec: `gegl_tile_handler_chain_add` is not among the sources
at hand.  The handler is added to the chain; where in the list is left open
by `position`. -/
def gegl_tile_handler_chain_add (position : Nat) (chain : List Ptr) (handler : Ptr) :
    List Ptr :=
  g_slist_insert chain handler position

/-- The function `gegl_buffer_add_handler`, acting on the list `chain` of the
buffer's tile storage; the properties set on the handler and the rebinding of
the chain have no part in the embedding.  Reading `buffer->tile_storage->format`
needs a tile storage. -/
def gegl_buffer_add_handler (position : Nat) (heap : Heap) (chain : List Ptr)
    (buffer handler : Ptr) : Option (List Ptr) :=
  match heap[buffer]? with
  | some (GObject.buffer b) =>
    if GEGL_IS_TILE_HANDLER heap handler = true then
      match b.tile_storage with
      | none => none
      | some storage =>
        match heap[storage]? with
        | some (GObject.tile_storage _) =>
          let chain1 := gegl_tile_handler_chain_add position chain handler
          let chain2 := g_slist_remove chain1 handler
          some (g_slist_insert chain2 handler 2)
        | _ => none
    else some chain
  | _ => some chain

/-- The function `gegl_buffer_remove_handler`, acting on the list `chain` of the
buffer's tile storage; the unreferencing of the handler and the rebinding of
the chain have no part in the embedding. -/
def gegl_buffer_remove_handler (heap : Heap) (chain : List Ptr) (buffer handler : Ptr) :
    Option (List Ptr) :=
  match heap[buffer]? with
  | some (GObject.buffer b) =>
    if GEGL_IS_TILE_HANDLER heap handler = true then
      match b.tile_storage with
      | none => none
      | some storage =>
        match heap[storage]? with
        | some (GObject.tile_storage _) =>
          if g_slist_find chain handler = true then some (g_slist_remove chain handler)
          else some chain
        | _ => none
    else some chain
  | _ => some chain

/-- The calls of `g_object_ref` in the body of `gegl_buffer_create_sub_buffer`:
the buffer itself is referenced when it is returned in place of a new view. -/
def gegl_buffer_create_sub_buffer_refs (heap : Heap) (buffer : Ptr)
    (extent : Option GeglRectangle) : List Ptr :=
  match heap[buffer]? with
  | some (GObject.buffer b) =>
    match extent with
    | none => [buffer]
    | some e => if gegl_rectangle_equal e b.extent = true then [buffer] else []
  | _ => []

/-- The heap of `example_heap` with two handlers of a tile storage's chain and a
handler that is to be added. -/
def example_chain_heap : Heap :=
  example_heap ++ [GObject.tile_handler (some 4), GObject.tile_handler (some 1),
    GObject.tile_handler none]

/-! ## Auxiliary facts -/

theorem getElem?_some_lt {heap : Heap} {p : Ptr} {o : GObject} (h : heap[p]? = some o) :
    p < heap.length := by
  rcases List.getElem?_eq_some.mp h with ⟨hlt, _⟩
  exact hlt

/-- The backend lookup neither reads nor writes the extent. -/
theorem gegl_buffer_backend_with_extent (heap : Heap) (b b2 : GeglBuffer) (r : Option Ptr)
    (extent : GeglRectangle) (h : gegl_buffer_backend heap b = some (b2, r)) :
    gegl_buffer_backend heap { b with extent := extent } =
      some ({ b2 with extent := extent }, r) ∧
    b2.abyss = b.abyss ∧ b2.abyss_tracks_extent = b.abyss_tracks_extent ∧
    b2.shift_x = b.shift_x ∧ b2.shift_y = b.shift_y ∧
    b2.format = b.format ∧ b2.soft_format = b.soft_format := by
  unfold gegl_buffer_backend at h ⊢
  unfold gegl_buffer_backend2 at h ⊢
  simp only at h ⊢
  cases hbk : b.backend with
  | some be =>
    simp only [hbk] at h ⊢
    cases h
    simp [hbk]
  | none =>
    simp only [hbk] at h ⊢
    cases hw : gegl_buffer_backend2_walk (heap.length + 1) heap b.source with
    | none => simp [hw] at h
    | some w =>
      cases w with
      | none =>
        simp only [hw] at h ⊢
        cases h
        simp [hbk]
      | some tmp =>
        simp only [hw] at h ⊢
        cases h
        simp

theorem set_extent_eval (heap : Heap) (buffer backend : Ptr) (b b2 : GeglBuffer)
    (k : GeglTileBackend) (E : GeglRectangle)
    (hb : heap[buffer]? = some (GObject.buffer b))
    (hbe : gegl_buffer_backend heap b = some (b2, some backend))
    (hk : heap[backend]? = some (GObject.tile_backend k)) :
    ∃ heap1,
      gegl_buffer_set_extent heap buffer E = some (heap1, true) ∧
      heap1[buffer]? = some (GObject.buffer
        (if b.abyss_tracks_extent then { b2 with extent := E, abyss := E }
         else { b2 with extent := E })) := by
  obtain ⟨h1, -, ht, -⟩ := gegl_buffer_backend_with_extent heap b b2 (some backend) E hbe
  have hlt := getElem?_some_lt hb
  have hne : backend ≠ buffer := by
    intro he
    rw [he, hb] at hk
    cases hk
  unfold gegl_buffer_set_extent
  simp only [hb, h1, hk]
  refine ⟨_, rfl, ?_⟩
  rw [List.getElem?_set_self]
  · simp only [ht]
  · cases k.header <;> simp [hlt]

theorem getElem?_append_some {heap : Heap} {p : Ptr} {o : GObject} (ext : Heap)
    (h : heap[p]? = some o) : (heap ++ ext)[p]? = some o := by
  rw [List.getElem?_append_left (getElem?_some_lt h)]
  exact h

/-- A backend walk that ends keeps its result when objects are appended to the heap. -/
theorem backend2_walk_append (ext : Heap) (heap : Heap) :
    ∀ (fuel : Nat) (src : Option Ptr) (r : Option Ptr),
      gegl_buffer_backend2_walk fuel heap src = some r →
      gegl_buffer_backend2_walk fuel (heap ++ ext) src = some r := by
  intro fuel
  induction fuel with
  | zero =>
    intro src r h
    cases src with
    | none => simpa [gegl_buffer_backend2_walk] using h
    | some tmp => simp [gegl_buffer_backend2_walk] at h
  | succ n ih =>
    intro src r h
    cases src with
    | none => simpa [gegl_buffer_backend2_walk] using h
    | some tmp =>
      cases hget : heap[tmp]? with
      | none =>
        simp [gegl_buffer_backend2_walk, GEGL_IS_TILE_BACKEND, handler_source, hget] at h
      | some o =>
        have hget2 := getElem?_append_some ext hget
        simp only [gegl_buffer_backend2_walk, GEGL_IS_TILE_BACKEND, handler_source, hget,
          hget2] at h ⊢
        cases o with
        | tile_backend k => simpa using h
        | buffer b => simp only at h ⊢; exact ih _ _ (by simpa using h)
        | tile_storage s => simp only at h ⊢; exact ih _ _ (by simpa using h)
        | tile_handler s => simp only at h ⊢; exact ih _ _ (by simpa using h)

/-- A tile-storage walk that ends keeps its result when objects are appended to the heap. -/
theorem tile_storage_walk_append (ext : Heap) (heap : Heap) :
    ∀ (fuel : Nat) (src : Option Ptr) (r : Ptr),
      gegl_buffer_tile_storage_walk fuel heap src = some r →
      gegl_buffer_tile_storage_walk fuel (heap ++ ext) src = some r := by
  intro fuel
  induction fuel with
  | zero =>
    intro src r h
    cases src with
    | none => simp [gegl_buffer_tile_storage_walk] at h
    | some tmp => simp [gegl_buffer_tile_storage_walk] at h
  | succ n ih =>
    intro src r h
    cases src with
    | none => simp [gegl_buffer_tile_storage_walk] at h
    | some tmp =>
      cases hget : heap[tmp]? with
      | none =>
        simp [gegl_buffer_tile_storage_walk, GEGL_IS_TILE_STORAGE, handler_source, hget] at h
      | some o =>
        have hget2 := getElem?_append_some ext hget
        simp only [gegl_buffer_tile_storage_walk, GEGL_IS_TILE_STORAGE, handler_source, hget,
          hget2] at h ⊢
        cases o with
        | tile_storage s => simpa using h
        | buffer b => simp only at h ⊢; exact ih _ _ (by simpa using h)
        | tile_backend k => simp at h
        | tile_handler s => simp only at h ⊢; exact ih _ _ (by simpa using h)

/-- A backend walk that ends within some fuel ends with the same result within more. -/
theorem backend2_walk_fuel (heap : Heap) :
    ∀ (fuel : Nat) (src : Option Ptr) (r : Option Ptr),
      gegl_buffer_backend2_walk fuel heap src = some r →
      ∀ more : Nat, gegl_buffer_backend2_walk (fuel + more) heap src = some r := by
  intro fuel
  induction fuel with
  | zero =>
    intro src r h more
    cases src with
    | none => cases more <;> simpa [gegl_buffer_backend2_walk] using h
    | some tmp => simp [gegl_buffer_backend2_walk] at h
  | succ n ih =>
    intro src r h more
    cases src with
    | none => simpa [gegl_buffer_backend2_walk] using h
    | some tmp =>
      rw [Nat.add_right_comm]
      simp only [gegl_buffer_backend2_walk] at h ⊢
      split
      · simp_all
      · rename_i hb
        simp only [hb] at h
        cases hs : handler_source heap tmp with
        | none => simp [hs] at h
        | some next =>
          simp only [hs] at h ⊢
          exact ih _ _ h more

/-- A tile-storage walk that ends within some fuel ends with the same result within more. -/
theorem tile_storage_walk_fuel (heap : Heap) :
    ∀ (fuel : Nat) (src : Option Ptr) (r : Ptr),
      gegl_buffer_tile_storage_walk fuel heap src = some r →
      ∀ more : Nat, gegl_buffer_tile_storage_walk (fuel + more) heap src = some r := by
  intro fuel
  induction fuel with
  | zero =>
    intro src r h more
    cases src with
    | none => simp [gegl_buffer_tile_storage_walk] at h
    | some tmp => simp [gegl_buffer_tile_storage_walk] at h
  | succ n ih =>
    intro src r h more
    cases src with
    | none => simp [gegl_buffer_tile_storage_walk] at h
    | some tmp =>
      rw [Nat.add_right_comm]
      simp only [gegl_buffer_tile_storage_walk] at h ⊢
      split
      · simp_all
      · rename_i hb
        simp only [hb] at h
        cases hs : handler_source heap tmp with
        | none => simp [hs] at h
        | some next =>
          simp only [hs] at h ⊢
          exact ih _ _ h more

/-- With a buffer as source, the abyss stage of the constructor always returns,
and the view stages leave the source, the backend and the format alone. -/
theorem constructor_view_buffer (P b : GeglBuffer) :
    ∃ b1, constructor_abyss (some (GObject.buffer P))
        (constructor_extent (some (GObject.buffer P)) b) = some b1 ∧
      (constructor_shift (some (GObject.buffer P))
        (constructor_intersect (some (GObject.buffer P)) b1)).source = b.source ∧
      (constructor_shift (some (GObject.buffer P))
        (constructor_intersect (some (GObject.buffer P)) b1)).format = b.format ∧
      (constructor_shift (some (GObject.buffer P))
        (constructor_intersect (some (GObject.buffer P)) b1)).backend = b.backend := by
  unfold constructor_abyss constructor_extent constructor_shift constructor_intersect
  simp only
  split <;> split <;> first
    | exact ⟨_, rfl, rfl, rfl, rfl⟩
    | (split <;> first
        | exact ⟨_, rfl, rfl, rfl, rfl⟩
        | (split <;> exact ⟨_, rfl, rfl, rfl, rfl⟩))

/-- Construction on a parent buffer whose source walks end: the constructor
returns, appends exactly the new buffer to the heap, and the new buffer's
fields are those the view stages compute from the parent's. -/
theorem constructor_on_buffer (env : GeglEnv) (heap : Heap) (params : GeglBufferParams)
    (parent : Ptr) (P : GeglBuffer) (s be : Ptr)
    (hsrc : params.source = some parent)
    (hP : heap[parent]? = some (GObject.buffer P))
    (hs : gegl_buffer_tile_storage heap P = some s)
    (hbe : gegl_buffer_backend2 heap P = some (some be)) :
    ∃ b1 bk,
      constructor_abyss (some (GObject.buffer P))
        (constructor_extent (some (GObject.buffer P))
          { construct_properties params with backend := some bk, format := P.format })
        = some b1 ∧
      gegl_buffer_constructor env heap params =
        some (env,
          heap ++ [GObject.buffer
            { constructor_shift (some (GObject.buffer P))
                (constructor_intersect (some (GObject.buffer P)) b1) with
              tile_storage := some s, soft_format := P.format }],
          heap.length) := by
  have hP0 : ∀ o : GObject, (heap ++ [o])[parent]? = some (GObject.buffer P) :=
    fun o => getElem?_append_some [o] hP
  have hs0 : ∀ o : GObject,
      gegl_buffer_tile_storage_walk (heap.length + 1) (heap ++ [o]) P.source = some s :=
    fun o => tile_storage_walk_append [o] heap _ _ _ hs
  have hbe0 : ∀ o : GObject,
      gegl_buffer_backend2_walk (heap.length + 1) (heap ++ [o]) P.source = some (some be) :=
    fun o => backend2_walk_append [o] heap _ _ _ hbe
  have hb0 : (construct_properties params).source = some parent := by
    simp [construct_properties, hsrc]
  unfold gegl_buffer_constructor
  generalize construct_properties params = b0 at hb0 ⊢
  -- the backend lookup at the head of the constructor
  have hback : ∃ bk, gegl_buffer_backend (heap ++ [GObject.buffer b0]) b0 =
        some ({ b0 with backend := some bk }, some bk) := by
    unfold gegl_buffer_backend gegl_buffer_backend2
    cases hpb : b0.backend with
    | some g =>
      refine ⟨g, ?_⟩
      simp [← hpb]
    | none =>
      refine ⟨be, ?_⟩
      simp only [hb0, List.length_append, List.length_singleton]
      simp only [gegl_buffer_backend2_walk, GEGL_IS_TILE_BACKEND, handler_source, hP0]
      simp [hbe0]
  obtain ⟨bk, hback⟩ := hback
  obtain ⟨b1, hab, hsource, hformat, -⟩ := constructor_view_buffer P
    { b0 with backend := some bk, format := P.format }
  refine ⟨b1, bk, hab, ?_⟩
  dsimp only at hback hab hsource hformat
  rw [hb0] at hab hsource
  simp only [hback]
  unfold constructor_source
  simp only [hb0, hP0]
  unfold constructor_connect
  simp only [hP0]
  unfold constructor_view
  simp only [Option.bind, hP0, hab]
  unfold gegl_buffer_tile_storage
  simp only [hsource, List.length_append, List.length_singleton]
  simp only [gegl_buffer_tile_storage_walk, GEGL_IS_TILE_STORAGE, handler_source, hP0]
  simp only [hs0]
  simp [hformat]

/-- A buffer appended to the heap whose source is a buffer with ending source
walks has ending source walks itself, with the same results. -/
theorem appended_buffer_walks (heap : Heap) (parent : Ptr) (P C : GeglBuffer) (s be : Ptr)
    (hC : C.source = some parent)
    (hP : heap[parent]? = some (GObject.buffer P))
    (hs : gegl_buffer_tile_storage heap P = some s)
    (hbe : gegl_buffer_backend2 heap P = some (some be)) :
    gegl_buffer_tile_storage (heap ++ [GObject.buffer C]) C = some s ∧
    gegl_buffer_backend2 (heap ++ [GObject.buffer C]) C = some (some be) := by
  have hP0 : (heap ++ [GObject.buffer C])[parent]? = some (GObject.buffer P) :=
    getElem?_append_some _ hP
  have hs0 := tile_storage_walk_append [GObject.buffer C] heap _ _ _ hs
  have hbe0 := backend2_walk_append [GObject.buffer C] heap _ _ _ hbe
  unfold gegl_buffer_tile_storage gegl_buffer_backend2
  simp only [hC, List.length_append, List.length_singleton]
  simp only [gegl_buffer_tile_storage_walk, gegl_buffer_backend2_walk, GEGL_IS_TILE_STORAGE,
    GEGL_IS_TILE_BACKEND, handler_source, hP0]
  simp [hs0, hbe0]

/-- A tile-storage walk ends only at a tile storage. -/
theorem tile_storage_walk_is_storage (heap : Heap) :
    ∀ (fuel : Nat) (src : Option Ptr) (r : Ptr),
      gegl_buffer_tile_storage_walk fuel heap src = some r →
      GEGL_IS_TILE_STORAGE heap r = true := by
  intro fuel
  induction fuel with
  | zero =>
    intro src r h
    cases src <;> simp [gegl_buffer_tile_storage_walk] at h
  | succ n ih =>
    intro src r h
    cases src with
    | none => simp [gegl_buffer_tile_storage_walk] at h
    | some tmp =>
      simp only [gegl_buffer_tile_storage_walk] at h
      split at h
      · rename_i hst
        cases h
        exact hst
      · cases hsrc : handler_source heap tmp with
        | none => simp [hsrc] at h
        | some next =>
          simp only [hsrc] at h
          exact ih _ _ h

theorem view_buffer_shift (P b b1 : GeglBuffer)
    (h : constructor_abyss (some (GObject.buffer P))
      (constructor_extent (some (GObject.buffer P)) b) = some b1) :
    (constructor_shift (some (GObject.buffer P))
      (constructor_intersect (some (GObject.buffer P)) b1)).shift_x =
      to_gint (b.shift_x + P.shift_x) ∧
    (constructor_shift (some (GObject.buffer P))
      (constructor_intersect (some (GObject.buffer P)) b1)).shift_y =
      to_gint (b.shift_y + P.shift_y) := by
  unfold constructor_abyss constructor_extent at h
  unfold constructor_shift constructor_intersect
  simp only at h ⊢
  split at h <;> split at h <;> first
    | (cases h; exact ⟨rfl, rfl⟩)
    | (split at h <;> first
        | (cases h; exact ⟨rfl, rfl⟩)
        | (split at h <;> cases h <;> exact ⟨rfl, rfl⟩))

theorem view_buffer_extent (P b b1 : GeglBuffer)
    (h : constructor_abyss (some (GObject.buffer P))
      (constructor_extent (some (GObject.buffer P)) b) = some b1) :
    (constructor_shift (some (GObject.buffer P))
      (constructor_intersect (some (GObject.buffer P)) b1)).extent =
      if b.extent.width = -1 ∨ b.extent.height = -1 then P.extent else b.extent := by
  unfold constructor_abyss constructor_extent at h
  unfold constructor_shift constructor_intersect
  simp only at h ⊢
  split at h <;> split at h <;> first
    | (cases h; simp_all)
    | (split at h <;> first
        | (cases h; simp_all)
        | (split at h <;> cases h <;> simp_all))

theorem view_buffer_abyss (P b b1 : GeglBuffer)
    (h : constructor_abyss (some (GObject.buffer P))
      (constructor_extent (some (GObject.buffer P)) b) = some b1) :
    (constructor_shift (some (GObject.buffer P))
      (constructor_intersect (some (GObject.buffer P)) b1)).abyss =
      (gegl_rectangle_intersect (moved_abyss P b.shift_x b.shift_y)
        (if b.abyss.width = 0 ∧ b.abyss.height = 0 ∧ b.abyss.x = 0 ∧ b.abyss.y = 0 then
          (if b.extent.width = -1 ∨ b.extent.height = -1 then P.extent else b.extent)
         else if b.abyss.width = -1 ∨ b.abyss.height = -1 then
          moved_abyss P b.shift_x b.shift_y
         else b.abyss)).1 := by
  have hx : ∀ e : GeglBuffer, e.abyss = b.abyss → e.shift_x = b.shift_x →
      e.shift_y = b.shift_y →
      e.extent = (if b.extent.width = -1 ∨ b.extent.height = -1 then P.extent else b.extent) →
      constructor_abyss (some (GObject.buffer P)) e = some b1 →
      (constructor_shift (some (GObject.buffer P))
        (constructor_intersect (some (GObject.buffer P)) b1)).abyss =
      (gegl_rectangle_intersect (moved_abyss P b.shift_x b.shift_y)
        (if b.abyss.width = 0 ∧ b.abyss.height = 0 ∧ b.abyss.x = 0 ∧ b.abyss.y = 0 then
          (if b.extent.width = -1 ∨ b.extent.height = -1 then P.extent else b.extent)
         else if b.abyss.width = -1 ∨ b.abyss.height = -1 then
          moved_abyss P b.shift_x b.shift_y
         else b.abyss)).1 := by
    intro e ha hsx hsy hext he
    rw [← hext, ← ha, ← hsx, ← hsy]
    unfold constructor_abyss at he
    unfold constructor_shift constructor_intersect moved_abyss
    simp only at he ⊢
    by_cases hz : e.abyss.width = 0 ∧ e.abyss.height = 0 ∧ e.abyss.x = 0 ∧ e.abyss.y = 0
    · rw [if_pos hz] at he
      rw [if_pos hz]
      cases he
      rfl
    · rw [if_neg hz] at he
      rw [if_neg hz]
      by_cases hp : e.abyss.width = 0 ∧ e.abyss.height = 0
      · rw [if_pos hp] at he
        have hm : ¬ (e.abyss.width = -1 ∨ e.abyss.height = -1) := by
          rcases hp with ⟨h1, h2⟩
          rw [h1, h2]
          decide
        rw [if_neg hm]
        cases he
        rfl
      · rw [if_neg hp] at he
        by_cases hm : e.abyss.width = -1 ∨ e.abyss.height = -1
        · rw [if_pos hm] at he
          rw [if_pos hm]
          cases he
          rfl
        · rw [if_neg hm] at he
          rw [if_neg hm]
          cases he
          rfl
  apply hx _ _ _ _ _ h
  · unfold constructor_extent
    split <;> rfl
  · unfold constructor_extent
    split <;> rfl
  · unfold constructor_extent
    split <;> rfl
  · unfold constructor_extent
    split
    · rfl
    · rfl

/-- Construction on a parent buffer whose source walks end, field by field. -/
theorem sub_buffer_constructed (env : GeglEnv) (heap : Heap) (params : GeglBufferParams)
    (parent : Ptr) (P : GeglBuffer) (s be : Ptr)
    (hsrc : params.source = some parent)
    (hP : heap[parent]? = some (GObject.buffer P))
    (hs : gegl_buffer_tile_storage heap P = some s)
    (hbe : gegl_buffer_backend2 heap P = some (some be)) :
    ∃ B : GeglBuffer,
      gegl_buffer_constructor env heap params =
        some (env, heap ++ [GObject.buffer B], heap.length) ∧
      B.source = some parent ∧
      B.shift_x = to_gint ((construct_properties params).shift_x + P.shift_x) ∧
      B.shift_y = to_gint ((construct_properties params).shift_y + P.shift_y) ∧
      B.extent = (if (construct_properties params).extent.width = -1 ∨
          (construct_properties params).extent.height = -1 then P.extent
        else (construct_properties params).extent) ∧
      B.abyss = (gegl_rectangle_intersect
        (moved_abyss P (construct_properties params).shift_x
          (construct_properties params).shift_y)
        (if (construct_properties params).abyss.width = 0 ∧
            (construct_properties params).abyss.height = 0 ∧
            (construct_properties params).abyss.x = 0 ∧
            (construct_properties params).abyss.y = 0 then
          (if (construct_properties params).extent.width = -1 ∨
              (construct_properties params).extent.height = -1 then P.extent
            else (construct_properties params).extent)
         else if (construct_properties params).abyss.width = -1 ∨
            (construct_properties params).abyss.height = -1 then
          moved_abyss P (construct_properties params).shift_x
            (construct_properties params).shift_y
         else (construct_properties params).abyss)).1 ∧
      B.tile_storage = some s ∧
      B.format = P.format ∧
      B.soft_format = P.format ∧
      gegl_buffer_tile_storage (heap ++ [GObject.buffer B]) B = some s ∧
      gegl_buffer_backend2 (heap ++ [GObject.buffer B]) B = some (some be) := by
  obtain ⟨b1, bk, hab, hc⟩ := constructor_on_buffer env heap params parent P s be hsrc hP hs hbe
  obtain ⟨hsx, hsy⟩ := view_buffer_shift P _ b1 hab
  have hext := view_buffer_extent P _ b1 hab
  have habyss := view_buffer_abyss P _ b1 hab
  obtain ⟨b1', hab', hsource, hformat, -⟩ := constructor_view_buffer P
    { construct_properties params with backend := some bk, format := P.format }
  rw [hab] at hab'
  cases hab'
  have hsource' : (constructor_shift (some (GObject.buffer P))
      (constructor_intersect (some (GObject.buffer P)) b1)).source = some parent := by
    rw [hsource]
    simp [construct_properties, hsrc]
  exact ⟨_, hc, hsource', hsx, hsy, hext, habyss, rfl, hformat, rfl,
    appended_buffer_walks heap parent P _ s be hsource' hP hs hbe⟩

theorem to_gint_of_gint (v : Int) (h1 : -2147483648 ≤ v) (h2 : v ≤ 2147483647) :
    to_gint v = v := by
  unfold to_gint
  omega

theorem to_gint_add_to_gint (a b : Int) : to_gint (a + to_gint b) = to_gint (a + b) := by
  unfold to_gint
  omega

theorem construct_int_of_range (minimum maximum initial value : Int)
    (h1 : minimum ≤ value) (h2 : value ≤ maximum) :
    construct_int minimum maximum initial value = value := by
  unfold construct_int
  rw [if_pos ⟨h1, h2⟩]

/-- The construct properties with every value in the range of its param spec are
stored as given. -/
theorem construct_properties_in_range (params : GeglBufferParams)
    (h : params.in_range) :
    (construct_properties params).extent =
      { x := params.x, y := params.y, width := params.width, height := params.height } ∧
    (construct_properties params).abyss =
      { x := params.abyss_x, y := params.abyss_y,
        width := params.abyss_width, height := params.abyss_height } ∧
    (construct_properties params).shift_x = params.shift_x ∧
    (construct_properties params).shift_y = params.shift_y := by
  unfold GeglBufferParams.in_range at h
  obtain ⟨⟨a1, a2⟩, ⟨b1, b2⟩, ⟨c1, c2⟩, ⟨d1, d2⟩, ⟨e1, e2⟩, ⟨f1, f2⟩, ⟨g1, g2⟩, ⟨i1, i2⟩,
    ⟨j1, j2⟩, ⟨k1, k2⟩⟩ := h
  unfold construct_properties
  simp only [construct_int_of_range _ _ _ _ a1 a2, construct_int_of_range _ _ _ _ b1 b2,
    construct_int_of_range _ _ _ _ c1 c2, construct_int_of_range _ _ _ _ d1 d2,
    construct_int_of_range _ _ _ _ e1 e2, construct_int_of_range _ _ _ _ f1 f2,
    construct_int_of_range _ _ _ _ g1 g2, construct_int_of_range _ _ _ _ i1 i2,
    construct_int_of_range _ _ _ _ j1 j2, construct_int_of_range _ _ _ _ k1 k2, and_self]

/-- Construction on a parent buffer with every construct property in the range
of its param spec, field by field in terms of the properties. -/
theorem sub_buffer_in_range (env : GeglEnv) (heap : Heap) (params : GeglBufferParams)
    (parent : Ptr) (P : GeglBuffer) (s be : Ptr)
    (hsrc : params.source = some parent)
    (hP : heap[parent]? = some (GObject.buffer P))
    (hs : gegl_buffer_tile_storage heap P = some s)
    (hbe : gegl_buffer_backend2 heap P = some (some be))
    (hr : params.in_range) :
    ∃ B : GeglBuffer,
      gegl_buffer_constructor env heap params =
        some (env, heap ++ [GObject.buffer B], heap.length) ∧
      B.source = some parent ∧
      B.shift_x = to_gint (params.shift_x + P.shift_x) ∧
      B.shift_y = to_gint (params.shift_y + P.shift_y) ∧
      B.extent = (if params.width = -1 ∨ params.height = -1 then P.extent
        else { x := params.x, y := params.y,
               width := params.width, height := params.height }) ∧
      B.abyss = (gegl_rectangle_intersect (moved_abyss P params.shift_x params.shift_y)
        (if params.abyss_width = -1 ∨ params.abyss_height = -1 then
          moved_abyss P params.shift_x params.shift_y
         else requested_abyss params P)).1 ∧
      B.tile_storage = some s ∧
      B.format = P.format ∧
      B.soft_format = P.format ∧
      gegl_buffer_tile_storage (heap ++ [GObject.buffer B]) B = some s ∧
      gegl_buffer_backend2 (heap ++ [GObject.buffer B]) B = some (some be) := by
  obtain ⟨B, hc, hsource, hsx, hsy, hext, habyss, hts, hf, hsf, hw1, hw2⟩ :=
    sub_buffer_constructed env heap params parent P s be hsrc hP hs hbe
  obtain ⟨e1, e2, e3, e4⟩ := construct_properties_in_range params hr
  rw [e3] at hsx
  rw [e4] at hsy
  rw [e1] at hext
  rw [e1, e2, e3, e4] at habyss
  simp only at hext habyss
  refine ⟨B, hc, hsource, hsx, hsy, hext, ?_, hts, hf, hsf, hw1, hw2⟩
  rw [habyss]
  unfold requested_abyss
  by_cases hz : params.abyss_width = 0 ∧ params.abyss_height = 0 ∧
      params.abyss_x = 0 ∧ params.abyss_y = 0
  · have hm : ¬ (params.abyss_width = -1 ∨ params.abyss_height = -1) := by
      rcases hz with ⟨h1, h2, -, -⟩
      rw [h1, h2]
      decide
    rw [if_pos hz, if_neg hm, if_pos hz]
  · rw [if_neg hz, if_neg hz]

theorem gegl_rectangle_equal_iff (r1 r2 : GeglRectangle) :
    gegl_rectangle_equal r1 r2 = true ↔ r1 = r2 := by
  cases r1
  cases r2
  simp [gegl_rectangle_equal]
  tauto

/-- The modelled intersection covers exactly the pixels both rectangles cover. -/
theorem gegl_rectangle_intersect_covers (a b : GeglRectangle) (px py : Int) :
    (gegl_rectangle_intersect a b).1.covers px py ↔ a.covers px py ∧ b.covers px py := by
  unfold gegl_rectangle_intersect GeglRectangle.covers
  simp only
  split
  · simp only
    omega
  · split
    · simp only
      omega
    · simp only
      omega

/-- Without a common pixel the modelled intersection is (0, 0, 0, 0). -/
theorem gegl_rectangle_intersect_disjoint (a b : GeglRectangle)
    (h : ¬ ∃ px py, a.covers px py ∧ b.covers px py) :
    (gegl_rectangle_intersect a b).1 = { x := 0, y := 0, width := 0, height := 0 } := by
  unfold gegl_rectangle_intersect
  simp only
  split
  · rfl
  · split
    · rfl
    · exfalso
      apply h
      refine ⟨max a.x b.x, max a.y b.y, ?_, ?_⟩ <;> unfold GeglRectangle.covers <;> omega

/-- A chain of sub-buffers built on a buffer whose source walks end: every
construction returns, the heap only grows, and the last buffer's walks end at
the same tile storage and backend. -/
theorem construct_chain_on_buffer (chain : List GeglBufferParams) :
    ∀ (env : GeglEnv) (heap : Heap) (parent : Ptr) (P : GeglBuffer) (s be : Ptr),
      heap[parent]? = some (GObject.buffer P) →
      gegl_buffer_tile_storage heap P = some s →
      gegl_buffer_backend2 heap P = some (some be) →
      ∃ (ext : Heap) (last : Ptr) (B : GeglBuffer),
        construct_chain env heap parent chain = some (env, heap ++ ext, last) ∧
        (heap ++ ext)[last]? = some (GObject.buffer B) ∧
        gegl_buffer_tile_storage (heap ++ ext) B = some s ∧
        gegl_buffer_backend2 (heap ++ ext) B = some (some be) ∧
        (B = P ∨ B.tile_storage = some s) ∧
        B.shift_x = chain_shift P.shift_x
          (chain.map (fun params => (construct_properties params).shift_x)) ∧
        B.shift_y = chain_shift P.shift_y
          (chain.map (fun params => (construct_properties params).shift_y)) := by
  induction chain with
  | nil =>
    intro env heap parent P s be hP hs hbe
    refine ⟨[], parent, P, ?_⟩
    simp [construct_chain, chain_shift, hP, hs, hbe]
  | cons params rest ih =>
    intro env heap parent P s be hP hs hbe
    obtain ⟨C, hc, -, hsx, hsy, -, -, hts, -, -, hs1, hbe1⟩ :=
      sub_buffer_constructed env heap { params with source := some parent } parent P s be
        rfl hP hs hbe
    have hC : (heap ++ [GObject.buffer C])[heap.length]? = some (GObject.buffer C) := by
      simp
    obtain ⟨ext, last, B, hch, hB, hs2, hbe2, hrec, hx, hy⟩ :=
      ih env (heap ++ [GObject.buffer C]) heap.length C s be hC hs1 hbe1
    refine ⟨GObject.buffer C :: ext, last, B, ?_⟩
    have happ : heap ++ GObject.buffer C :: ext = heap ++ [GObject.buffer C] ++ ext := by
      simp
    rw [happ]
    refine ⟨?_, hB, hs2, hbe2, ?_, ?_, ?_⟩
    · simp only [construct_chain, hc]
      exact hch
    · right
      rcases hrec with hBC | h
      · rw [hBC]
        exact hts
      · exact h
    · rw [hx, hsx]
      rfl
    · rw [hy, hsy]
      rfl

/-- The stages a returning construction went through. -/
theorem constructor_stages (env : GeglEnv) (heap : Heap) (params : GeglBufferParams)
    (env1 : GeglEnv) (heapF : Heap) (p : Ptr)
    (hc : gegl_buffer_constructor env heap params = some (env1, heapF, p)) :
    ∃ b1 backend0 heapS b2 be b3 storage,
      gegl_buffer_backend (heap ++ [GObject.buffer (construct_properties params)])
        (construct_properties params) = some (b1, backend0) ∧
      constructor_source env (heap ++ [GObject.buffer (construct_properties params)])
        b1 backend0 = some (env1, heapS, b2, some be) ∧
      constructor_view (constructor_connect heapS heap.length b2.source) b2 = some b3 ∧
      gegl_buffer_tile_storage (constructor_connect heapS heap.length b2.source) b3
        = some storage ∧
      heapF = (constructor_connect heapS heap.length b2.source).set heap.length
        (GObject.buffer { b3 with tile_storage := some storage, soft_format := b3.format }) ∧
      p = heap.length := by
  unfold gegl_buffer_constructor at hc
  simp only at hc
  split at hc
  · cases hc
  · rename_i b1 backend0 hback
    split at hc
    · cases hc
    · rename_i env1' heapS b2 backend hsource
      split at hc
      · cases hc
      · rename_i be
        split at hc
        · cases hc
        · rename_i b3 hview
          split at hc
          · cases hc
          · rename_i storage hstorage
            simp only [Option.some.injEq, Prod.mk.injEq] at hc
            obtain ⟨he, hh, hp⟩ := hc
            subst he
            exact ⟨b1, backend0, heapS, b2, be, b3, storage, hback, hsource, hview,
              hstorage, hh.symm, hp.symm⟩

/-- The backend lookup changes no field of the buffer but the cached backend. -/
theorem gegl_buffer_backend_frame (heap : Heap) (b b2 : GeglBuffer) (r : Option Ptr)
    (h : gegl_buffer_backend heap b = some (b2, r)) :
    b2 = { b with backend := b2.backend } := by
  unfold gegl_buffer_backend at h
  split at h
  · rename_i be hbk
    cases h
    cases b
    simp_all
  · split at h
    · cases h
    · cases h
      rfl
    · cases h
      rfl

/-- The source stage only appends to the heap and leaves the shift alone; its
source is the given one, or a tile storage it has just made. -/
theorem constructor_source_frame (env : GeglEnv) (heap : Heap) (b : GeglBuffer)
    (backend : Option Ptr) (env1 : GeglEnv) (heapS : Heap) (b2 : GeglBuffer)
    (backend1 : Option Ptr)
    (h : constructor_source env heap b backend = some (env1, heapS, b2, backend1)) :
    heap.length ≤ heapS.length ∧
    b2.shift_x = b.shift_x ∧ b2.shift_y = b.shift_y ∧
    ((heapS = heap ∧ b2.source = b.source ∧ ∃ src, b.source = some src) ∨
     (∃ st S, b2.source = some st ∧ heapS[st]? = some (GObject.tile_storage S))) := by
  unfold constructor_source at h
  split at h
  · rename_i source hsource
    split at h <;> cases h <;> exact ⟨le_refl _, rfl, rfl, Or.inl ⟨rfl, rfl, source, hsource⟩⟩
  · split at h
    · split at h
      · rename_i given _ _ k _
        cases h
        exact ⟨by simp, rfl, rfl,
          Or.inr ⟨heap.length, gegl_tile_storage_new env given k, rfl, by simp⟩⟩
      · cases h
    · split at h
      · cases h
      · rename_i env2 format k _
        cases h
        exact ⟨by simp, rfl, rfl,
          Or.inr ⟨heap.length + 1, gegl_tile_storage_new env1 heap.length k, rfl, by
            rw [List.getElem?_append_right (by omega)]
            simp⟩⟩

theorem constructor_connect_length (heap : Heap) (self : Ptr) (source : Option Ptr) :
    (constructor_connect heap self source).length = heap.length := by
  unfold constructor_connect
  split
  · rfl
  · split <;> simp

/-- Connecting the signal never turns the source into a buffer. -/
theorem constructor_connect_not_buffer (heap : Heap) (self src : Ptr)
    (h : GEGL_IS_BUFFER heap src = false) (b : GeglBuffer) :
    (constructor_connect heap self (some src))[src]? ≠ some (GObject.buffer b) := by
  unfold constructor_connect
  simp only
  split
  · rename_i s hs
    rw [List.getElem?_set_self (getElem?_some_lt hs)]
    simp
  · intro hb
    simp [GEGL_IS_BUFFER, hb] at h

theorem constructor_extent_shift (obj : Option GObject) (b : GeglBuffer) :
    (constructor_extent obj b).shift_x = b.shift_x ∧
    (constructor_extent obj b).shift_y = b.shift_y := by
  unfold constructor_extent
  split
  · split <;> exact ⟨rfl, rfl⟩
  · exact ⟨rfl, rfl⟩

theorem constructor_abyss_shift (obj : Option GObject) (b b1 : GeglBuffer)
    (h : constructor_abyss obj b = some b1) :
    b1.shift_x = b.shift_x ∧ b1.shift_y = b.shift_y := by
  unfold constructor_abyss at h
  simp only at h
  split at h
  · cases h
    exact ⟨rfl, rfl⟩
  · split at h
    · cases h
      exact ⟨rfl, rfl⟩
    · split at h
      · split at h
        · cases h
          exact ⟨rfl, rfl⟩
        · cases h
      · cases h
        exact ⟨rfl, rfl⟩

/-- With a source object that is not a buffer, the view stages leave the shift alone. -/
theorem constructor_view_no_parent (heap : Heap) (b b3 : GeglBuffer)
    (hsrc : ∀ src P, b.source = some src → heap[src]? ≠ some (GObject.buffer P))
    (h : constructor_view heap b = some b3) :
    b3.shift_x = b.shift_x ∧ b3.shift_y = b.shift_y := by
  unfold constructor_view at h
  simp only at h
  have hobj : ∀ P, b.source.bind (fun source => heap[source]?) ≠ some (GObject.buffer P) := by
    intro P
    cases hs : b.source with
    | none => simp
    | some src => simpa using hsrc src P hs
  generalize b.source.bind (fun source => heap[source]?) = obj at h hobj
  split at h
  · cases h
  · rename_i b1 hab
    cases h
    obtain ⟨h1, h2⟩ := constructor_abyss_shift _ _ _ hab
    obtain ⟨h3, h4⟩ := constructor_extent_shift obj b
    rw [h3] at h1
    rw [h4] at h2
    have hid : constructor_shift obj (constructor_intersect obj b1) = b1 := by
      unfold constructor_shift constructor_intersect
      split
      · exact (hobj _ rfl).elim
      · split
        · exact (hobj _ rfl).elim
        · rfl
    rw [hid]
    exact ⟨h1, h2⟩

/-- A returning construction stores the new buffer at the first free address,
with the soft format equal to the format. -/
theorem constructor_result (env : GeglEnv) (heap : Heap) (params : GeglBufferParams)
    (env1 : GeglEnv) (heapF : Heap) (p : Ptr)
    (hc : gegl_buffer_constructor env heap params = some (env1, heapF, p)) :
    p = heap.length ∧
    ∃ B, heapF[p]? = some (GObject.buffer B) ∧ B.soft_format = B.format := by
  obtain ⟨b1, backend0, heapS, b2, be, b3, storage, -, hsource, -, -, hF, hp⟩ :=
    constructor_stages env heap params env1 heapF p hc
  obtain ⟨hlen, -⟩ := constructor_source_frame _ _ _ _ _ _ _ _ hsource
  refine ⟨hp, { b3 with tile_storage := some storage, soft_format := b3.format }, ?_, rfl⟩
  rw [hF, hp]
  apply List.getElem?_set_self
  rw [constructor_connect_length]
  simp only [List.length_append, List.length_singleton] at hlen
  omega

/-- A returning construction whose source, if any, is an object of the heap
other than a buffer stores exactly the construction shift. -/
theorem constructor_without_parent (env : GeglEnv) (heap : Heap) (params : GeglBufferParams)
    (env1 : GeglEnv) (heapF : Heap) (p : Ptr)
    (hnp : ∀ src, params.source = some src →
      src < heap.length ∧ GEGL_IS_BUFFER heap src = false)
    (hc : gegl_buffer_constructor env heap params = some (env1, heapF, p)) :
    ∃ B, heapF[p]? = some (GObject.buffer B) ∧
      B.shift_x = (construct_properties params).shift_x ∧
      B.shift_y = (construct_properties params).shift_y := by
  obtain ⟨b1, backend0, heapS, b2, be, b3, storage, hback, hsource, hview, -, hF, hp⟩ :=
    constructor_stages env heap params env1 heapF p hc
  have hb1 := gegl_buffer_backend_frame _ _ _ _ hback
  have hb1s : b1.source = params.source := by rw [hb1]; rfl
  have hb1x : b1.shift_x = (construct_properties params).shift_x := by rw [hb1]
  have hb1y : b1.shift_y = (construct_properties params).shift_y := by rw [hb1]
  obtain ⟨hlen, hx, hy, hcase⟩ := constructor_source_frame _ _ _ _ _ _ _ _ hsource
  have hnb : ∀ src, b2.source = some src → GEGL_IS_BUFFER heapS src = false := by
    intro src hsrc
    rcases hcase with ⟨hheap, hsame, -⟩ | ⟨st, S, hst, hS⟩
    · rw [hsame, hb1s] at hsrc
      obtain ⟨hlt, hno⟩ := hnp src hsrc
      rw [hheap]
      unfold GEGL_IS_BUFFER at hno ⊢
      rw [List.getElem?_append_left hlt]
      exact hno
    · rw [hst] at hsrc
      cases hsrc
      simp [GEGL_IS_BUFFER, hS]
  have hv := constructor_view_no_parent _ _ _ (by
    intro src P hsrc
    rw [hsrc]
    exact constructor_connect_not_buffer heapS heap.length src (hnb src hsrc) P) hview
  obtain ⟨-, B, hB, -⟩ := constructor_result env heap params env1 heapF p hc
  have hB2 : heapF[p]? = some (GObject.buffer
      { b3 with tile_storage := some storage, soft_format := b3.format }) := by
    rw [hF, hp]
    apply List.getElem?_set_self
    rw [constructor_connect_length]
    simp only [List.length_append, List.length_singleton] at hlen
    omega
  refine ⟨_, hB2, ?_, ?_⟩
  · show b3.shift_x = _
    rw [hv.1, hx, hb1x]
  · show b3.shift_y = _
    rw [hv.2, hy, hb1y]

/-- One returning `gegl_buffer_set_format` call keeps the format and leaves a
soft format with the bytes per pixel of the format. -/
theorem set_format_step (heap : Heap) (p : Ptr) (B : GeglBuffer) (f : Option Babl)
    (hB : heap[p]? = some (GObject.buffer B))
    (hinv : B.soft_format.map babl_format_get_bytes_per_pixel =
      B.format.map babl_format_get_bytes_per_pixel) :
    (B.format ≠ none → (gegl_buffer_set_format heap p f).isSome = true) ∧
    ∀ heap1 r, gegl_buffer_set_format heap p f = some (heap1, r) →
      ∃ B1, heap1[p]? = some (GObject.buffer B1) ∧ B1.format = B.format ∧
        B1.soft_format.map babl_format_get_bytes_per_pixel =
          B1.format.map babl_format_get_bytes_per_pixel := by
  have hlt := getElem?_some_lt hB
  unfold gegl_buffer_set_format
  simp only [hB]
  cases f with
  | none =>
    refine ⟨fun _ => rfl, ?_⟩
    intro heap1 r h
    simp only [Option.some.injEq, Prod.mk.injEq] at h
    obtain ⟨h1, -⟩ := h
    subst h1
    exact ⟨_, List.getElem?_set_self hlt, rfl, rfl⟩
  | some f =>
    cases hg : B.format with
    | none =>
      refine ⟨fun h => absurd rfl h, ?_⟩
      intro heap1 r h
      simp at h
    | some g =>
      simp only
      by_cases hbpp : babl_format_get_bytes_per_pixel f = babl_format_get_bytes_per_pixel g
      · rw [if_pos hbpp]
        refine ⟨fun _ => rfl, ?_⟩
        intro heap1 r h
        simp only [Option.some.injEq, Prod.mk.injEq] at h
        obtain ⟨h1, -⟩ := h
        subst h1
        refine ⟨_, List.getElem?_set_self hlt, rfl, ?_⟩
        simp [hbpp]
      · rw [if_neg hbpp]
        refine ⟨fun _ => rfl, ?_⟩
        intro heap1 r h
        simp only [Option.some.injEq, Prod.mk.injEq] at h
        obtain ⟨h1, -⟩ := h
        subst h1
        exact ⟨B, hB, hg, hinv⟩

/-- A run of `gegl_buffer_set_format` calls keeps the format and the agreement
of the soft format's bytes per pixel with the format's; it returns whenever
the format is not `NULL`. -/
theorem set_format_calls_invariant (p : Ptr) (formats : List (Option Babl)) :
    ∀ (heap : Heap) (B : GeglBuffer),
      heap[p]? = some (GObject.buffer B) →
      B.soft_format.map babl_format_get_bytes_per_pixel =
        B.format.map babl_format_get_bytes_per_pixel →
      (B.format ≠ none → (set_format_calls heap p formats).isSome = true) ∧
      ∀ heap2, set_format_calls heap p formats = some heap2 →
        ∃ B2, heap2[p]? = some (GObject.buffer B2) ∧ B2.format = B.format ∧
          B2.soft_format.map babl_format_get_bytes_per_pixel =
            B2.format.map babl_format_get_bytes_per_pixel := by
  induction formats with
  | nil =>
    intro heap B hB hinv
    refine ⟨fun _ => rfl, ?_⟩
    intro heap2 h
    simp only [set_format_calls, Option.some.injEq] at h
    subst h
    exact ⟨B, hB, rfl, hinv⟩
  | cons f rest ih =>
    intro heap B hB hinv
    obtain ⟨htot, hstep⟩ := set_format_step heap p B f hB hinv
    constructor
    · intro hne
      have hsome := htot hne
      cases hr : gegl_buffer_set_format heap p f with
      | none => simp [hr] at hsome
      | some res =>
        obtain ⟨heap1, r⟩ := res
        obtain ⟨B1, hB1, hf1, hinv1⟩ := hstep heap1 r hr
        simp only [set_format_calls, hr]
        exact (ih heap1 B1 hB1 hinv1).1 (by rw [hf1]; exact hne)
    · intro heap2 h
      cases hr : gegl_buffer_set_format heap p f with
      | none => simp [set_format_calls, hr] at h
      | some res =>
        obtain ⟨heap1, r⟩ := res
        obtain ⟨B1, hB1, hf1, hinv1⟩ := hstep heap1 r hr
        simp only [set_format_calls, hr] at h
        obtain ⟨B2, hB2, hf2, hinv2⟩ := (ih heap1 B1 hB1 hinv1).2 heap2 h
        exact ⟨B2, hB2, hf2.trans hf1, hinv2⟩

/-- The source stage leaves extent and abyss alone. -/
theorem constructor_source_view_fields (env : GeglEnv) (heap : Heap) (b : GeglBuffer)
    (backend : Option Ptr) (env1 : GeglEnv) (heapS : Heap) (b2 : GeglBuffer)
    (backend1 : Option Ptr)
    (h : constructor_source env heap b backend = some (env1, heapS, b2, backend1)) :
    b2.extent = b.extent ∧ b2.abyss = b.abyss := by
  unfold constructor_source at h
  split at h
  · split at h <;> cases h <;> exact ⟨rfl, rfl⟩
  · split at h
    · split at h
      · cases h
        exact ⟨rfl, rfl⟩
      · cases h
    · split at h
      · cases h
      · cases h
        exact ⟨rfl, rfl⟩

/-- With a source given, the source stage makes no object and keeps the source. -/
theorem constructor_source_given (env : GeglEnv) (heap : Heap) (b : GeglBuffer)
    (backend : Option Ptr) (env1 : GeglEnv) (heapS : Heap) (b2 : GeglBuffer)
    (backend1 : Option Ptr) (src : Ptr) (hsrc : b.source = some src)
    (h : constructor_source env heap b backend = some (env1, heapS, b2, backend1)) :
    heapS = heap ∧ b2.source = some src := by
  unfold constructor_source at h
  simp only [hsrc] at h
  split at h <;> cases h <;> first | exact ⟨rfl, rfl⟩ | exact ⟨rfl, hsrc⟩

theorem constructor_connect_lookup_buffer (heap : Heap) (self src : Ptr) (P : GeglBuffer)
    (h : heap[src]? = some (GObject.buffer P)) :
    (constructor_connect heap self (some src))[src]? = some (GObject.buffer P) := by
  unfold constructor_connect
  simp only [h]

theorem constructor_connect_lookup_storage (heap : Heap) (self src : Ptr)
    (S : GeglTileStorage) (h : heap[src]? = some (GObject.tile_storage S)) :
    (constructor_connect heap self (some src))[src]? =
      some (GObject.tile_storage
        { S with changed_handlers := S.changed_handlers ++ [self] }) := by
  unfold constructor_connect
  simp only [h]
  exact List.getElem?_set_self (getElem?_some_lt h)

theorem constructor_abyss_extent (obj : Option GObject) (b b1 : GeglBuffer)
    (h : constructor_abyss obj b = some b1) : b1.extent = b.extent := by
  unfold constructor_abyss at h
  simp only at h
  split at h
  · cases h
    rfl
  · split at h
    · cases h
      rfl
    · split at h
      · split at h
        · cases h
          rfl
        · cases h
      · cases h
        rfl

/-- The view stages after the first leave the extent alone. -/
theorem constructor_view_extent (heap : Heap) (b b3 : GeglBuffer)
    (h : constructor_view heap b = some b3) :
    b3.extent = (constructor_extent (b.source.bind (fun source => heap[source]?)) b).extent := by
  unfold constructor_view at h
  simp only at h
  generalize b.source.bind (fun source => heap[source]?) = obj at h ⊢
  split at h
  · cases h
  · rename_i b1 hab
    cases h
    have h1 := constructor_abyss_extent _ _ _ hab
    rw [← h1]
    unfold constructor_shift constructor_intersect
    split
    · rfl
    · split <;> rfl

/-- With a source object that is not a buffer and an all-zero abyss, the view
stages leave the abyss equal to the extent and tracking it. -/
theorem constructor_view_no_parent_abyss (heap : Heap) (b b3 : GeglBuffer)
    (hsrc : ∀ src P, b.source = some src → heap[src]? ≠ some (GObject.buffer P))
    (hz : b.abyss.width = 0 ∧ b.abyss.height = 0 ∧ b.abyss.x = 0 ∧ b.abyss.y = 0)
    (h : constructor_view heap b = some b3) :
    b3.abyss = b3.extent ∧ b3.abyss_tracks_extent = true := by
  unfold constructor_view at h
  simp only at h
  have hobj : ∀ P, b.source.bind (fun source => heap[source]?) ≠ some (GObject.buffer P) := by
    intro P
    cases hs : b.source with
    | none => simp
    | some src => simpa using hsrc src P hs
  generalize b.source.bind (fun source => heap[source]?) = obj at h hobj
  split at h
  · cases h
  · rename_i b1 hab
    cases h
    have hid : constructor_shift obj (constructor_intersect obj b1) = b1 := by
      unfold constructor_shift constructor_intersect
      split
      · exact (hobj _ rfl).elim
      · split
        · exact (hobj _ rfl).elim
        · rfl
    rw [hid]
    have he : (constructor_extent obj b).abyss = b.abyss := by
      unfold constructor_extent
      split
      · split <;> rfl
      · rfl
    unfold constructor_abyss at hab
    simp only at hab
    rw [he] at hab
    rw [if_pos hz] at hab
    cases hab
    exact ⟨rfl, rfl⟩

/-- In a returning construction without a parent Buffer, the source object the
view stages see is not a buffer. -/
theorem constructor_source_not_buffer (env : GeglEnv) (heap : Heap) (b1 : GeglBuffer)
    (backend0 : Option Ptr) (env1 : GeglEnv) (heapS : Heap) (b2 : GeglBuffer)
    (be : Option Ptr) (self : Ptr) (o : GObject)
    (hnp : ∀ src, b1.source = some src →
      src < heap.length ∧ GEGL_IS_BUFFER heap src = false)
    (hsource : constructor_source env (heap ++ [o]) b1 backend0 = some (env1, heapS, b2, be)) :
    ∀ src P, b2.source = some src →
      (constructor_connect heapS self b2.source)[src]? ≠ some (GObject.buffer P) := by
  obtain ⟨-, -, -, hcase⟩ := constructor_source_frame _ _ _ _ _ _ _ _ hsource
  intro src P hsrc
  rw [hsrc]
  apply constructor_connect_not_buffer
  rcases hcase with ⟨hheap, hsame, -⟩ | ⟨st, S, hst, hS⟩
  · rw [hsame] at hsrc
    obtain ⟨hlt, hno⟩ := hnp src hsrc
    rw [hheap]
    unfold GEGL_IS_BUFFER at hno ⊢
    rw [List.getElem?_append_left hlt]
    exact hno
  · rw [hst] at hsrc
    cases hsrc
    simp [GEGL_IS_BUFFER, hS]

/-- The view stages leave the source alone. -/
theorem constructor_view_source (heap : Heap) (b b3 : GeglBuffer)
    (h : constructor_view heap b = some b3) : b3.source = b.source := by
  unfold constructor_view at h
  simp only at h
  generalize b.source.bind (fun source => heap[source]?) = obj at h
  split at h
  · cases h
  · rename_i b1 hab
    cases h
    have h1 : b1.source = (constructor_extent obj b).source := by
      unfold constructor_abyss at hab
      simp only at hab
      split at hab
      · cases hab
        rfl
      · split at hab
        · cases hab
          rfl
        · split at hab
          · split at hab
            · cases hab
              rfl
            · cases hab
          · cases hab
            rfl
    have h2 : (constructor_extent obj b).source = b.source := by
      unfold constructor_extent
      split
      · split <;> rfl
      · rfl
    rw [← h2, ← h1]
    unfold constructor_shift constructor_intersect
    split
    · rfl
    · split <;> rfl

/-- When the source, if given, is a tile storage, the source stage ends with a
tile storage as source, at an address other than the new buffer's. -/
theorem constructor_source_storage (env : GeglEnv) (heap : Heap) (o : GObject)
    (b : GeglBuffer) (backend : Option Ptr) (env1 : GeglEnv) (heapS : Heap)
    (b2 : GeglBuffer) (backend1 : Option Ptr)
    (hst : ∀ src, b.source = some src → ∃ S, heap[src]? = some (GObject.tile_storage S))
    (h : constructor_source env (heap ++ [o]) b backend = some (env1, heapS, b2, backend1)) :
    ∃ st S, b2.source = some st ∧ heapS[st]? = some (GObject.tile_storage S) ∧
      st ≠ heap.length := by
  unfold constructor_source at h
  split at h
  · rename_i source hsource
    obtain ⟨S, hS⟩ := hst source hsource
    have hS0 := getElem?_append_some [o] hS
    have hlt := getElem?_some_lt hS
    simp only [hS0] at h
    cases h
    exact ⟨source, S, hsource, hS0, Nat.ne_of_lt hlt⟩
  · split at h
    · split at h
      · rename_i given _ _ k _
        cases h
        exact ⟨(heap ++ [o]).length, gegl_tile_storage_new env given k, rfl,
          List.getElem?_concat_length _ _, by simp⟩
      · cases h
    · split at h
      · cases h
      · rename_i env2 format k _
        cases h
        refine ⟨(heap ++ [o]).length + 1,
          gegl_tile_storage_new env1 (heap ++ [o]).length k, rfl, ?_, ?_⟩
        · rw [List.getElem?_append_right (Nat.le_succ _)]
          simp
        · intro hself
          have hnat : (heap ++ [o]).length + 1 = heap.length := hself
          simp only [List.length_append, List.length_singleton] at hnat
          omega

/-- Appending a buffer to the heap changes no emission of a tile storage. -/
theorem tile_storage_emit_changed_append (heap : Heap) (B : GeglBuffer) (storage : Ptr)
    (rect : GeglRectangle) :
    tile_storage_emit_changed (heap ++ [GObject.buffer B]) storage rect =
      tile_storage_emit_changed heap storage rect := by
  unfold tile_storage_emit_changed
  by_cases hlt : storage < heap.length
  · rw [List.getElem?_append_left hlt]
  · have hge : heap.length ≤ storage := Nat.le_of_not_lt hlt
    rw [List.getElem?_append_right hge, List.getElem?_eq_none hge]
    cases hi : storage - heap.length with
    | zero => simp
    | succ n => simp

/-- The view stages leave the cached backend alone. -/
theorem constructor_view_backend (heap : Heap) (b b3 : GeglBuffer)
    (h : constructor_view heap b = some b3) : b3.backend = b.backend := by
  unfold constructor_view at h
  simp only at h
  generalize b.source.bind (fun source => heap[source]?) = obj at h
  split at h
  · cases h
  · rename_i b1 hab
    cases h
    have h1 : b1.backend = (constructor_extent obj b).backend := by
      unfold constructor_abyss at hab
      simp only at hab
      split at hab
      · cases hab
        rfl
      · split at hab
        · cases hab
          rfl
        · split at hab
          · split at hab
            · cases hab
              rfl
            · cases hab
          · cases hab
            rfl
    have h2 : (constructor_extent obj b).backend = b.backend := by
      unfold constructor_extent
      split
      · split <;> rfl
      · rfl
    rw [← h2, ← h1]
    unfold constructor_shift constructor_intersect
    split
    · rfl
    · split <;> rfl

/-- Without a path, the backend made is the RAM backend exactly when the
configured swap is unset or reads "ram" in any mix of cases; else it is a file
backend at the next swap path. -/
theorem constructor_new_backend_without_path (env : GeglEnv) (b : GeglBuffer)
    (env1 : GeglEnv) (format : Option Babl) (k : GeglTileBackend)
    (hpath : b.path = none)
    (h : constructor_new_backend env b = some (env1, format, k)) :
    ((env.swap = none ∨ ∃ path, env.swap = some path ∧
        g_ascii_strcasecmp_eq path "ram" = true) →
      k.type = GeglTileBackendType.ram ∧ k.path = none) ∧
    (∀ path, env.swap = some path → g_ascii_strcasecmp_eq path "ram" = false →
      k.type = GeglTileBackendType.file ∧
      k.path = some (g_build_filename path (toString env.pid ++ "-" ++ toString env.no))) := by
  unfold constructor_new_backend at h
  simp only [hpath] at h
  cases hswap : env.swap with
  | none =>
    simp only [hswap] at h
    simp only [if_true, Option.some.injEq, Prod.mk.injEq] at h
    obtain ⟨-, -, hk⟩ := h
    rw [← hk]
    constructor
    · intro _
      exact ⟨rfl, rfl⟩
    · intro path hp
      cases hp
  | some dir =>
    simp only [hswap] at h
    cases hcmp : g_ascii_strcasecmp_eq dir "ram" with
    | true =>
      simp only [hcmp, if_true, Option.some.injEq, Prod.mk.injEq] at h
      obtain ⟨-, -, hk⟩ := h
      rw [← hk]
      constructor
      · intro _
        exact ⟨rfl, rfl⟩
      · intro path hp hfalse
        cases hp
        rw [hcmp] at hfalse
        cases hfalse
    | false =>
      simp only [hcmp, get_next_swap_path, hswap] at h
      simp only [Bool.false_eq_true, if_false, Option.some.injEq, Prod.mk.injEq] at h
      obtain ⟨-, -, hk⟩ := h
      rw [← hk]
      constructor
      · rintro (hnone | ⟨path, hp, htrue⟩)
        · cases hnone
        · cases hp
          rw [hcmp] at htrue
          cases htrue
      · intro path hp _
        cases hp
        exact ⟨rfl, rfl⟩

/-- A returning construction without source and backend made its backend by
`constructor_new_backend`; the new buffer caches it. -/
theorem constructor_fresh_backend (env : GeglEnv) (heap : Heap) (params : GeglBufferParams)
    (env1 : GeglEnv) (heap1 : Heap) (p : Ptr)
    (hs : params.source = none) (hb : params.backend = none)
    (hc : gegl_buffer_constructor env heap params = some (env1, heap1, p)) :
    ∃ B made format k,
      constructor_new_backend env (construct_properties params) = some (env1, format, k) ∧
      heap1[p]? = some (GObject.buffer B) ∧
      B.backend = some made ∧
      heap1[made]? = some (GObject.tile_backend k) := by
  obtain ⟨b1, backend0, heapS, b2, be, b3, storage, hback, hsource, hview, -, hF, hp⟩ :=
    constructor_stages env heap params env1 heap1 p hc
  have hs0 : (construct_properties params).source = none := by
    simp [construct_properties, hs]
  have hb0 : (construct_properties params).backend = none := by
    simp [construct_properties, hb]
  generalize construct_properties params = b0 at hback hsource hs0 hb0 ⊢
  have hb1 : b1 = b0 ∧ backend0 = none := by
    unfold gegl_buffer_backend gegl_buffer_backend2 at hback
    simp only [hb0, hs0, gegl_buffer_backend2_walk] at hback
    simp only [Option.some.injEq, Prod.mk.injEq] at hback
    exact ⟨hback.1.symm, hback.2.symm⟩
  obtain ⟨h1, h2⟩ := hb1
  subst h1
  subst h2
  unfold constructor_source at hsource
  simp only [hs0, hb0] at hsource
  cases hnew : constructor_new_backend env b1 with
  | none => simp [hnew] at hsource
  | some res =>
    obtain ⟨env2, format, k⟩ := res
    simp only [hnew, Option.some.injEq, Prod.mk.injEq] at hsource
    obtain ⟨he, hheapS, hb2, -⟩ := hsource
    subst he
    have hb2s : b2.source = some ((heap ++ [GObject.buffer b1]).length + 1) := by
      rw [← hb2]
    have hb2b : b2.backend = some (heap ++ [GObject.buffer b1]).length := by
      rw [← hb2]
    have hb3b : b3.backend = some (heap ++ [GObject.buffer b1]).length := by
      rw [constructor_view_backend _ _ _ hview, hb2b]
    have hlenS : heapS.length = heap.length + 3 := by
      rw [← hheapS]
      simp
    refine ⟨{ b3 with tile_storage := some storage, soft_format := b3.format },
      (heap ++ [GObject.buffer b1]).length, format, k, rfl, ?_, hb3b, ?_⟩
    · rw [hF, hp]
      apply List.getElem?_set_self
      rw [constructor_connect_length]
      omega
    · have hne : heap.length ≠ (heap ++ [GObject.buffer b1]).length := by
        simp
      rw [hF, List.getElem?_set_ne hne, hb2s]
      unfold constructor_connect
      have hst : heapS[(heap ++ [GObject.buffer b1]).length + 1]? =
          some (GObject.tile_storage
            (gegl_tile_storage_new env2 (heap ++ [GObject.buffer b1]).length k)) := by
        rw [← hheapS, List.getElem?_append_right (Nat.le_succ _)]
        simp
      simp only [hst]
      rw [List.getElem?_set_ne (Nat.succ_ne_self _)]
      rw [← hheapS, List.getElem?_append_right (Nat.le_refl _)]
      simp

theorem chain_shift_sum (shifts : List Int) :
    ∀ start, sums_in_gint start shifts → chain_shift start shifts = start + shifts.sum := by
  induction shifts with
  | nil =>
    intro start _
    simp [chain_shift]
  | cons shift rest ih =>
    intro start h
    unfold sums_in_gint at h
    obtain ⟨⟨h1, h2⟩, hrest⟩ := h
    unfold chain_shift
    rw [to_gint_of_gint _ h1 h2, ih _ hrest]
    simp only [List.sum_cons]
    ring

theorem moved_abyss_translated (P : GeglBuffer) (sx sy : Int)
    (hx1 : -2147483648 ≤ P.abyss.x - sx) (hx2 : P.abyss.x - sx ≤ 2147483647)
    (hy1 : -2147483648 ≤ P.abyss.y - sy) (hy2 : P.abyss.y - sy ≤ 2147483647) :
    moved_abyss P sx sy = translated_abyss P sx sy := by
  unfold moved_abyss translated_abyss
  rw [to_gint_of_gint _ hx1 hx2, to_gint_of_gint _ hy1 hy2]

theorem construct_properties_extent (params : GeglBufferParams)
    (hx : -1073741824 ≤ params.x ∧ params.x ≤ 1073741823)
    (hy : -1073741824 ≤ params.y ∧ params.y ≤ 1073741823)
    (hw : -1 ≤ params.width ∧ params.width ≤ 2147483647)
    (hh : -1 ≤ params.height ∧ params.height ≤ 2147483647) :
    (construct_properties params).extent =
      { x := params.x, y := params.y, width := params.width, height := params.height } := by
  unfold construct_properties
  simp only [construct_int_of_range _ _ _ _ hx.1 hx.2, construct_int_of_range _ _ _ _ hy.1 hy.2,
    construct_int_of_range _ _ _ _ hw.1 hw.2, construct_int_of_range _ _ _ _ hh.1 hh.2]

theorem construct_properties_shift (params : GeglBufferParams)
    (hx : -1073741824 ≤ params.shift_x ∧ params.shift_x ≤ 1073741823)
    (hy : -1073741824 ≤ params.shift_y ∧ params.shift_y ≤ 1073741823) :
    (construct_properties params).shift_x = params.shift_x ∧
    (construct_properties params).shift_y = params.shift_y := by
  unfold construct_properties
  simp only [construct_int_of_range _ _ _ _ hx.1 hx.2, construct_int_of_range _ _ _ _ hy.1 hy.2,
    and_self]

theorem construct_properties_unset_extent (params : GeglBufferParams)
    (h : params.width = -1 ∨ params.height = -1) :
    (construct_properties params).extent.width = -1 ∨
      (construct_properties params).extent.height = -1 := by
  unfold construct_properties
  rcases h with h | h
  · left
    simp only [h]
    decide
  · right
    simp only [h]
    decide

theorem example_root_constructed :
    gegl_buffer_constructor example_env [] example_root_params =
      some (example_env, example_heap, 0) := by
  rfl

theorem example_clipped_constructed :
    gegl_buffer_create_sub_buffer example_env example_heap 0
        (some { x := 200, y := 200, width := 100, height := 100 }) =
      some (example_env, example_heap ++ [GObject.buffer example_clipped], some 3) := by
  rfl

/-- C1, at the failing input: on a buffer that tracks its extent,
`gegl_buffer_set_abyss` with a rectangle other than the extent returns TRUE
and leaves `abyss_tracks_extent` set, so the reached state has the flag set
with an abyss that differs from the extent. -/
theorem C1_set_abyss_leaves_flag_set :
    gegl_buffer_constructor example_env [] example_root_params =
      some (example_env, example_heap, 0) ∧
    ∃ heap1 b,
      gegl_buffer_set_abyss example_heap 0 { x := 0, y := 0, width := 5, height := 5 } =
        some (heap1, true) ∧
      heap1[0]? = some (GObject.buffer b) ∧
      b.abyss_tracks_extent = true ∧
      b.extent = { x := 0, y := 0, width := 256, height := 256 } ∧
      b.abyss = { x := 0, y := 0, width := 5, height := 5 } ∧
      b.abyss ≠ b.extent :=
  ⟨rfl, _, _, rfl, rfl, rfl, rfl, rfl, by decide⟩

/-- C2: on a buffer whose `abyss_tracks_extent` is set, `gegl_buffer_set_extent`
with any rectangle E returns TRUE, and afterwards the extent and the abyss of
the buffer both equal E. -/
theorem C2_set_extent_moves_tracked_abyss (heap : Heap) (buffer backend : Ptr)
    (b b2 : GeglBuffer) (k : GeglTileBackend) (E : GeglRectangle)
    (hb : heap[buffer]? = some (GObject.buffer b))
    (hbe : gegl_buffer_backend heap b = some (b2, some backend))
    (hk : heap[backend]? = some (GObject.tile_backend k))
    (ht : b.abyss_tracks_extent = true) :
    ∃ heap1 b1,
      gegl_buffer_set_extent heap buffer E = some (heap1, true) ∧
      heap1[buffer]? = some (GObject.buffer b1) ∧
      b1.extent = E ∧ b1.abyss = E := by
  obtain ⟨heap1, hrun, hget⟩ := set_extent_eval heap buffer backend b b2 k E hb hbe hk
  rw [ht] at hget
  exact ⟨heap1, _, hrun, hget, rfl, rfl⟩

theorem C2_set_extent_moves_tracked_abyss_witness :
    ∃ heap1 b1,
      gegl_buffer_set_extent example_heap 0 { x := 5, y := 5, width := 20, height := 20 } =
        some (heap1, true) ∧
      heap1[0]? = some (GObject.buffer b1) ∧
      b1.extent = { x := 5, y := 5, width := 20, height := 20 } ∧
      b1.abyss = { x := 5, y := 5, width := 20, height := 20 } :=
  C2_set_extent_moves_tracked_abyss example_heap 0 1 example_root example_root example_backend
    { x := 5, y := 5, width := 20, height := 20 } rfl rfl rfl rfl

/-- C3, at the failing input: after `gegl_buffer_set_abyss` with a rectangle A
other than the extent on a tracking buffer, a following
`gegl_buffer_set_extent` with E overwrites the abyss with E: the abyss is not
A any more. -/
theorem C3_set_extent_after_set_abyss_overwrites :
    ∃ heap1 heap2 b,
      gegl_buffer_set_abyss example_heap 0 { x := 0, y := 0, width := 5, height := 5 } =
        some (heap1, true) ∧
      gegl_buffer_set_extent heap1 0 { x := 0, y := 0, width := 300, height := 300 } =
        some (heap2, true) ∧
      heap2[0]? = some (GObject.buffer b) ∧
      b.abyss = { x := 0, y := 0, width := 300, height := 300 } ∧
      b.abyss ≠ { x := 0, y := 0, width := 5, height := 5 } :=
  ⟨_, _, _, rfl, rfl, rfl, rfl, by decide⟩

/-- C4: on a buffer whose `abyss_tracks_extent` is FALSE, `gegl_buffer_set_extent`
with any rectangle E sets the extent to E and leaves the abyss, the shift, the
format, the soft format and the flag as they were. -/
theorem C4_set_extent_untracked_frame (heap : Heap) (buffer backend : Ptr)
    (b b2 : GeglBuffer) (k : GeglTileBackend) (E : GeglRectangle)
    (hb : heap[buffer]? = some (GObject.buffer b))
    (hbe : gegl_buffer_backend heap b = some (b2, some backend))
    (hk : heap[backend]? = some (GObject.tile_backend k))
    (ht : b.abyss_tracks_extent = false) :
    ∃ heap1 b1,
      gegl_buffer_set_extent heap buffer E = some (heap1, true) ∧
      heap1[buffer]? = some (GObject.buffer b1) ∧
      b1.extent = E ∧ b1.abyss = b.abyss ∧
      b1.shift_x = b.shift_x ∧ b1.shift_y = b.shift_y ∧
      b1.format = b.format ∧ b1.soft_format = b.soft_format ∧
      b1.abyss_tracks_extent = false := by
  obtain ⟨heap1, hrun, hget⟩ := set_extent_eval heap buffer backend b b2 k E hb hbe hk
  obtain ⟨-, ha, htr, hsx, hsy, hf, hsf⟩ :=
    gegl_buffer_backend_with_extent heap b b2 (some backend) E hbe
  rw [ht] at hget
  rw [ht] at htr
  exact ⟨heap1, _, hrun, hget, rfl, ha, hsx, hsy, hf, hsf, htr⟩

theorem C4_set_extent_untracked_frame_witness :
    ∃ heap1 b1,
      gegl_buffer_set_extent (example_heap ++ [GObject.buffer example_clipped]) 3
          { x := 0, y := 0, width := 7, height := 9 } = some (heap1, true) ∧
      heap1[3]? = some (GObject.buffer b1) ∧
      b1.extent = { x := 0, y := 0, width := 7, height := 9 } ∧
      b1.abyss = example_clipped.abyss ∧
      b1.shift_x = example_clipped.shift_x ∧ b1.shift_y = example_clipped.shift_y ∧
      b1.format = example_clipped.format ∧ b1.soft_format = example_clipped.soft_format ∧
      b1.abyss_tracks_extent = false :=
  C4_set_extent_untracked_frame (example_heap ++ [GObject.buffer example_clipped]) 3 1
    example_clipped example_clipped example_backend
    { x := 0, y := 0, width := 7, height := 9 } rfl rfl rfl rfl

/-- C5 as stated fails: for the parent with extent (0, 0, 256, 256) and shift
(0, 0), the sub-buffer made for E = (10, 10, 100, 100) has shift (0, 0), not
the parent's shift plus (E.x - parent.extent.x, E.y - parent.extent.y) = (10, 10). -/
theorem C5_sub_buffer_shift_counterexample :
    ∃ heap1 sub B,
      gegl_buffer_create_sub_buffer example_env example_heap 0
          (some { x := 10, y := 10, width := 100, height := 100 }) =
        some (example_env, heap1, some sub) ∧
      heap1[sub]? = some (GObject.buffer B) ∧
      B.shift_x = 0 ∧ B.shift_y = 0 ∧
      ¬ (B.shift_x = example_root.shift_x + (10 - example_root.extent.x) ∧
         B.shift_y = example_root.shift_y + (10 - example_root.extent.y)) :=
  ⟨_, _, _, rfl, rfl, rfl, rfl, by decide⟩

/-- C5, amended: for every parent buffer whose shift is a `gint` and every
rectangle E of `gint` size with non-negative width and height, with x and y in
the range `G_MININT / 2` to `G_MAXINT / 2` of the x and y construct properties,
that differs from the parent's extent, `gegl_buffer_create_sub_buffer` returns a
new buffer on the parent with extent E whose shift equals the parent's shift:
no offset is added for the position of E. -/
theorem C5_sub_buffer_keeps_parent_shift (env : GeglEnv) (heap : Heap) (parent : Ptr)
    (P : GeglBuffer) (s be : Ptr) (E : GeglRectangle)
    (hP : heap[parent]? = some (GObject.buffer P))
    (hs : gegl_buffer_tile_storage heap P = some s)
    (hbe : gegl_buffer_backend2 heap P = some (some be))
    (hw : 0 ≤ E.width ∧ E.width ≤ 2147483647) (hh : 0 ≤ E.height ∧ E.height ≤ 2147483647)
    (hx : -1073741824 ≤ E.x ∧ E.x ≤ 1073741823)
    (hy : -1073741824 ≤ E.y ∧ E.y ≤ 1073741823)
    (hpx : -2147483648 ≤ P.shift_x ∧ P.shift_x ≤ 2147483647)
    (hpy : -2147483648 ≤ P.shift_y ∧ P.shift_y ≤ 2147483647)
    (hne : E ≠ P.extent) :
    ∃ heap1 sub B,
      gegl_buffer_create_sub_buffer env heap parent (some E) = some (env, heap1, some sub) ∧
      heap1[sub]? = some (GObject.buffer B) ∧
      sub ≠ parent ∧ B.source = some parent ∧ B.extent = E ∧
      B.shift_x = P.shift_x ∧ B.shift_y = P.shift_y := by
  have heq : gegl_rectangle_equal E P.extent = false := by
    cases h : gegl_rectangle_equal E P.extent with
    | false => rfl
    | true => exact absurd ((gegl_rectangle_equal_iff _ _).mp h) hne
  have hneg : ¬ (E.width < 0 ∨ E.height < 0) := by omega
  obtain ⟨B, hc, hsource, hsx, hsy, hext, -⟩ :=
    sub_buffer_constructed env heap
      { GeglBufferParams.default env with
        source := some parent, x := E.x, y := E.y, width := E.width, height := E.height }
      parent P s be rfl hP hs hbe
  have he := construct_properties_extent
    { GeglBufferParams.default env with
      source := some parent, x := E.x, y := E.y, width := E.width, height := E.height }
    hx hy ⟨by show -1 ≤ E.width; omega, hw.2⟩ ⟨by show -1 ≤ E.height; omega, hh.2⟩
  obtain ⟨hs1, hs2⟩ := construct_properties_shift
    { GeglBufferParams.default env with
      source := some parent, x := E.x, y := E.y, width := E.width, height := E.height }
    ⟨by show (-1073741824 : Int) ≤ 0; decide, by show (0 : Int) ≤ 1073741823; decide⟩
    ⟨by show (-1073741824 : Int) ≤ 0; decide, by show (0 : Int) ≤ 1073741823; decide⟩
  rw [he] at hext
  rw [hs1] at hsx
  rw [hs2] at hsy
  have hm : ¬ (E.width = -1 ∨ E.height = -1) := by omega
  refine ⟨heap ++ [GObject.buffer B], heap.length, B, ?_, by simp, ?_, hsource, ?_, ?_, ?_⟩
  · unfold gegl_buffer_create_sub_buffer
    simp only [hP, heq, if_neg hneg, hc]
    simp
  · exact Nat.ne_of_gt (getElem?_some_lt hP)
  · rw [hext]
    simp only [if_neg hm]
  · rw [hsx]
    show to_gint (0 + P.shift_x) = P.shift_x
    rw [Int.zero_add, to_gint_of_gint _ hpx.1 hpx.2]
  · rw [hsy]
    show to_gint (0 + P.shift_y) = P.shift_y
    rw [Int.zero_add, to_gint_of_gint _ hpy.1 hpy.2]

theorem C5_sub_buffer_keeps_parent_shift_witness :
    ∃ heap1 sub B,
      gegl_buffer_create_sub_buffer example_env example_heap 0
          (some { x := 10, y := 10, width := 100, height := 100 }) =
        some (example_env, heap1, some sub) ∧
      heap1[sub]? = some (GObject.buffer B) ∧
      sub ≠ 0 ∧ B.source = some 0 ∧
      B.extent = { x := 10, y := 10, width := 100, height := 100 } ∧
      B.shift_x = example_root.shift_x ∧ B.shift_y = example_root.shift_y :=
  C5_sub_buffer_keeps_parent_shift example_env example_heap 0 example_root 2 1
    { x := 10, y := 10, width := 100, height := 100 } rfl rfl rfl
    (by decide) (by decide) (by decide) (by decide) (by decide) (by decide) (by decide)

/-- C6 as stated fails: constructed on the parent with abyss (0, 0, 256, 256),
with shift (0, 0) and requested abyss (0, 0, -1, 5), the buffer gets the abyss
(0, 0, 256, 256).  That is not the intersection of the requested abyss with
the parent's: it covers the pixel (1, 1), which the requested abyss does not. -/
theorem C6_inherited_abyss_counterexample :
    ∃ heap1 sub B,
      gegl_buffer_constructor example_env example_heap example_inherit_params =
        some (example_env, heap1, sub) ∧
      heap1[sub]? = some (GObject.buffer B) ∧
      B.abyss = { x := 0, y := 0, width := 256, height := 256 } ∧
      requested_abyss example_inherit_params example_root =
        { x := 0, y := 0, width := -1, height := 5 } ∧
      B.abyss ≠ (gegl_rectangle_intersect (translated_abyss example_root 0 0)
                  (requested_abyss example_inherit_params example_root)).1 ∧
      B.abyss.covers 1 1 ∧
      ¬ (requested_abyss example_inherit_params example_root).covers 1 1 :=
  ⟨_, _, _, rfl, rfl, rfl, rfl, by decide, by decide, by decide⟩

/-- C6, amended: for every buffer constructed with a parent Buffer as source,
with construct properties in the ranges of their param specs, construction
shift (sx, sy) such that the parent's abyss moved by (-sx, -sy) stays within
`gint`, and requested abyss R (the extent when the four abyss parameters are
zero): when neither the abyss width nor the abyss height parameter is -1, the
resulting abyss is the intersection of R with the parent's abyss translated by
(-sx, -sy), so it covers exactly the pixels both cover and is (0, 0, 0, 0) when
they share none; when one of the two is -1, the parent's translated abyss takes
the place of R.  In every case the resulting abyss is contained in the parent's
translated abyss. -/
theorem C6_sub_buffer_abyss_is_intersection (env : GeglEnv) (heap : Heap)
    (params : GeglBufferParams) (parent : Ptr) (P : GeglBuffer) (s be : Ptr)
    (hsrc : params.source = some parent)
    (hP : heap[parent]? = some (GObject.buffer P))
    (hs : gegl_buffer_tile_storage heap P = some s)
    (hbe : gegl_buffer_backend2 heap P = some (some be))
    (hr : params.in_range)
    (hx : -2147483648 ≤ P.abyss.x - params.shift_x ∧ P.abyss.x - params.shift_x ≤ 2147483647)
    (hy : -2147483648 ≤ P.abyss.y - params.shift_y ∧
      P.abyss.y - params.shift_y ≤ 2147483647) :
    ∃ heap1 sub B,
      gegl_buffer_constructor env heap params = some (env, heap1, sub) ∧
      heap1[sub]? = some (GObject.buffer B) ∧
      (params.abyss_width ≠ -1 ∧ params.abyss_height ≠ -1 →
        B.abyss = (gegl_rectangle_intersect
            (translated_abyss P params.shift_x params.shift_y)
            (requested_abyss params P)).1 ∧
        (∀ px py, B.abyss.covers px py ↔
          (requested_abyss params P).covers px py ∧
          (translated_abyss P params.shift_x params.shift_y).covers px py) ∧
        ((¬ ∃ px py, (requested_abyss params P).covers px py ∧
            (translated_abyss P params.shift_x params.shift_y).covers px py) →
          B.abyss = { x := 0, y := 0, width := 0, height := 0 })) ∧
      (params.abyss_width = -1 ∨ params.abyss_height = -1 →
        B.abyss = (gegl_rectangle_intersect
            (translated_abyss P params.shift_x params.shift_y)
            (translated_abyss P params.shift_x params.shift_y)).1) ∧
      (∀ px py, B.abyss.covers px py →
        (translated_abyss P params.shift_x params.shift_y).covers px py) := by
  obtain ⟨B, hc, -, -, -, -, habyss, -⟩ :=
    sub_buffer_in_range env heap params parent P s be hsrc hP hs hbe hr
  rw [moved_abyss_translated P params.shift_x params.shift_y hx.1 hx.2 hy.1 hy.2] at habyss
  refine ⟨heap ++ [GObject.buffer B], heap.length, B, hc, by simp, ?_, ?_, ?_⟩
  · rintro ⟨hw, hh⟩
    have hm : ¬ (params.abyss_width = -1 ∨ params.abyss_height = -1) := by
      rintro (h | h)
      · exact hw h
      · exact hh h
    rw [if_neg hm] at habyss
    refine ⟨habyss, ?_, ?_⟩
    · intro px py
      rw [habyss, gegl_rectangle_intersect_covers]
      exact And.comm
    · intro hdis
      rw [habyss]
      apply gegl_rectangle_intersect_disjoint
      rintro ⟨px, py, h1, h2⟩
      exact hdis ⟨px, py, h2, h1⟩
  · intro hm
    rw [if_pos hm] at habyss
    exact habyss
  · intro px py hcov
    rw [habyss, gegl_rectangle_intersect_covers] at hcov
    exact hcov.1

theorem C6_sub_buffer_abyss_is_intersection_witness :
    ∃ heap1 sub B,
      gegl_buffer_constructor example_env example_heap example_shifted_params =
        some (example_env, heap1, sub) ∧
      heap1[sub]? = some (GObject.buffer B) ∧
      B.abyss = { x := -10, y := -20, width := 30, height := 50 } :=
  match C6_sub_buffer_abyss_is_intersection example_env example_heap example_shifted_params
      0 example_root 2 1 rfl rfl rfl rfl (by decide) (by decide) (by decide) with
  | ⟨heap1, sub, B, hc, hB, h, _, _⟩ =>
    ⟨heap1, sub, B, hc, hB, (h ⟨by decide, by decide⟩).1.trans (by decide)⟩

/-- C8: a buffer constructed with a parent Buffer as source, directly or through
any number of further sub-buffers nested below it, records the same tile
storage as the parent; that object is a tile storage, and the walk of
`gegl_buffer_tile_storage` from the sub-buffer ends at it within one step per
object of the heap (and within any larger number of steps). -/
theorem C8_sub_buffer_shares_tile_storage (env : GeglEnv) (heap : Heap) (parent : Ptr)
    (P : GeglBuffer) (s be : Ptr) (params : GeglBufferParams)
    (deeper : List GeglBufferParams)
    (hP : heap[parent]? = some (GObject.buffer P))
    (hrec : P.tile_storage = some s)
    (hs : gegl_buffer_tile_storage heap P = some s)
    (hbe : gegl_buffer_backend2 heap P = some (some be)) :
    ∃ heap1 last B,
      construct_chain env heap parent (params :: deeper) = some (env, heap1, last) ∧
      heap1[last]? = some (GObject.buffer B) ∧
      heap1[parent]? = some (GObject.buffer P) ∧
      B.tile_storage = P.tile_storage ∧
      GEGL_IS_TILE_STORAGE heap1 s = true ∧
      ∀ fuel, heap1.length + 1 ≤ fuel →
        gegl_buffer_tile_storage_walk fuel heap1 B.source = some s := by
  obtain ⟨ext, last, B, hch, hB, hs2, -, hts, -, -⟩ :=
    construct_chain_on_buffer (params :: deeper) env heap parent P s be hP hs hbe
  refine ⟨heap ++ ext, last, B, hch, hB, getElem?_append_some ext hP, ?_, ?_, ?_⟩
  · rcases hts with h | h
    · rw [h]
    · rw [h, hrec]
  · exact tile_storage_walk_is_storage _ _ _ _ hs2
  · intro fuel hfuel
    obtain ⟨more, hmore⟩ := Nat.exists_eq_add_of_le hfuel
    rw [hmore]
    exact tile_storage_walk_fuel _ _ _ _ hs2 more

theorem C8_sub_buffer_shares_tile_storage_witness :
    ∃ heap1 last B,
      construct_chain example_env example_heap 0
          [example_shifted_params, example_inherit_params, example_root_params] =
        some (example_env, heap1, last) ∧
      heap1[last]? = some (GObject.buffer B) ∧
      heap1[0]? = some (GObject.buffer example_root) ∧
      B.tile_storage = example_root.tile_storage ∧
      GEGL_IS_TILE_STORAGE heap1 2 = true ∧
      ∀ fuel, heap1.length + 1 ≤ fuel →
        gegl_buffer_tile_storage_walk fuel heap1 B.source = some 2 :=
  C8_sub_buffer_shares_tile_storage example_env example_heap 0 example_root 2 1
    example_shifted_params [example_inherit_params, example_root_params] rfl rfl rfl rfl

/-- C7 as stated fails: three sub-buffers nested on a buffer with shift (0, 0),
each with the construction shift (1073741823, 0), which the param spec of
shift-x lets through: the last one stores the shift -1073741827, not the sum
3221225469 of the construction shifts, which no `gint` holds. -/
theorem C7_nested_shift_overflow_counterexample :
    ∃ heap2 last B,
      construct_chain example_env example_heap 0
          [example_far_shift_params, example_far_shift_params, example_far_shift_params] =
        some (example_env, heap2, last) ∧
      heap2[last]? = some (GObject.buffer B) ∧
      example_far_shift_params.in_range ∧
      B.shift_x = -1073741827 ∧
      B.shift_x ≠ example_root.shift_x +
        (example_far_shift_params.shift_x + (example_far_shift_params.shift_x +
          example_far_shift_params.shift_x)) :=
  ⟨_, _, _, rfl, rfl, by decide, rfl, by decide⟩

/-- C7, amended: with construction shift (sx, sy) in the range `G_MININT / 2` to
`G_MAXINT / 2` of the shift construct properties, a buffer constructed with a
parent Buffer as source stores the shift (sx + parent.shift_x,
sy + parent.shift_y) reduced to a `gint`, which is that sum whenever the sum
lies in the range of `gint`; so at the end of a chain of sub-buffers built on
a buffer that has no parent Buffer, along which no sum leaves the range of
`gint`, the stored shift is the sum of the construction shifts of the buffer
and all its ancestors; and a buffer with no parent Buffer stores exactly
(sx, sy). -/
theorem C7_stored_shift_is_cumulative :
    (∀ (env : GeglEnv) (heap : Heap) (params : GeglBufferParams) (parent : Ptr)
        (P : GeglBuffer) (s be : Ptr),
      params.source = some parent →
      heap[parent]? = some (GObject.buffer P) →
      gegl_buffer_tile_storage heap P = some s →
      gegl_buffer_backend2 heap P = some (some be) →
      (-1073741824 ≤ params.shift_x ∧ params.shift_x ≤ 1073741823) →
      (-1073741824 ≤ params.shift_y ∧ params.shift_y ≤ 1073741823) →
      ∃ heap1 sub B,
        gegl_buffer_constructor env heap params = some (env, heap1, sub) ∧
        heap1[sub]? = some (GObject.buffer B) ∧
        B.shift_x = to_gint (params.shift_x + P.shift_x) ∧
        B.shift_y = to_gint (params.shift_y + P.shift_y) ∧
        ((-2147483648 ≤ params.shift_x + P.shift_x ∧
            params.shift_x + P.shift_x ≤ 2147483647) →
          B.shift_x = params.shift_x + P.shift_x) ∧
        ((-2147483648 ≤ params.shift_y + P.shift_y ∧
            params.shift_y + P.shift_y ≤ 2147483647) →
          B.shift_y = params.shift_y + P.shift_y)) ∧
    (∀ (env : GeglEnv) (heap : Heap) (root_params : GeglBufferParams) (env1 : GeglEnv)
        (heap1 : Heap) (root : Ptr) (R : GeglBuffer) (s be : Ptr)
        (chain : List GeglBufferParams),
      (∀ src, root_params.source = some src →
        src < heap.length ∧ GEGL_IS_BUFFER heap src = false) →
      gegl_buffer_constructor env heap root_params = some (env1, heap1, root) →
      heap1[root]? = some (GObject.buffer R) →
      gegl_buffer_tile_storage heap1 R = some s →
      gegl_buffer_backend2 heap1 R = some (some be) →
      (-1073741824 ≤ root_params.shift_x ∧ root_params.shift_x ≤ 1073741823) →
      (-1073741824 ≤ root_params.shift_y ∧ root_params.shift_y ≤ 1073741823) →
      (∀ params ∈ chain,
        (-1073741824 ≤ params.shift_x ∧ params.shift_x ≤ 1073741823) ∧
        (-1073741824 ≤ params.shift_y ∧ params.shift_y ≤ 1073741823)) →
      sums_in_gint root_params.shift_x (chain.map (fun params => params.shift_x)) →
      sums_in_gint root_params.shift_y (chain.map (fun params => params.shift_y)) →
      ∃ heap2 last B,
        construct_chain env1 heap1 root chain = some (env1, heap2, last) ∧
        heap2[last]? = some (GObject.buffer B) ∧
        B.shift_x = root_params.shift_x + (chain.map (fun params => params.shift_x)).sum ∧
        B.shift_y = root_params.shift_y + (chain.map (fun params => params.shift_y)).sum) ∧
    (∀ (env : GeglEnv) (heap : Heap) (params : GeglBufferParams) (env1 : GeglEnv)
        (heap1 : Heap) (p : Ptr),
      (∀ src, params.source = some src →
        src < heap.length ∧ GEGL_IS_BUFFER heap src = false) →
      gegl_buffer_constructor env heap params = some (env1, heap1, p) →
      (-1073741824 ≤ params.shift_x ∧ params.shift_x ≤ 1073741823) →
      (-1073741824 ≤ params.shift_y ∧ params.shift_y ≤ 1073741823) →
      ∃ B, heap1[p]? = some (GObject.buffer B) ∧
        B.shift_x = params.shift_x ∧ B.shift_y = params.shift_y) := by
  refine ⟨?_, ?_, ?_⟩
  · intro env heap params parent P s be hsrc hP hs hbe hrx hry
    obtain ⟨B, hc, -, hsx, hsy, -⟩ :=
      sub_buffer_constructed env heap params parent P s be hsrc hP hs hbe
    obtain ⟨e1, e2⟩ := construct_properties_shift params hrx hry
    rw [e1] at hsx
    rw [e2] at hsy
    refine ⟨heap ++ [GObject.buffer B], heap.length, B, hc, by simp, hsx, hsy, ?_, ?_⟩
    · intro h
      rw [hsx, to_gint_of_gint _ h.1 h.2]
    · intro h
      rw [hsy, to_gint_of_gint _ h.1 h.2]
  · intro env heap root_params env1 heap1 root R s be chain hnp hroot hR hs hbe hrx hry
      hchain hsumx hsumy
    obtain ⟨R', hR', hx, hy⟩ :=
      constructor_without_parent env heap root_params env1 heap1 root hnp hroot
    rw [hR] at hR'
    cases hR'
    obtain ⟨e1, e2⟩ := construct_properties_shift root_params hrx hry
    rw [e1] at hx
    rw [e2] at hy
    obtain ⟨ext, last, B, hch, hB, -, -, -, hsx, hsy⟩ :=
      construct_chain_on_buffer chain env1 heap1 root R s be hR hs hbe
    have hmx : chain.map (fun params => (construct_properties params).shift_x) =
        chain.map (fun params => params.shift_x) := by
      apply List.map_congr_left
      intro params hin
      exact (construct_properties_shift params (hchain params hin).1 (hchain params hin).2).1
    have hmy : chain.map (fun params => (construct_properties params).shift_y) =
        chain.map (fun params => params.shift_y) := by
      apply List.map_congr_left
      intro params hin
      exact (construct_properties_shift params (hchain params hin).1 (hchain params hin).2).2
    rw [hmx, hx, chain_shift_sum _ _ hsumx] at hsx
    rw [hmy, hy, chain_shift_sum _ _ hsumy] at hsy
    exact ⟨heap1 ++ ext, last, B, hch, hB, hsx, hsy⟩
  · intro env heap params env1 heap1 p hnp hc hrx hry
    obtain ⟨B, hB, hx, hy⟩ := constructor_without_parent env heap params env1 heap1 p hnp hc
    obtain ⟨e1, e2⟩ := construct_properties_shift params hrx hry
    exact ⟨B, hB, by rw [hx, e1], by rw [hy, e2]⟩

theorem C7_stored_shift_is_cumulative_witness :
    (∃ heap1 sub B,
      gegl_buffer_constructor example_env example_heap example_shifted_params =
        some (example_env, heap1, sub) ∧
      heap1[sub]? = some (GObject.buffer B) ∧
      B.shift_x = 10 + 0 ∧ B.shift_y = 20 + 0) ∧
    (∃ heap2 last B,
      construct_chain example_env example_heap 0
          [example_shifted_params, example_inherit_params, example_shifted_params] =
        some (example_env, heap2, last) ∧
      heap2[last]? = some (GObject.buffer B) ∧
      B.shift_x = 0 + (10 + (0 + (10 + 0))) ∧ B.shift_y = 0 + (20 + (0 + (20 + 0)))) ∧
    (∃ B, example_heap[0]? = some (GObject.buffer B) ∧ B.shift_x = 0 ∧ B.shift_y = 0) :=
  ⟨match C7_stored_shift_is_cumulative.1 example_env example_heap example_shifted_params 0
      example_root 2 1 rfl rfl rfl rfl (by decide) (by decide) with
    | ⟨heap1, sub, B, hc, hB, _, _, hx, hy⟩ =>
      ⟨heap1, sub, B, hc, hB, hx (by decide), hy (by decide)⟩,
   C7_stored_shift_is_cumulative.2.1 example_env [] example_root_params example_env
      example_heap 0 example_root 2 1
      [example_shifted_params, example_inherit_params, example_shifted_params]
      (by intro src h; cases h) rfl rfl rfl rfl (by decide) (by decide) (by decide)
      ⟨⟨by decide, by decide⟩, ⟨by decide, by decide⟩, ⟨by decide, by decide⟩, trivial⟩
      ⟨⟨by decide, by decide⟩, ⟨by decide, by decide⟩, ⟨by decide, by decide⟩, trivial⟩,
   C7_stored_shift_is_cumulative.2.2 example_env [] example_root_params example_env
      example_heap 0 (by intro src h; cases h) rfl (by decide) (by decide)⟩

/-- C9: for every buffer and every non-NULL format whose bytes per pixel differ
from those of the buffer's format, `gegl_buffer_set_format` returns `NULL` and
changes nothing: the heap after the call is the heap before it, so the
buffer's soft format, format and every other field keep their values. -/
theorem C9_set_format_mismatch_fails (heap : Heap) (buffer : Ptr) (b : GeglBuffer)
    (f g : Babl)
    (hb : heap[buffer]? = some (GObject.buffer b))
    (hg : b.format = some g)
    (hne : babl_format_get_bytes_per_pixel f ≠ babl_format_get_bytes_per_pixel g) :
    gegl_buffer_set_format heap buffer (some f) = some (heap, none) := by
  unfold gegl_buffer_set_format
  simp only [hb, hg, if_neg hne]

theorem C9_set_format_mismatch_fails_witness :
    gegl_buffer_set_format example_heap 0 (some babl_format_RGBA_u8) =
      some (example_heap, none) :=
  C9_set_format_mismatch_fails example_heap 0 example_root babl_format_RGBA_u8
    babl_format_RGBA_float rfl rfl (by decide)

/-- C10: after a construction, along every run of `gegl_buffer_set_format` calls
on the new buffer (with `NULL`, same-size or different-size formats) the soft
format has the bytes per pixel of the format, and the format is the one the
constructor stored; such a run returns whenever that format is not `NULL`. -/
theorem C10_soft_format_stays_compatible (env : GeglEnv) (heap : Heap)
    (params : GeglBufferParams) (env1 : GeglEnv) (heap1 : Heap) (p : Ptr)
    (hc : gegl_buffer_constructor env heap params = some (env1, heap1, p)) :
    ∃ B1, heap1[p]? = some (GObject.buffer B1) ∧ B1.soft_format = B1.format ∧
      ∀ formats : List (Option Babl),
        (B1.format ≠ none → (set_format_calls heap1 p formats).isSome = true) ∧
        ∀ heap2, set_format_calls heap1 p formats = some heap2 →
          ∃ B2, heap2[p]? = some (GObject.buffer B2) ∧ B2.format = B1.format ∧
            B2.soft_format.map babl_format_get_bytes_per_pixel =
              B2.format.map babl_format_get_bytes_per_pixel := by
  obtain ⟨-, B1, hB1, hsoft⟩ := constructor_result env heap params env1 heap1 p hc
  refine ⟨B1, hB1, hsoft, ?_⟩
  intro formats
  exact set_format_calls_invariant p formats heap1 B1 hB1 (by rw [hsoft])

theorem C10_soft_format_stays_compatible_witness :
    ∃ B1, example_heap[0]? = some (GObject.buffer B1) ∧ B1.soft_format = B1.format ∧
      ∀ formats : List (Option Babl),
        (B1.format ≠ none → (set_format_calls example_heap 0 formats).isSome = true) ∧
        ∀ heap2, set_format_calls example_heap 0 formats = some heap2 →
          ∃ B2, heap2[0]? = some (GObject.buffer B2) ∧ B2.format = B1.format ∧
            B2.soft_format.map babl_format_get_bytes_per_pixel =
              B2.format.map babl_format_get_bytes_per_pixel :=
  C10_soft_format_stays_compatible example_env [] example_root_params example_env
    example_heap 0 rfl

/-- C11, at the failing input: on a buffer stored as "RGBA float",
`gegl_buffer_set_format` with the equally wide "RaGaBaA float" succeeds and
the "format" property then reads that format, but `gegl_buffer_get_format`
still returns "RGBA float": it returns the field `format`, not the soft format. -/
theorem C11_get_format_ignores_soft_format :
    ∃ heap1,
      gegl_buffer_set_format example_heap 0 (some babl_format_RaGaBaA_float) =
        some (heap1, some babl_format_RaGaBaA_float) ∧
      gegl_buffer_get_property_format heap1 0 =
        some (heap1, some babl_format_RaGaBaA_float) ∧
      gegl_buffer_get_format heap1 (some 0) = some (some babl_format_RGBA_float) ∧
      babl_format_RGBA_float ≠ babl_format_RaGaBaA_float :=
  ⟨_, rfl, rfl, rfl, by decide⟩

/-- C12 as stated fails: a parent whose extent has been set to (0, 0, -5, 3) and
the rectangle E = (0, 0, -5, 3) of negative width: `gegl_buffer_create_sub_buffer`
returns the parent itself, whose extent is E and not (E.x, E.y, 0, 0), and
makes no new buffer. -/
theorem C12_negative_extent_of_parent_counterexample :
    ∃ heap1 b,
      gegl_buffer_set_extent example_heap 0 { x := 0, y := 0, width := -5, height := 3 } =
        some (heap1, true) ∧
      gegl_buffer_create_sub_buffer example_env heap1 0
          (some { x := 0, y := 0, width := -5, height := 3 }) =
        some (example_env, heap1, some 0) ∧
      heap1[0]? = some (GObject.buffer b) ∧
      b.extent = { x := 0, y := 0, width := -5, height := 3 } ∧
      b.extent ≠ { x := 0, y := 0, width := 0, height := 0 } :=
  ⟨_, _, rfl, rfl, rfl, rfl, by decide⟩

/-- C12, amended: for every parent buffer and every rectangle E with negative
width or negative height, with x and y in the range `G_MININT / 2` to
`G_MAXINT / 2` of the x and y construct properties, that differs from the
parent's extent, `gegl_buffer_create_sub_buffer` returns, and what it returns is
a new buffer on the parent whose extent is (E.x, E.y, 0, 0). -/
theorem C12_negative_size_gives_empty_sub_buffer (env : GeglEnv) (heap : Heap)
    (parent : Ptr) (P : GeglBuffer) (s be : Ptr) (E : GeglRectangle)
    (hP : heap[parent]? = some (GObject.buffer P))
    (hs : gegl_buffer_tile_storage heap P = some s)
    (hbe : gegl_buffer_backend2 heap P = some (some be))
    (hneg : E.width < 0 ∨ E.height < 0)
    (hx : -1073741824 ≤ E.x ∧ E.x ≤ 1073741823)
    (hy : -1073741824 ≤ E.y ∧ E.y ≤ 1073741823)
    (hne : E ≠ P.extent) :
    ∃ heap1 sub B,
      gegl_buffer_create_sub_buffer env heap parent (some E) = some (env, heap1, some sub) ∧
      heap1[sub]? = some (GObject.buffer B) ∧
      sub ≠ parent ∧ B.source = some parent ∧
      B.extent = { x := E.x, y := E.y, width := 0, height := 0 } := by
  have heq : gegl_rectangle_equal E P.extent = false := by
    cases h : gegl_rectangle_equal E P.extent with
    | false => rfl
    | true => exact absurd ((gegl_rectangle_equal_iff _ _).mp h) hne
  obtain ⟨B, hc, hsource, -, -, hext, -⟩ :=
    sub_buffer_constructed env heap
      { GeglBufferParams.default env with
        source := some parent, x := E.x, y := E.y, width := 0, height := 0 }
      parent P s be rfl hP hs hbe
  have he := construct_properties_extent
    { GeglBufferParams.default env with
      source := some parent, x := E.x, y := E.y, width := 0, height := 0 }
    hx hy ⟨by show (-1 : Int) ≤ 0; decide, by show (0 : Int) ≤ 2147483647; decide⟩
    ⟨by show (-1 : Int) ≤ 0; decide, by show (0 : Int) ≤ 2147483647; decide⟩
  rw [he] at hext
  refine ⟨heap ++ [GObject.buffer B], heap.length, B, ?_, by simp, ?_, hsource, ?_⟩
  · unfold gegl_buffer_create_sub_buffer
    simp only [hP, heq, if_pos hneg, hc]
    simp
  · exact Nat.ne_of_gt (getElem?_some_lt hP)
  · rw [hext]
    simp

theorem C12_negative_size_gives_empty_sub_buffer_witness :
    ∃ heap1 sub B,
      gegl_buffer_create_sub_buffer example_env example_heap 0
          (some { x := 7, y := 8, width := -5, height := 3 }) =
        some (example_env, heap1, some sub) ∧
      heap1[sub]? = some (GObject.buffer B) ∧
      sub ≠ 0 ∧ B.source = some 0 ∧
      B.extent = { x := 7, y := 8, width := 0, height := 0 } :=
  C12_negative_size_gives_empty_sub_buffer example_env example_heap 0 example_root 2 1
    { x := 7, y := 8, width := -5, height := 3 } rfl rfl rfl (by decide) (by decide)
    (by decide) (by decide)

/-- C13: a buffer constructed without a parent Buffer (on a tile storage, on a
supplied backend or on a fresh backend) with all four abyss parameters zero
has, after construction, its abyss equal to its extent and
`abyss_tracks_extent` set. -/
theorem C13_zero_abyss_tracks_extent (env : GeglEnv) (heap : Heap)
    (params : GeglBufferParams) (env1 : GeglEnv) (heap1 : Heap) (p : Ptr)
    (hnp : ∀ src, params.source = some src →
      src < heap.length ∧ GEGL_IS_BUFFER heap src = false)
    (hz : params.abyss_x = 0 ∧ params.abyss_y = 0 ∧
      params.abyss_width = 0 ∧ params.abyss_height = 0)
    (hc : gegl_buffer_constructor env heap params = some (env1, heap1, p)) :
    ∃ B, heap1[p]? = some (GObject.buffer B) ∧
      B.abyss = B.extent ∧ B.abyss_tracks_extent = true := by
  obtain ⟨b1, backend0, heapS, b2, be, b3, storage, hback, hsource, hview, -, hF, hp⟩ :=
    constructor_stages env heap params env1 heap1 p hc
  have hb1 := gegl_buffer_backend_frame _ _ _ _ hback
  have hb1s : b1.source = params.source := by rw [hb1]; rfl
  have hb1a : b1.abyss = (construct_properties params).abyss := by rw [hb1]
  obtain ⟨hlen, -⟩ := constructor_source_frame _ _ _ _ _ _ _ _ hsource
  obtain ⟨-, hab⟩ := constructor_source_view_fields _ _ _ _ _ _ _ _ hsource
  have hobj := constructor_source_not_buffer env heap b1 backend0 env1 heapS b2 (some be)
    heap.length _ (by rw [hb1s]; exact hnp) hsource
  have hz2 : b2.abyss.width = 0 ∧ b2.abyss.height = 0 ∧ b2.abyss.x = 0 ∧ b2.abyss.y = 0 := by
    rw [hab, hb1a]
    obtain ⟨z1, z2, z3, z4⟩ := hz
    simp only [construct_properties, z1, z2, z3, z4]
    decide
  obtain ⟨h1, h2⟩ := constructor_view_no_parent_abyss _ _ _ hobj hz2 hview
  refine ⟨{ b3 with tile_storage := some storage, soft_format := b3.format }, ?_, h1, h2⟩
  rw [hF, hp]
  apply List.getElem?_set_self
  rw [constructor_connect_length]
  simp only [List.length_append, List.length_singleton] at hlen
  omega

theorem C13_zero_abyss_tracks_extent_witness :
    (∃ B, example_heap[0]? = some (GObject.buffer B) ∧
      B.abyss = B.extent ∧ B.abyss_tracks_extent = true) ∧
    (∃ env1 heap1 p B,
      gegl_buffer_constructor example_env example_heap example_on_storage_params =
        some (env1, heap1, p) ∧
      heap1[p]? = some (GObject.buffer B) ∧
      B.abyss = B.extent ∧ B.abyss_tracks_extent = true) ∧
    (∃ env1 heap1 p B,
      gegl_buffer_constructor example_env example_heap example_on_backend_params =
        some (env1, heap1, p) ∧
      heap1[p]? = some (GObject.buffer B) ∧
      B.abyss = B.extent ∧ B.abyss_tracks_extent = true) := by
  have h1 : gegl_buffer_constructor example_env example_heap example_on_storage_params =
      some (_, _, _) := rfl
  have h2 : gegl_buffer_constructor example_env example_heap example_on_backend_params =
      some (_, _, _) := rfl
  refine ⟨?_, ?_, ?_⟩
  · exact C13_zero_abyss_tracks_extent example_env [] example_root_params example_env
      example_heap 0 (by intro src h; cases h) (by decide) rfl
  · obtain ⟨B, hB, ha, ht⟩ := C13_zero_abyss_tracks_extent example_env example_heap
      example_on_storage_params _ _ _
      (by intro src h; cases h; exact ⟨by decide, rfl⟩) (by decide) h1
    exact ⟨_, _, _, B, h1, hB, ha, ht⟩
  · obtain ⟨B, hB, ha, ht⟩ := C13_zero_abyss_tracks_extent example_env example_heap
      example_on_backend_params _ _ _
      (by intro src h; cases h) (by decide) h2
    exact ⟨_, _, _, B, h2, hB, ha, ht⟩

/-- C14 as stated fails: constructed with width 10 and height 10 given and with
x = 2000000000, beyond the range of the x param spec, the buffer has the
extent (0, 0, 10, 10), not the one requested. -/
theorem C14_extent_out_of_range_counterexample :
    ∃ env1 heap1 p B,
      gegl_buffer_constructor example_env [] example_far_params = some (env1, heap1, p) ∧
      heap1[p]? = some (GObject.buffer B) ∧
      example_far_params.width ≠ -1 ∧ example_far_params.height ≠ -1 ∧
      B.extent = { x := 0, y := 0, width := 10, height := 10 } ∧
      B.extent ≠ { x := example_far_params.x, y := example_far_params.y,
                   width := example_far_params.width,
                   height := example_far_params.height } :=
  ⟨_, _, _, _, rfl, rfl, by decide, by decide, rfl, by decide⟩

/-- C14, amended: a buffer constructed with extent width or height -1 inherits
its extent from the source: the parent's extent when the source is a Buffer,
(0, 0, storage.width, storage.height) when the source is a tile storage, be it
one given as source or, with no source given, the one the constructor made and
took as source; with width and height both given and x, y, width and height in
the ranges of their param specs, the extent is exactly the one requested. -/
theorem C14_extent_inherited_from_source (env : GeglEnv) (heap : Heap)
    (params : GeglBufferParams) (env1 : GeglEnv) (heap1 : Heap) (p : Ptr)
    (hc : gegl_buffer_constructor env heap params = some (env1, heap1, p)) :
    ∃ B, heap1[p]? = some (GObject.buffer B) ∧
      (params.width ≠ -1 ∧ params.height ≠ -1 →
        (-1073741824 ≤ params.x ∧ params.x ≤ 1073741823) →
        (-1073741824 ≤ params.y ∧ params.y ≤ 1073741823) →
        (-1 ≤ params.width ∧ params.width ≤ 2147483647) →
        (-1 ≤ params.height ∧ params.height ≤ 2147483647) →
        B.extent = { x := params.x, y := params.y,
                     width := params.width, height := params.height }) ∧
      (params.width = -1 ∨ params.height = -1 →
        (∀ parent P, params.source = some parent →
          heap[parent]? = some (GObject.buffer P) → B.extent = P.extent) ∧
        (∀ src S, params.source = some src →
          heap[src]? = some (GObject.tile_storage S) →
          B.extent = { x := 0, y := 0, width := S.width, height := S.height }) ∧
        (params.source = none →
          ∃ st S, B.source = some st ∧ heap1[st]? = some (GObject.tile_storage S) ∧
            B.extent = { x := 0, y := 0, width := S.width, height := S.height })) := by
  obtain ⟨b1, backend0, heapS, b2, be, b3, storage, hback, hsource, hview, -, hF, hp⟩ :=
    constructor_stages env heap params env1 heap1 p hc
  have hb1 := gegl_buffer_backend_frame _ _ _ _ hback
  have hb1s : b1.source = params.source := by rw [hb1]; rfl
  have hb1e : b1.extent = (construct_properties params).extent := by rw [hb1]
  obtain ⟨hlen, -⟩ := constructor_source_frame _ _ _ _ _ _ _ _ hsource
  obtain ⟨hext, -⟩ := constructor_source_view_fields _ _ _ _ _ _ _ _ hsource
  have hb2e : b2.extent = (construct_properties params).extent := by
    rw [hext, hb1e]
  have hv := constructor_view_extent _ _ _ hview
  have hself : heap.length < (constructor_connect heapS heap.length b2.source).length := by
    rw [constructor_connect_length]
    simp only [List.length_append, List.length_singleton] at hlen
    omega
  refine ⟨{ b3 with tile_storage := some storage, soft_format := b3.format }, ?_, ?_, ?_⟩
  · rw [hF, hp]
    exact List.getElem?_set_self hself
  · rintro ⟨hw, hh⟩ hrx hry hrw hrh
    have hreq := construct_properties_extent params hrx hry hrw hrh
    show b3.extent = _
    rw [hv]
    unfold constructor_extent
    have hm : ¬ (b2.extent.width = -1 ∨ b2.extent.height = -1) := by
      rw [hb2e, hreq]
      rintro (h | h)
      · exact hw h
      · exact hh h
    rw [if_neg hm, hb2e, hreq]
  · intro hm
    have hm2 : b2.extent.width = -1 ∨ b2.extent.height = -1 := by
      rw [hb2e]
      exact construct_properties_unset_extent params hm
    refine ⟨?_, ?_, ?_⟩
    · intro parent P hsrc hP
      obtain ⟨hheap, hsrc2⟩ := constructor_source_given _ _ _ _ _ _ _ _ parent
        (by rw [hb1s]; exact hsrc) hsource
      show b3.extent = _
      rw [hv, hsrc2, hheap]
      simp only [Option.bind]
      rw [constructor_connect_lookup_buffer _ _ _ P (getElem?_append_some _ hP)]
      unfold constructor_extent
      rw [if_pos hm2]
    · intro src S hsrc hS
      obtain ⟨hheap, hsrc2⟩ := constructor_source_given _ _ _ _ _ _ _ _ src
        (by rw [hb1s]; exact hsrc) hsource
      show b3.extent = _
      rw [hv, hsrc2, hheap]
      simp only [Option.bind]
      rw [constructor_connect_lookup_storage _ _ _ S (getElem?_append_some _ hS)]
      unfold constructor_extent
      rw [if_pos hm2]
    · intro hnone
      obtain ⟨st, S, hst, hS, hne⟩ := constructor_source_storage env heap _ b1 backend0 env1
        heapS b2 (some be) (by
          intro src hsrc
          rw [hb1s, hnone] at hsrc
          cases hsrc) hsource
      have hlook := constructor_connect_lookup_storage heapS heap.length st S hS
      refine ⟨st, { S with changed_handlers := S.changed_handlers ++ [heap.length] }, ?_, ?_,
        ?_⟩
      · show b3.source = some st
        rw [constructor_view_source _ _ _ hview, hst]
      · rw [hF, List.getElem?_set_ne (Ne.symm hne), hst]
        exact hlook
      · show b3.extent = _
        rw [hv, hst]
        simp only [Option.bind]
        rw [hlook]
        unfold constructor_extent
        rw [if_pos hm2]

theorem C14_extent_inherited_from_source_witness :
    (∃ env1 heap1 p B,
      gegl_buffer_constructor example_env example_heap example_on_storage_params =
        some (env1, heap1, p) ∧
      heap1[p]? = some (GObject.buffer B) ∧
      B.extent = { x := 0, y := 0, width := 2147483647, height := 2147483647 }) ∧
    (∃ env1 heap1 p B st S,
      gegl_buffer_constructor example_env [] (GeglBufferParams.default example_env) =
        some (env1, heap1, p) ∧
      heap1[p]? = some (GObject.buffer B) ∧
      B.source = some st ∧ heap1[st]? = some (GObject.tile_storage S) ∧
      B.extent = { x := 0, y := 0, width := S.width, height := S.height }) ∧
    (∃ B, example_heap[0]? = some (GObject.buffer B) ∧
      B.extent = { x := 0, y := 0, width := 256, height := 256 }) := by
  have h1 : gegl_buffer_constructor example_env example_heap example_on_storage_params =
      some (_, _, _) := rfl
  have h2 : gegl_buffer_constructor example_env [] (GeglBufferParams.default example_env) =
      some (_, _, _) := rfl
  refine ⟨?_, ?_, ?_⟩
  · obtain ⟨B, hB, -, h⟩ := C14_extent_inherited_from_source example_env example_heap
      example_on_storage_params _ _ _ h1
    exact ⟨_, _, _, B, h1, hB, (h (Or.inl rfl)).2.1 2 _ rfl rfl⟩
  · obtain ⟨B, hB, -, h⟩ := C14_extent_inherited_from_source example_env []
      (GeglBufferParams.default example_env) _ _ _ h2
    obtain ⟨st, S, hs1, hs2, hs3⟩ := (h (Or.inl rfl)).2.2 rfl
    exact ⟨_, _, _, B, st, S, h2, hB, hs1, hs2, hs3⟩
  · obtain ⟨B, hB, h, -⟩ := C14_extent_inherited_from_source example_env []
      example_root_params example_env example_heap 0 rfl
    exact ⟨B, hB, h ⟨by decide, by decide⟩ (by decide) (by decide) (by decide) (by decide)⟩

/-- C19 as stated fails: the sub-buffer made on `example_root` records the tile
storage at address 2, but when that storage emits `changed` with a rectangle
only the root buffer (address 0) emits "changed"; the sub-buffer (address 3)
does not. -/
theorem C19_sub_buffer_not_connected_counterexample :
    gegl_buffer_create_sub_buffer example_env example_heap 0
        (some { x := 200, y := 200, width := 100, height := 100 }) =
      some (example_env, example_heap ++ [GObject.buffer example_clipped], some 3) ∧
    example_clipped.tile_storage = some 2 ∧
    tile_storage_emit_changed (example_heap ++ [GObject.buffer example_clipped]) 2
        { x := 0, y := 0, width := 1, height := 1 } =
      [(0, { x := 0, y := 0, width := 1, height := 1 })] ∧
    (3, { x := 0, y := 0, width := 1, height := 1 }) ∉
      tile_storage_emit_changed (example_heap ++ [GObject.buffer example_clipped]) 2
        { x := 0, y := 0, width := 1, height := 1 } :=
  ⟨rfl, rfl, rfl, by decide⟩

/-- C19, amended: for every buffer constructed on a tile storage (one given as
source, or the one the constructor makes when no source is given), the
storage's `changed` signal is connected to the buffer: whenever the buffer's
tile storage emits `changed (rect)`, the buffer emits "changed" with the same
rect.  The construction of a sub-buffer on a parent Buffer connects nothing:
every tile storage emits to the same buffers as before. -/
theorem C19_storage_changed_reaches_buffer :
    (∀ (env : GeglEnv) (heap : Heap) (params : GeglBufferParams) (env1 : GeglEnv)
        (heap1 : Heap) (p : Ptr),
      (∀ src, params.source = some src →
        ∃ S, heap[src]? = some (GObject.tile_storage S)) →
      gegl_buffer_constructor env heap params = some (env1, heap1, p) →
      ∃ B st, heap1[p]? = some (GObject.buffer B) ∧
        B.source = some st ∧ B.tile_storage = some st ∧
        GEGL_IS_TILE_STORAGE heap1 st = true ∧
        ∀ rect, (p, rect) ∈ tile_storage_emit_changed heap1 st rect) ∧
    (∀ (env : GeglEnv) (heap : Heap) (params : GeglBufferParams) (parent : Ptr)
        (P : GeglBuffer) (s be : Ptr),
      params.source = some parent →
      heap[parent]? = some (GObject.buffer P) →
      gegl_buffer_tile_storage heap P = some s →
      gegl_buffer_backend2 heap P = some (some be) →
      ∃ heap1 sub,
        gegl_buffer_constructor env heap params = some (env, heap1, sub) ∧
        ∀ storage rect,
          tile_storage_emit_changed heap1 storage rect =
            tile_storage_emit_changed heap storage rect) := by
  constructor
  · intro env heap params env1 heap1 p hst hc
    obtain ⟨b1, backend0, heapS, b2, be, b3, storage, hback, hsource, hview, hwalk, hF, hp⟩ :=
      constructor_stages env heap params env1 heap1 p hc
    have hb1 := gegl_buffer_backend_frame _ _ _ _ hback
    have hb1s : b1.source = params.source := by rw [hb1]; rfl
    obtain ⟨st, S, hb2s, hS, hne⟩ := constructor_source_storage env heap _ b1 backend0 env1
      heapS b2 (some be) (by rw [hb1s]; exact hst) hsource
    obtain ⟨hlen, -⟩ := constructor_source_frame _ _ _ _ _ _ _ _ hsource
    have hb3s : b3.source = some st := by
      rw [constructor_view_source _ _ _ hview, hb2s]
    have hS2 := constructor_connect_lookup_storage heapS heap.length st S hS
    rw [hb2s] at hF hwalk
    have hst2 : storage = st := by
      unfold gegl_buffer_tile_storage at hwalk
      rw [hb3s] at hwalk
      simp only [gegl_buffer_tile_storage_walk, GEGL_IS_TILE_STORAGE, hS2] at hwalk
      simpa using hwalk.symm
    have hS1 : heap1[st]? = some (GObject.tile_storage
        { S with changed_handlers := S.changed_handlers ++ [heap.length] }) := by
      rw [hF, List.getElem?_set_ne (Ne.symm hne)]
      exact hS2
    refine ⟨{ b3 with tile_storage := some storage, soft_format := b3.format }, st,
      ?_, hb3s, by rw [hst2], ?_, ?_⟩
    · rw [hF, hp]
      apply List.getElem?_set_self
      rw [constructor_connect_length]
      simp only [List.length_append, List.length_singleton] at hlen
      omega
    · simp [GEGL_IS_TILE_STORAGE, hS1]
    · intro rect
      unfold tile_storage_emit_changed
      rw [hS1, hp]
      simp [gegl_buffer_storage_changed]
  · intro env heap params parent P s be hsrc hP hs hbe
    obtain ⟨B, hc, -⟩ := sub_buffer_constructed env heap params parent P s be hsrc hP hs hbe
    refine ⟨heap ++ [GObject.buffer B], heap.length, hc, ?_⟩
    intro storage rect
    exact tile_storage_emit_changed_append heap B storage rect

theorem C19_storage_changed_reaches_buffer_witness :
    (∃ B st, example_heap[0]? = some (GObject.buffer B) ∧
      B.source = some st ∧ B.tile_storage = some st ∧
      GEGL_IS_TILE_STORAGE example_heap st = true ∧
      ∀ rect, (0, rect) ∈ tile_storage_emit_changed example_heap st rect) ∧
    (∃ heap1 sub,
      gegl_buffer_constructor example_env example_heap example_shifted_params =
        some (example_env, heap1, sub) ∧
      ∀ storage rect,
        tile_storage_emit_changed heap1 storage rect =
          tile_storage_emit_changed example_heap storage rect) :=
  ⟨C19_storage_changed_reaches_buffer.1 example_env [] example_root_params example_env
      example_heap 0 (by intro src h; cases h) rfl,
   C19_storage_changed_reaches_buffer.2 example_env example_heap example_shifted_params 0
      example_root 2 1 rfl rfl rfl rfl⟩

/-- C15 as stated fails: with the configured swap reading "RAM", which is neither
unset nor the string "ram", a buffer constructed with no source, no backend
and no path gets the RAM backend, not a swap-file backend. -/
theorem C15_swap_RAM_in_capitals_counterexample :
    ∃ heap1 B k,
      gegl_buffer_constructor example_env_RAM [] example_root_params =
        some (example_env_RAM, heap1, 0) ∧
      heap1[0]? = some (GObject.buffer B) ∧
      B.backend = some 1 ∧
      heap1[1]? = some (GObject.tile_backend k) ∧
      k.type = GeglTileBackendType.ram ∧
      example_env_RAM.swap = some "RAM" ∧
      example_env_RAM.swap ≠ none ∧ example_env_RAM.swap ≠ some "ram" :=
  ⟨_, _, _, rfl, rfl, rfl, rfl, rfl, rfl, by decide, by decide⟩

/-- C15, amended: for every buffer constructed with no source, no backend and no
path, the backend made is the RAM backend when the configured swap is unset or
reads "ram" in any mix of upper and lower case, and is a swap-file backend, at
the next swap path under the configured swap, in every other case. -/
theorem C15_backend_follows_swap_setting (env : GeglEnv) (heap : Heap)
    (params : GeglBufferParams) (env1 : GeglEnv) (heap1 : Heap) (p : Ptr)
    (hs : params.source = none) (hb : params.backend = none)
    (hpath : params.path = none)
    (hc : gegl_buffer_constructor env heap params = some (env1, heap1, p)) :
    ∃ B made k,
      heap1[p]? = some (GObject.buffer B) ∧
      B.backend = some made ∧
      heap1[made]? = some (GObject.tile_backend k) ∧
      ((env.swap = none ∨ ∃ path, env.swap = some path ∧
          g_ascii_strcasecmp_eq path "ram" = true) →
        k.type = GeglTileBackendType.ram ∧ k.path = none) ∧
      (∀ path, env.swap = some path → g_ascii_strcasecmp_eq path "ram" = false →
        k.type = GeglTileBackendType.file ∧
        k.path = some (g_build_filename path
          (toString env.pid ++ "-" ++ toString env.no))) := by
  obtain ⟨B, made, format, k, hnew, hB, hbk, hk⟩ :=
    constructor_fresh_backend env heap params env1 heap1 p hs hb hc
  obtain ⟨hram, hfile⟩ := constructor_new_backend_without_path env
    (construct_properties params) env1 format k (by simp [construct_properties, hpath]) hnew
  exact ⟨B, made, k, hB, hbk, hk, hram, hfile⟩

theorem C15_backend_follows_swap_setting_witness :
    (∃ B made k,
      example_heap[0]? = some (GObject.buffer B) ∧
      B.backend = some made ∧
      example_heap[made]? = some (GObject.tile_backend k) ∧
      k.type = GeglTileBackendType.ram ∧ k.path = none) ∧
    (∃ env1 heap1 p B made k,
      gegl_buffer_constructor example_env_swap [] example_root_params =
        some (env1, heap1, p) ∧
      heap1[p]? = some (GObject.buffer B) ∧
      B.backend = some made ∧
      heap1[made]? = some (GObject.tile_backend k) ∧
      k.type = GeglTileBackendType.file ∧ k.path = some "/tmp/swap/4711-1") := by
  have h2 : gegl_buffer_constructor example_env_swap [] example_root_params =
      some (_, _, _) := rfl
  constructor
  · obtain ⟨B, made, k, hB, hbk, hk, hram, -⟩ :=
      C15_backend_follows_swap_setting example_env [] example_root_params example_env
        example_heap 0 rfl rfl rfl rfl
    exact ⟨B, made, k, hB, hbk, hk, hram (Or.inl rfl)⟩
  · obtain ⟨B, made, k, hB, hbk, hk, -, hfile⟩ :=
      C15_backend_follows_swap_setting example_env_swap [] example_root_params _ _ _
        rfl rfl rfl h2
    obtain ⟨ht, hp⟩ := hfile "/tmp/swap" rfl (by decide)
    exact ⟨_, _, _, B, made, k, h2, hB, hbk, hk, ht, hp.trans (by decide)⟩

theorem example_swap_paths :
    get_next_swap_path_calls 3 example_env_swap =
      some ({ example_env_swap with no := 4 },
        ["/tmp/swap/4711-1", "/tmp/swap/4711-2", "/tmp/swap/4711-3"]) := by
  decide

/-- C20: for every host (`NULL` read as empty), port, process and handle,
`gegl_buffer_make_uri` writes exactly "buffer://", the host, a colon and the
decimal port when the port is not 0, a slash, the decimal process when it is
not 0, a slash, and the decimal handle, which is written also when it is 0; a
local URI is "buffer:////", 11 characters long, followed by the handle. -/
theorem C20_make_uri_text (host : Option String) (port process handle : Int) :
    gegl_buffer_make_uri host port process handle =
      buffer_uri_text host port process handle ∧
    gegl_buffer_make_uri none 0 0 handle = "buffer:////" ++ toString handle ∧
    gegl_buffer_make_uri none 0 0 0 = "buffer:////0" ∧
    ("buffer:////" : String).length = 11 ∧
    (gegl_buffer_make_uri none 0 0 handle).toList.drop 11 = (toString handle).toList := by
  have hlocal : gegl_buffer_make_uri none 0 0 handle = "buffer:////" ++ toString handle := by
    unfold gegl_buffer_make_uri
    simp only [ne_eq, not_true_eq_false, if_false, one_ne_zero, not_false_eq_true, or_true,
      if_true]
    rfl
  refine ⟨?_, hlocal, by decide, by decide, ?_⟩
  · unfold gegl_buffer_make_uri buffer_uri_text
    simp only [ne_eq, one_ne_zero, not_false_eq_true, or_true, if_true]
    cases host with
    | none =>
      by_cases hp : port = 0 <;> by_cases hq : process = 0 <;>
        simp [hp, hq, String.append_assoc]
    | some h =>
      by_cases hp : port = 0 <;> by_cases hq : process = 0 <;>
        simp [hp, hq, String.append_assoc]
  · rw [hlocal]
    simp [String.toList]


theorem C20_make_uri_text_witness :
    gegl_buffer_make_uri (some "localhost") 8080 12 5 = "buffer://localhost:8080/12/5" ∧
    gegl_buffer_make_uri none 0 0 42 = "buffer:////42" :=
  ⟨(C20_make_uri_text (some "localhost") 8080 12 5).1.trans (by decide),
   (C20_make_uri_text none 0 0 42).2.1.trans (by decide)⟩

theorem gegl_buffer_get_tile_adopt_address (b : GeglBuffer) (x y z : Int) (t : GeglTile) :
    (gegl_buffer_get_tile_adopt b x y z t).address = t.address ∧
    (gegl_buffer_get_tile_adopt b x y z t).x = x ∧
    (gegl_buffer_get_tile_adopt b x y z t).y = y ∧
    (gegl_buffer_get_tile_adopt b x y z t).z = z := by
  unfold gegl_buffer_get_tile_adopt gegl_tile_unlock gegl_tile_lock
  cases t.tile_storage with
  | none =>
    dsimp only
    split <;> exact ⟨rfl, rfl, rfl, rfl⟩
  | some st => exact ⟨rfl, rfl, rfl, rfl⟩

/-- C17: a GET (x, y, z) issued on a buffer, root or sub-buffer of any depth,
returns once the chain of sources reaches the downstream source that is not a
buffer: when that source returns a tile, the buffer returns the tile of the
same address with its fields x, y, z set to exactly (x, y, z); when the source
returns no tile, the buffer returns none. -/
theorem C17_get_tile_keeps_tile_and_address (get : Ptr → Int → Int → Int → Option GeglTile)
    (fuel : Nat) (heap : Heap) (b : GeglBuffer) (src : Ptr) (x y z : Int)
    (hsrc : downstream_source fuel heap b = some src) :
    (get src x y z = none → gegl_buffer_get_tile get fuel heap b x y z = some none) ∧
    (∀ t, get src x y z = some t →
      ∃ t1, gegl_buffer_get_tile get fuel heap b x y z = some (some t1) ∧
        t1.address = t.address ∧ t1.x = x ∧ t1.y = y ∧ t1.z = z) := by
  induction fuel generalizing b with
  | zero => simp [downstream_source] at hsrc
  | succ n ih =>
    unfold downstream_source at hsrc
    unfold gegl_buffer_get_tile
    cases hs : b.source with
    | none => simp [hs] at hsrc
    | some source =>
      simp only [hs] at hsrc ⊢
      cases ho : heap[source]? with
      | none => simp [ho] at hsrc
      | some o =>
        simp only [ho] at hsrc ⊢
        cases o with
        | buffer parent =>
          simp only at hsrc ⊢
          obtain ⟨hnone, hsome⟩ := ih parent hsrc
          constructor
          · intro hg
            rw [hnone hg]
          · intro t hg
            obtain ⟨t1, hrun, ha, -⟩ := hsome t hg
            rw [hrun]
            obtain ⟨h1, h2, h3, h4⟩ := gegl_buffer_get_tile_adopt_address b x y z t1
            exact ⟨_, rfl, h1.trans ha, h2, h3, h4⟩
        | tile_storage s =>
          simp only [Option.some.injEq] at hsrc ⊢
          subst hsrc
          constructor
          · intro hg
            rw [hg]
          · intro t hg
            rw [hg]
            obtain ⟨h1, h2, h3, h4⟩ := gegl_buffer_get_tile_adopt_address b x y z t
            exact ⟨_, rfl, h1, h2, h3, h4⟩
        | tile_backend k =>
          simp only [Option.some.injEq] at hsrc ⊢
          subst hsrc
          constructor
          · intro hg
            rw [hg]
          · intro t hg
            rw [hg]
            obtain ⟨h1, h2, h3, h4⟩ := gegl_buffer_get_tile_adopt_address b x y z t
            exact ⟨_, rfl, h1, h2, h3, h4⟩
        | tile_handler s =>
          simp only [Option.some.injEq] at hsrc ⊢
          subst hsrc
          constructor
          · intro hg
            rw [hg]
          · intro t hg
            rw [hg]
            obtain ⟨h1, h2, h3, h4⟩ := gegl_buffer_get_tile_adopt_address b x y z t
            exact ⟨_, rfl, h1, h2, h3, h4⟩

theorem C17_get_tile_keeps_tile_and_address_witness :
    (example_get 2 5 (-3) 1 = none →
      gegl_buffer_get_tile example_get 2 (example_heap ++ [GObject.buffer example_clipped])
        example_clipped 5 (-3) 1 = some none) ∧
    (∀ t, example_get 2 5 (-3) 0 = some t →
      ∃ t1, gegl_buffer_get_tile example_get 2
          (example_heap ++ [GObject.buffer example_clipped]) example_clipped 5 (-3) 0 =
          some (some t1) ∧
        t1.address = t.address ∧ t1.x = 5 ∧ t1.y = -3 ∧ t1.z = 0) :=
  ⟨(C17_get_tile_keeps_tile_and_address example_get 2
      (example_heap ++ [GObject.buffer example_clipped]) example_clipped 2 5 (-3) 1 rfl).1,
   (C17_get_tile_keeps_tile_and_address example_get 2
      (example_heap ++ [GObject.buffer example_clipped]) example_clipped 2 5 (-3) 0 rfl).2⟩

theorem example_get_tile :
    gegl_buffer_get_tile example_get 2 (example_heap ++ [GObject.buffer example_clipped])
        example_clipped 5 (-3) 0 =
      some (some { example_tile with x := 5, y := -3, tile_storage := some 2 }) := by
  decide


theorem drop_hot_tile_spec (heap : Heap) (b : GeglBuffer) (st : Ptr) (S : GeglTileStorage)
    (hst : b.tile_storage = some st) (hS : heap[st]? = some (GObject.tile_storage S)) :
    ∃ heap1, _gegl_buffer_drop_hot_tile heap b =
        some (heap1, S.hot_tile.toList.map gegl_tile_unref) ∧
      heap1[st]? = some (GObject.tile_storage { S with hot_tile := none }) ∧
      ∀ q, q ≠ st → heap1[q]? = heap[q]? := by
  unfold _gegl_buffer_drop_hot_tile
  simp only [hst, hS]
  cases hh : S.hot_tile with
  | none =>
    refine ⟨heap, rfl, ?_, fun _ _ => rfl⟩
    rw [hS]
    cases S
    simp only at hh
    subst hh
    rfl
  | some t =>
    refine ⟨_, rfl, ?_, ?_⟩
    · rw [List.getElem?_set_self (getElem?_some_lt hS)]
    · intro q hq
      rw [List.getElem?_set_ne (Ne.symm hq)]

theorem tile_source_reinit_spec (drops : Bool) (heap : Heap) (st : Ptr) (S : GeglTileStorage)
    (hS : heap[st]? = some (GObject.tile_storage S)) :
    ∃ S1, (gegl_tile_source_reinit drops heap st).1[st]? = some (GObject.tile_storage S1) ∧
      (gegl_tile_source_reinit drops heap st).2 ++ S1.hot_tile.toList.map gegl_tile_unref =
        S.hot_tile.toList.map gegl_tile_unref := by
  unfold gegl_tile_source_reinit
  simp only [hS]
  cases hh : S.hot_tile with
  | none => exact ⟨S, hS, by simp [hh]⟩
  | some t =>
    cases drops with
    | false => exact ⟨S, hS, by simp [hh]⟩
    | true =>
      refine ⟨{ S with hot_tile := none }, ?_, by simp⟩
      simp only [if_true]
      rw [List.getElem?_set_self (getElem?_some_lt hS)]

theorem buffer_flush_spec (drops : Bool) (heap : Heap) (b : GeglBuffer) (st : Ptr)
    (S : GeglTileStorage)
    (hst : b.tile_storage = some st) (hS : heap[st]? = some (GObject.tile_storage S)) :
    ∃ heap1 released S1, gegl_buffer_flush drops heap b = some (heap1, released) ∧
      heap1[st]? = some (GObject.tile_storage S1) ∧
      released ++ S1.hot_tile.toList.map gegl_tile_unref =
        S.hot_tile.toList.map gegl_tile_unref := by
  unfold gegl_buffer_flush
  cases drops with
  | false => exact ⟨heap, [], S, rfl, hS, by simp⟩
  | true =>
    obtain ⟨heap1, h1, h2, -⟩ := drop_hot_tile_spec heap b st S hst hS
    exact ⟨heap1, _, _, by simpa using h1, h2, by simp⟩

/-- C18: disposing a buffer whose backend lookup returns, be it a buffer that
sits directly on its tile storage or a sub-buffer of another buffer, leaves the
hot-tile slot of its tile storage empty, and the tiles handed to
`gegl_tile_unref` are exactly the hot tile that was held, once, or none when
the slot was empty; this whether or not the flush and the reinitialisation of
the source empty the slot themselves. -/
theorem C18_dispose_drops_hot_tile (flush_drops reinit_drops : Bool) (heap : Heap)
    (p st : Ptr) (b b1 : GeglBuffer) (r : Option Ptr) (S : GeglTileStorage)
    (hb : heap[p]? = some (GObject.buffer b))
    (hst : b.tile_storage = some st)
    (hS : heap[st]? = some (GObject.tile_storage S))
    (hbk : gegl_buffer_backend heap b = some (b1, r))
    (hsrc : b.source = some st ∨
      ∃ parent P, b.source = some parent ∧ heap[parent]? = some (GObject.buffer P)) :
    ∃ heap1 S1, gegl_buffer_dispose flush_drops reinit_drops heap p =
        some (heap1, S.hot_tile.toList.map gegl_tile_unref) ∧
      heap1[st]? = some (GObject.tile_storage S1) ∧ S1.hot_tile = none := by
  unfold gegl_buffer_dispose
  simp only [hb]
  rcases hsrc with hs | ⟨parent, P, hs, hP⟩
  · have hon : GEGL_IS_TILE_STORAGE heap st = true := by
      unfold GEGL_IS_TILE_STORAGE
      rw [hS]
    simp only [hs, hon, if_true, hbk]
    have hfr := gegl_buffer_backend_frame heap b b1 r hbk
    have hst1 : b1.tile_storage = some st := by rw [hfr]; exact hst
    have hs1 : b1.source = some st := by rw [hfr]; exact hs
    have hne : p ≠ st := by
      intro he
      rw [he, hS] at hb
      cases hb
    have hS1 : (heap.set p (GObject.buffer b1))[st]? = some (GObject.tile_storage S) := by
      rw [List.getElem?_set_ne hne]
      exact hS
    have hflush : ∃ heap2 released S2,
        (if is_internal_backend (heap.set p (GObject.buffer b1)) r = true then
            some (heap.set p (GObject.buffer b1), ([] : List GeglTile))
          else gegl_buffer_flush flush_drops (heap.set p (GObject.buffer b1)) b1) =
          some (heap2, released) ∧
        heap2[st]? = some (GObject.tile_storage S2) ∧
        released ++ S2.hot_tile.toList.map gegl_tile_unref =
          S.hot_tile.toList.map gegl_tile_unref := by
      by_cases hi : is_internal_backend (heap.set p (GObject.buffer b1)) r = true
      · rw [if_pos hi]
        exact ⟨_, [], S, rfl, hS1, by simp⟩
      · rw [if_neg hi]
        exact buffer_flush_spec flush_drops _ b1 st S hst1 hS1
    obtain ⟨heap2, released, S2, hf, hS2, hrel2⟩ := hflush
    rw [hf]
    simp only [hs1]
    obtain ⟨S3, hS3, hrel3⟩ := tile_source_reinit_spec reinit_drops heap2 st S2 hS2
    obtain ⟨heap4, hd, hS4, -⟩ :=
      drop_hot_tile_spec (gegl_tile_source_reinit reinit_drops heap2 st).1 b1 st S3 hst1 hS3
    rw [hd]
    refine ⟨heap4, _, ?_, hS4, rfl⟩
    simp only [Option.some.injEq, Prod.mk.injEq, true_and]
    rw [List.append_assoc, hrel3, hrel2]
  · have hon : GEGL_IS_TILE_STORAGE heap parent = false := by
      unfold GEGL_IS_TILE_STORAGE
      rw [hP]
    simp only [hs, hon]
    obtain ⟨heap1, hd, hS1, -⟩ := drop_hot_tile_spec heap b st S hst hS
    exact ⟨heap1, _, by simpa using hd, hS1, rfl⟩

theorem C18_dispose_drops_hot_tile_witness :
    (∃ heap1 S1, gegl_buffer_dispose true true example_hot_heap 0 =
        some (heap1, [gegl_tile_unref example_hot_tile]) ∧
      heap1[2]? = some (GObject.tile_storage S1) ∧ S1.hot_tile = none) ∧
    (∃ heap1 S1, gegl_buffer_dispose false false example_hot_heap 3 =
        some (heap1, [gegl_tile_unref example_hot_tile]) ∧
      heap1[2]? = some (GObject.tile_storage S1) ∧ S1.hot_tile = none) :=
  ⟨C18_dispose_drops_hot_tile true true example_hot_heap 0 2 example_root example_root
      (some 1) _ rfl rfl rfl rfl (Or.inl rfl),
   C18_dispose_drops_hot_tile false false example_hot_heap 3 2 example_clipped
      example_clipped (some 1) _ rfl rfl rfl rfl (Or.inr ⟨0, example_root, rfl, rfl⟩)⟩

theorem process_loop_spec {α : Type} [One α] [Sub α] (samples : Nat) :
    ∀ (off : Nat) (in_buf out : List α),
      off + 4 * samples ≤ in_buf.length → off + 4 * samples ≤ out.length →
      ∃ out1, process_loop samples off in_buf out = some out1 ∧
        out1.length = out.length ∧
        (∀ j, j < off ∨ off + 4 * samples ≤ j → out1[j]? = out[j]?) ∧
        (∀ j, off ≤ j → j < off + 4 * samples →
          out1[j]? = (in_buf[j]?).map (fun v => if (j - off) % 4 = 3 then v else 1 - v)) := by
  induction samples with
  | zero =>
    intro off in_buf out _ _
    refine ⟨out, rfl, rfl, fun _ _ => rfl, ?_⟩
    intro j h1 h2
    omega
  | succ n ih =>
    intro off in_buf out hin hout
    have h0 : off < in_buf.length := by omega
    have h1 : off + 1 < in_buf.length := by omega
    have h2 : off + 2 < in_buf.length := by omega
    have h3 : off + 3 < in_buf.length := by omega
    have ho : off + 3 < out.length := by omega
    unfold process_loop
    simp only [List.getElem?_eq_getElem h0, List.getElem?_eq_getElem h1,
      List.getElem?_eq_getElem h2, List.getElem?_eq_getElem h3, if_pos ho]
    obtain ⟨out1, hrun, hlen, hout1, hin1⟩ := ih (off + 4) in_buf
      ((((out.set off (1 - in_buf[off])).set (off + 1) (1 - in_buf[off + 1])).set (off + 2)
        (1 - in_buf[off + 2])).set (off + 3) in_buf[off + 3])
      (by omega) (by simp only [List.length_set]; omega)
    refine ⟨out1, hrun, ?_, ?_, ?_⟩
    · rw [hlen]
      simp only [List.length_set]
    · intro j hj
      rw [hout1 j (by omega)]
      simp only [List.getElem?_set, List.length_set]
      rw [if_neg (by omega), if_neg (by omega), if_neg (by omega), if_neg (by omega)]
    · intro j hj1 hj2
      by_cases hj : off + 4 ≤ j
      · rw [hin1 j hj (by omega)]
        have : (j - (off + 4)) % 4 = 3 ↔ (j - off) % 4 = 3 := by omega
        simp only [this]
      · rw [hout1 j (by omega)]
        simp only [List.getElem?_set, List.length_set]
        have hcases : j = off ∨ j = off + 1 ∨ j = off + 2 ∨ j = off + 3 := by omega
        rcases hcases with rfl | rfl | rfl | rfl
        · simp [List.getElem?_eq_getElem h0, (by omega : j < out.length)]
        · simp [List.getElem?_eq_getElem h1, (by omega : off + 1 < out.length)]
        · simp [List.getElem?_eq_getElem h2, (by omega : off + 2 < out.length)]
        · simp [List.getElem?_eq_getElem h3, ho]

theorem cl_invert_gamma_spec {α : Type} [One α] [Sub α] (in_buf out : List α) (gid : Nat)
    (hin : 4 * gid + 4 ≤ in_buf.length) (hout : 4 * gid + 4 ≤ out.length) :
    ∃ out1, cl_invert_gamma in_buf out gid = some out1 ∧
      out1.length = out.length ∧
      (∀ j, j < 4 * gid ∨ 4 * gid + 4 ≤ j → out1[j]? = out[j]?) ∧
      (∀ j, 4 * gid ≤ j → j < 4 * gid + 4 →
        out1[j]? = (in_buf[j]?).map (fun v => if j % 4 = 3 then v else 1 - v)) := by
  have h0 : 4 * gid < in_buf.length := by omega
  have h1 : 4 * gid + 1 < in_buf.length := by omega
  have h2 : 4 * gid + 2 < in_buf.length := by omega
  have h3 : 4 * gid + 3 < in_buf.length := by omega
  have ho : 4 * gid + 3 < out.length := by omega
  unfold cl_invert_gamma
  simp only [List.getElem?_eq_getElem h0, List.getElem?_eq_getElem h1,
    List.getElem?_eq_getElem h2, List.getElem?_eq_getElem h3, if_pos ho]
  refine ⟨_, rfl, ?_, ?_, ?_⟩
  · simp only [List.length_set]
  · intro j hj
    simp only [List.getElem?_set, List.length_set]
    rw [if_neg (by omega), if_neg (by omega), if_neg (by omega), if_neg (by omega)]
  · intro j hj1 hj2
    simp only [List.getElem?_set, List.length_set]
    have hcases : j = 4 * gid ∨ j = 4 * gid + 1 ∨ j = 4 * gid + 2 ∨ j = 4 * gid + 3 := by
      omega
    rcases hcases with h | h | h | h <;> subst h
    · have hm : ¬ (4 * gid) % 4 = 3 := by omega
      simp only [if_neg hm]
      simp [List.getElem?_eq_getElem h0, (by omega : 4 * gid < out.length)]
    · have hm : ¬ (4 * gid + 1) % 4 = 3 := by omega
      simp only [if_neg hm]
      simp [List.getElem?_eq_getElem h1, (by omega : 4 * gid + 1 < out.length)]
    · have hm : ¬ (4 * gid + 2) % 4 = 3 := by omega
      simp only [if_neg hm]
      simp [List.getElem?_eq_getElem h2, (by omega : 4 * gid + 2 < out.length)]
    · have hm : (4 * gid + 3) % 4 = 3 := by omega
      simp only [if_pos hm]
      simp [List.getElem?_eq_getElem h3, ho]

theorem enqueue_cl_invert_gamma_spec {α : Type} [One α] [Sub α] (n : Nat) :
    ∀ (in_buf out : List α), 4 * n ≤ in_buf.length → 4 * n ≤ out.length →
      ∃ out1, enqueue_cl_invert_gamma n in_buf out = some out1 ∧
        out1.length = out.length ∧
        (∀ j, 4 * n ≤ j → out1[j]? = out[j]?) ∧
        (∀ j, j < 4 * n →
          out1[j]? = (in_buf[j]?).map (fun v => if j % 4 = 3 then v else 1 - v)) := by
  induction n with
  | zero =>
    intro in_buf out _ _
    exact ⟨out, rfl, rfl, fun _ _ => rfl, fun j hj => by omega⟩
  | succ n ih =>
    intro in_buf out hin hout
    obtain ⟨out1, hrun, hlen, hrest, hdone⟩ := ih in_buf out (by omega) (by omega)
    obtain ⟨out2, hk, hlen2, hrest2, hdone2⟩ :=
      cl_invert_gamma_spec in_buf out1 n (by omega) (by omega)
    unfold enqueue_cl_invert_gamma
    rw [hrun]
    refine ⟨out2, hk, hlen2.trans hlen, ?_, ?_⟩
    · intro j hj
      rw [hrest2 j (by omega), hrest j (by omega)]
    · intro j hj
      by_cases hlt : j < 4 * n
      · rw [hrest2 j (by omega), hdone j hlt]
      · exact hdone2 j (by omega) (by omega)

theorem process_loop_components {α : Type} [One α] [Sub α] (samples : Nat)
    (in_buf out : List α) (hin : 4 * samples ≤ in_buf.length)
    (hout : 4 * samples ≤ out.length) :
    ∃ out1, process_loop samples 0 in_buf out = some out1 ∧
      out1.length = out.length ∧
      (∀ j, 4 * samples ≤ j → out1[j]? = out[j]?) ∧
      (∀ j, j < 4 * samples →
        out1[j]? = (in_buf[j]?).map (fun v => if j % 4 = 3 then v else 1 - v)) := by
  obtain ⟨out1, hrun, hlen, hrest, hdone⟩ :=
    process_loop_spec samples 0 in_buf out (by omega) (by omega)
  refine ⟨out1, hrun, hlen, fun j hj => hrest j (Or.inr (by omega)), ?_⟩
  intro j hj
  rw [hdone j (Nat.zero_le j) (by omega)]
  simp only [Nat.sub_zero]

theorem inverted_components_pixel {α : Type} [One α] [Sub α] (n : Nat)
    (in_buf out1 : List α) (hin : 4 * n ≤ in_buf.length)
    (hdone : ∀ j, j < 4 * n →
      out1[j]? = (in_buf[j]?).map (fun v => if j % 4 = 3 then v else 1 - v))
    (i : Nat) (hi : i < n) :
    ∃ r g b a, pixel in_buf i = some (r, g, b, a) ∧
      pixel out1 i = some (1 - r, 1 - g, 1 - b, a) := by
  have h0 : 4 * i < in_buf.length := by omega
  have h1 : 4 * i + 1 < in_buf.length := by omega
  have h2 : 4 * i + 2 < in_buf.length := by omega
  have h3 : 4 * i + 3 < in_buf.length := by omega
  refine ⟨in_buf[4 * i], in_buf[4 * i + 1], in_buf[4 * i + 2], in_buf[4 * i + 3], ?_, ?_⟩
  · unfold pixel
    simp only [List.getElem?_eq_getElem h0, List.getElem?_eq_getElem h1,
      List.getElem?_eq_getElem h2, List.getElem?_eq_getElem h3]
  · unfold pixel
    rw [hdone (4 * i) (by omega), hdone (4 * i + 1) (by omega), hdone (4 * i + 2) (by omega),
      hdone (4 * i + 3) (by omega)]
    simp only [List.getElem?_eq_getElem h0, List.getElem?_eq_getElem h1,
      List.getElem?_eq_getElem h2, List.getElem?_eq_getElem h3, Option.map_some']
    rw [if_neg (by omega), if_neg (by omega), if_neg (by omega), if_pos (by omega)]

theorem process_after_cl_success {α : Type} [One α] [Sub α] (in_buf out : List α) (n : Nat)
    (hin : 4 * n ≤ in_buf.length) (hout : 4 * n ≤ out.length) :
    ∃ out1, process true true 0 0 in_buf out n = some (true, out1) ∧
      ∀ i, i < n → ∃ r g b a, pixel in_buf i = some (r, g, b, a) ∧
        pixel out1 i = some (1 - r, 1 - g, 1 - b, a) := by
  obtain ⟨outk, hk, hlenk, -, -⟩ := enqueue_cl_invert_gamma_spec n in_buf out hin hout
  obtain ⟨out1, hrun, -, -, hdone⟩ :=
    process_loop_components n in_buf outk hin (by omega)
  refine ⟨out1, ?_, inverted_components_pixel n in_buf out1 hin hdone⟩
  unfold process cl_process
  simp [hk, hrun]

/-- C21: with OpenCL not in use, for every input and output buffer of at least
n pixels `process` returns TRUE; every pixel i < n of the output is
(1 - r, 1 - g, 1 - b, a) for the pixel (r, g, b, a) of the input; the output
keeps its length and every component at an index from 4n on is the one it
held before. -/
theorem C21_process_inverts_each_pixel {α : Type} [One α] [Sub α] (compiled : Bool)
    (set_args_err enqueue_err : Int) (in_buf out : List α) (n : Nat)
    (hin : 4 * n ≤ in_buf.length) (hout : 4 * n ≤ out.length) :
    ∃ out1, process false compiled set_args_err enqueue_err in_buf out n = some (true, out1) ∧
      out1.length = out.length ∧
      (∀ i, i < n → ∃ r g b a, pixel in_buf i = some (r, g, b, a) ∧
        pixel out1 i = some (1 - r, 1 - g, 1 - b, a)) ∧
      (∀ j, 4 * n ≤ j → out1[j]? = out[j]?) := by
  obtain ⟨out1, hrun, hlen, hrest, hdone⟩ := process_loop_components n in_buf out hin hout
  refine ⟨out1, ?_, hlen, inverted_components_pixel n in_buf out1 hin hdone, hrest⟩
  unfold process
  simp [hrun]

theorem C21_process_inverts_each_pixel_witness :
    ∃ out1, process false true 0 0 [3, 5, 7, 9, 2, 4, 6, 8] [0, 0, 0, 0, 0, 0, 0, 0, 11] 2 =
        some (true, out1) ∧
      out1.length = [0, 0, 0, 0, 0, 0, 0, 0, (11 : Int)].length ∧
      (∀ i, i < 2 → ∃ r g b a, pixel [3, 5, 7, 9, 2, 4, 6, (8 : Int)] i = some (r, g, b, a) ∧
        pixel out1 i = some (1 - r, 1 - g, 1 - b, a)) ∧
      (∀ j, 4 * 2 ≤ j → out1[j]? = [0, 0, 0, 0, 0, 0, 0, 0, (11 : Int)][j]?) :=
  C21_process_inverts_each_pixel true 0 0 [3, 5, 7, 9, 2, 4, 6, 8]
    [0, 0, 0, 0, 0, 0, 0, 0, 11] 2 (by decide) (by decide)

theorem example_process :
    process false true 0 0 [3, 5, 7, 9, 2, 4, 6, 8] [0, 0, 0, 0, 0, 0, 0, 0, (11 : Int)] 2 =
      some (true, [-2, -4, -6, 9, -1, -3, -5, 8, 11]) := by
  decide

/-- C23: with OpenCL in use and no kernel built (`cl_data` still NULL after the
build), or an error code from setting the arguments or from the enqueue,
`process` returns TRUE and the output buffer is the one it was given: its
pixel is (0, 0, 0, 0), not the inverted input pixel (-2, -4, -6, 9). -/
theorem C23_process_TRUE_without_output :
    process true false 0 0 [3, 5, 7, (9 : Int)] [0, 0, 0, 0] 1 = some (true, [0, 0, 0, 0]) ∧
    process true true (-48) 0 [3, 5, 7, (9 : Int)] [0, 0, 0, 0] 1 = some (true, [0, 0, 0, 0]) ∧
    process true true 0 (-5) [3, 5, 7, (9 : Int)] [0, 0, 0, 0] 1 = some (true, [0, 0, 0, 0]) ∧
    pixel [3, 5, 7, (9 : Int)] 0 = some (3, 5, 7, 9) ∧
    pixel [0, 0, 0, (0 : Int)] 0 ≠ some (1 - 3, 1 - 5, 1 - 7, 9) := by
  decide

/-- C26: for input and output buffers of at least n pixels and every gid < n,
the kernel `cl_invert_gamma` run for gid and the CPU loop of `process` run for
n pixels both return, and pixel gid of the kernel's output equals pixel gid of
the loop's output: both are `inverted_pixel` of pixel gid of the input, that
is (1 - x, 1 - y, 1 - z, w). -/
theorem C26_kernel_agrees_with_cpu_loop {α : Type} [One α] [Sub α]
    (in_buf out_cl out_cpu : List α) (n gid : Nat) (hgid : gid < n)
    (hin : 4 * n ≤ in_buf.length) (hcl : 4 * n ≤ out_cl.length)
    (hcpu : 4 * n ≤ out_cpu.length) :
    ∃ k c p, cl_invert_gamma in_buf out_cl gid = some k ∧
      process_loop n 0 in_buf out_cpu = some c ∧
      pixel in_buf gid = some p ∧
      pixel k gid = some (inverted_pixel p) ∧ pixel c gid = some (inverted_pixel p) ∧
      inverted_pixel p = (1 - p.1, 1 - p.2.1, 1 - p.2.2.1, p.2.2.2) := by
  obtain ⟨k, hk, -, -, hkdone⟩ :=
    cl_invert_gamma_spec in_buf out_cl gid (by omega) (by omega)
  obtain ⟨c, hc, -, -, hcdone⟩ := process_loop_components n in_buf out_cpu hin hcpu
  obtain ⟨r, g, b, a, hp, hcp⟩ := inverted_components_pixel n in_buf c hin hcdone gid hgid
  refine ⟨k, c, (r, g, b, a), hk, hc, hp, ?_, hcp, rfl⟩
  unfold pixel at hp ⊢
  rw [hkdone (4 * gid) (by omega) (by omega), hkdone (4 * gid + 1) (by omega) (by omega),
    hkdone (4 * gid + 2) (by omega) (by omega), hkdone (4 * gid + 3) (by omega) (by omega)]
  have h0 : 4 * gid < in_buf.length := by omega
  have h1 : 4 * gid + 1 < in_buf.length := by omega
  have h2 : 4 * gid + 2 < in_buf.length := by omega
  have h3 : 4 * gid + 3 < in_buf.length := by omega
  simp only [List.getElem?_eq_getElem h0, List.getElem?_eq_getElem h1,
    List.getElem?_eq_getElem h2, List.getElem?_eq_getElem h3, Option.map_some',
    Option.some.injEq, Prod.mk.injEq] at hp ⊢
  obtain ⟨e0, e1, e2, e3⟩ := hp
  rw [if_neg (by omega), if_neg (by omega), if_neg (by omega), if_pos (by omega)]
  unfold inverted_pixel
  simp only [e0, e1, e2, e3, Prod.mk.injEq, and_self]

theorem C26_kernel_agrees_with_cpu_loop_witness :
    ∃ k c p, cl_invert_gamma [3, 5, 7, 9, 2, 4, 6, (8 : Int)] [0, 0, 0, 0, 0, 0, 0, 0] 1 =
        some k ∧
      process_loop 2 0 [3, 5, 7, 9, 2, 4, 6, (8 : Int)] [1, 1, 1, 1, 1, 1, 1, 1] = some c ∧
      pixel [3, 5, 7, 9, 2, 4, 6, (8 : Int)] 1 = some p ∧
      pixel k 1 = some (inverted_pixel p) ∧ pixel c 1 = some (inverted_pixel p) ∧
      inverted_pixel p = (1 - p.1, 1 - p.2.1, 1 - p.2.2.1, p.2.2.2) :=
  C26_kernel_agrees_with_cpu_loop [3, 5, 7, 9, 2, 4, 6, 8] [0, 0, 0, 0, 0, 0, 0, 0]
    [1, 1, 1, 1, 1, 1, 1, 1] 2 1 (by decide) (by decide) (by decide) (by decide)

theorem example_lock_calls :
    (lock_calls 0 ⟨example_shared_heap, false, []⟩
        [LockCall.try_lock false, LockCall.try_lock true, LockCall.try_lock false,
          LockCall.unlock, LockCall.unlock, LockCall.try_lock true]).map
      (fun s => (lock_count_of s 0, s.file_locked, s.calls)) =
    some (some 1, true,
      [FileLockCall.try_lock false, FileLockCall.try_lock true, FileLockCall.unlock,
        FileLockCall.try_lock true]) := by
  decide

/-- C22: on a shared buffer with lock_count 0 whose backend refuses the file
lock, `gegl_buffer_try_lock` returns TRUE although lock_count stays 0 and the
file lock is not held, and `gegl_buffer_lock` returns after that one call with
lock_count still 0. -/
theorem C22_try_lock_TRUE_without_lock :
    gegl_buffer_try_lock false ⟨example_shared_heap, false, []⟩ 0 =
      some (⟨example_shared_heap, false, [FileLockCall.try_lock false]⟩, true) ∧
    gegl_buffer_lock 1 (fun _ => false) ⟨example_shared_heap, false, []⟩ 0 =
      some (⟨example_shared_heap, false, [FileLockCall.try_lock false]⟩, true) ∧
    on_shared_backend example_shared_heap 0 = true ∧
    lock_count_of ⟨example_shared_heap, false, []⟩ 0 = some 0 ∧
    lock_count_of ⟨example_shared_heap, false, [FileLockCall.try_lock false]⟩ 0 = some 0 := by
  decide

theorem constructor_abyss_tracked (obj : Option GObject) (b b1 : GeglBuffer)
    (h : constructor_abyss obj b = some b1) (ht : b1.abyss_tracks_extent = true) :
    b1.abyss = b1.extent := by
  unfold constructor_abyss at h
  simp only at h
  split at h
  · cases h
    rfl
  · split at h
    · cases h
      cases ht
    · split at h
      · split at h
        · cases h
          cases ht
        · cases h
      · cases h
        cases ht

theorem constructor_intersect_tracked (obj : Option GObject) (b : GeglBuffer)
    (hb : b.abyss_tracks_extent = true → b.abyss = b.extent)
    (ht : (constructor_intersect obj b).abyss_tracks_extent = true) :
    (constructor_intersect obj b).abyss = (constructor_intersect obj b).extent := by
  unfold constructor_intersect at ht ⊢
  split
  · rename_i p
    simp only at ht ⊢
    split at ht
    · cases ht
    · rename_i hno
      rw [not_and_or] at hno
      rcases hno with hno | hno
      · exact absurd ht hno
      · simp only [not_or, ne_eq, not_not] at hno
        obtain ⟨e1, e2, e3, e4⟩ := hno
        rw [← e1, ← e2, ← e3, ← e4]
  · rename_i hnot
    split at ht
    · exact absurd rfl (hnot _)
    · exact hb ht

theorem constructor_shift_view (obj : Option GObject) (b : GeglBuffer) :
    (constructor_shift obj b).abyss = b.abyss ∧ (constructor_shift obj b).extent = b.extent ∧
    (constructor_shift obj b).abyss_tracks_extent = b.abyss_tracks_extent := by
  unfold constructor_shift
  split <;> exact ⟨rfl, rfl, rfl⟩

theorem constructor_view_tracked (heap : Heap) (b b3 : GeglBuffer)
    (h : constructor_view heap b = some b3) (ht : b3.abyss_tracks_extent = true) :
    b3.abyss = b3.extent := by
  unfold constructor_view at h
  simp only at h
  generalize b.source.bind (fun source => heap[source]?) = obj at h
  cases hab : constructor_abyss obj (constructor_extent obj b) with
  | none =>
    rw [hab] at h
    cases h
  | some b1 =>
    rw [hab] at h
    simp only [Option.some.injEq] at h
    subst h
    obtain ⟨h1, h2, h3⟩ := constructor_shift_view obj (constructor_intersect obj b1)
    rw [h3] at ht
    rw [h1, h2]
    exact constructor_intersect_tracked obj b1 (constructor_abyss_tracked obj _ b1 hab) ht

theorem constructor_tracked_abyss (env : GeglEnv) (heap : Heap) (params : GeglBufferParams)
    (env1 : GeglEnv) (heapF : Heap) (p : Ptr) (B : GeglBuffer)
    (hc : gegl_buffer_constructor env heap params = some (env1, heapF, p))
    (hB : heapF[p]? = some (GObject.buffer B)) (ht : B.abyss_tracks_extent = true) :
    B.abyss = B.extent := by
  obtain ⟨b1, backend0, heapS, b2, be, b3, storage, -, hsource, hview, -, hF, hp⟩ :=
    constructor_stages env heap params env1 heapF p hc
  obtain ⟨-, B1, hB1, -⟩ := constructor_result env heap params env1 heapF p hc
  have hlt := getElem?_some_lt hB
  rw [hF, hp] at hB
  rw [List.getElem?_set_self (by rw [hF, hp] at hlt; simpa using hlt)] at hB
  simp only [Option.some.injEq, GObject.buffer.injEq] at hB
  subst hB
  exact constructor_view_tracked _ b2 b3 hview ht

/-- C24: for the buffer a construction returns, with or without a parent buffer
and whatever the abyss parameters, whose backend lookup finds a backend,
`gegl_buffer_set_extent` called with the buffer's own extent returns TRUE and
leaves the abyss what it was; extent and abyss_tracks_extent are unchanged as
well. -/
theorem C24_set_own_extent_keeps_abyss (env : GeglEnv) (heap : Heap)
    (params : GeglBufferParams) (env1 : GeglEnv) (heapF : Heap) (p be : Ptr)
    (B B2 : GeglBuffer) (k : GeglTileBackend)
    (hc : gegl_buffer_constructor env heap params = some (env1, heapF, p))
    (hB : heapF[p]? = some (GObject.buffer B))
    (hbe : gegl_buffer_backend heapF B = some (B2, some be))
    (hk : heapF[be]? = some (GObject.tile_backend k)) :
    ∃ heap2 B3, gegl_buffer_set_extent heapF p B.extent = some (heap2, true) ∧
      heap2[p]? = some (GObject.buffer B3) ∧
      B3.abyss = B.abyss ∧ B3.extent = B.extent ∧
      B3.abyss_tracks_extent = B.abyss_tracks_extent := by
  obtain ⟨heap2, hset, hlook⟩ := set_extent_eval heapF p be B B2 k B.extent hB hbe hk
  have hfr := gegl_buffer_backend_frame heapF B B2 (some be) hbe
  have ha : B2.abyss = B.abyss := by rw [hfr]
  have ht : B2.abyss_tracks_extent = B.abyss_tracks_extent := by rw [hfr]
  refine ⟨heap2, _, hset, hlook, ?_, ?_, ?_⟩
  · cases htr : B.abyss_tracks_extent with
    | true =>
      simp only [if_true]
      exact (constructor_tracked_abyss env heap params env1 heapF p B hc hB htr).symm
    | false =>
      simp only [Bool.false_eq_true, if_false]
      exact ha
  · cases B.abyss_tracks_extent <;> simp
  · cases htr : B.abyss_tracks_extent <;> simp [ht, htr]

theorem g_slist_insert_remove (chain : List Ptr) (handler : Ptr) (position : Int)
    (hnew : handler ∉ chain) :
    g_slist_remove (g_slist_insert chain handler position) handler = chain := by
  unfold g_slist_remove g_slist_insert
  split
  · rw [List.erase_append_right _ hnew]
    simp
  · rw [List.erase_append_right _ (fun h => hnew (List.mem_of_mem_take h))]
    rw [List.erase_cons_head, List.take_append_drop]

theorem add_handler_eval (position : Nat) (heap : Heap) (chain : List Ptr)
    (buffer handler ts : Ptr) (b : GeglBuffer) (S : GeglTileStorage)
    (hb : heap[buffer]? = some (GObject.buffer b)) (hts : b.tile_storage = some ts)
    (hS : heap[ts]? = some (GObject.tile_storage S))
    (hh : GEGL_IS_TILE_HANDLER heap handler = true) (hnew : handler ∉ chain) :
    gegl_buffer_add_handler position heap chain buffer handler =
      some (chain.take 2 ++ handler :: chain.drop 2) := by
  unfold gegl_buffer_add_handler gegl_tile_handler_chain_add
  simp only [hb, hh, if_true, hts, hS]
  rw [g_slist_insert_remove chain handler _ hnew]
  rfl

/-- C28: for a buffer with a tile storage, every chain and every tile handler h
not yet in it, `gegl_buffer_add_handler` returns with the chain made of the
first two handlers of the old chain, h, and the rest of the old chain,
wherever `gegl_tile_handler_chain_add` had put h: h occurs exactly once, at index
2 when the chain held at least two handlers and at the end otherwise, and
taking h out gives the old chain, so the other handlers keep their order. -/
theorem C28_add_handler_inserts_at_two (position : Nat) (heap : Heap) (chain : List Ptr)
    (buffer handler ts : Ptr) (b : GeglBuffer) (S : GeglTileStorage)
    (hb : heap[buffer]? = some (GObject.buffer b)) (hts : b.tile_storage = some ts)
    (hS : heap[ts]? = some (GObject.tile_storage S))
    (hh : GEGL_IS_TILE_HANDLER heap handler = true) (hnew : handler ∉ chain) :
    ∃ chain1, gegl_buffer_add_handler position heap chain buffer handler = some chain1 ∧
      chain1 = chain.take 2 ++ handler :: chain.drop 2 ∧
      chain1.count handler = 1 ∧
      (2 ≤ chain.length → chain1[2]? = some handler) ∧
      (chain.length < 2 → chain1 = chain ++ [handler]) ∧
      chain1.filter (fun x => decide (x ≠ handler)) = chain := by
  refine ⟨_, add_handler_eval position heap chain buffer handler ts b S hb hts hS hh hnew,
    rfl, ?_, ?_, ?_, ?_⟩
  · rw [List.count_append, List.count_cons_self,
      List.count_eq_zero_of_not_mem (fun h => hnew (List.mem_of_mem_take h)),
      List.count_eq_zero_of_not_mem (fun h => hnew (List.mem_of_mem_drop h))]
  · intro hlen
    have hl : (chain.take 2).length = 2 := by
      rw [List.length_take]
      omega
    rw [List.getElem?_append_right (by omega), hl]
    simp
  · intro hlen
    rw [List.take_of_length_le (by omega), List.drop_of_length_le (by omega)]
  · rw [List.filter_append, List.filter_cons]
    simp only [ne_eq, not_true_eq_false, decide_False, Bool.false_eq_true, if_false]
    have hkeep : ∀ l : List Ptr, handler ∉ l →
        l.filter (fun x => decide (¬ x = handler)) = l := by
      intro l hl
      rw [List.filter_eq_self]
      intro a ha
      simp only [decide_eq_true_eq]
      intro he
      exact hl (he ▸ ha)
    rw [hkeep _ (fun h => hnew (List.mem_of_mem_take h)),
      hkeep _ (fun h => hnew (List.mem_of_mem_drop h)), List.take_append_drop]

theorem C28_add_handler_inserts_at_two_witness :
    (∃ chain1, gegl_buffer_add_handler 0 example_chain_heap [3, 4, 1] 0 5 = some chain1 ∧
      chain1 = [3, 4, 1].take 2 ++ 5 :: [3, 4, 1].drop 2 ∧
      chain1.count 5 = 1 ∧
      (2 ≤ [3, 4, 1].length → chain1[2]? = some 5) ∧
      ([3, 4, 1].length < 2 → chain1 = [3, 4, 1] ++ [5]) ∧
      chain1.filter (fun x => decide (x ≠ 5)) = [3, 4, 1]) ∧
    (∃ chain1, gegl_buffer_add_handler 7 example_chain_heap [1] 0 5 = some chain1 ∧
      chain1 = [1].take 2 ++ 5 :: [1].drop 2 ∧
      chain1.count 5 = 1 ∧
      (2 ≤ [1].length → chain1[2]? = some 5) ∧
      ([1].length < 2 → chain1 = [1] ++ [5]) ∧
      chain1.filter (fun x => decide (x ≠ 5)) = [1]) :=
  ⟨C28_add_handler_inserts_at_two 0 example_chain_heap [3, 4, 1] 0 5 2 example_root _
      rfl rfl rfl rfl (by decide),
   C28_add_handler_inserts_at_two 7 example_chain_heap [1] 0 5 2 example_root _
      rfl rfl rfl rfl (by decide)⟩

theorem example_add_handler :
    gegl_buffer_add_handler 0 example_chain_heap [3, 4, 1] 0 5 = some [3, 4, 5, 1] ∧
    gegl_buffer_add_handler 7 example_chain_heap [1] 0 5 = some [1, 5] ∧
    gegl_buffer_remove_handler example_chain_heap [3, 4, 5, 1] 0 5 = some [3, 4, 1] := by
  decide

/-- C29: for a buffer with a tile storage, every chain and every tile handler h
not in it, `gegl_buffer_add_handler` followed by `gegl_buffer_remove_handler`
returns the chain it started from, and `gegl_buffer_remove_handler` alone, h
not being in the chain, returns the chain unchanged. -/
theorem C29_remove_handler_undoes_add (position : Nat) (heap : Heap) (chain : List Ptr)
    (buffer handler ts : Ptr) (b : GeglBuffer) (S : GeglTileStorage)
    (hb : heap[buffer]? = some (GObject.buffer b)) (hts : b.tile_storage = some ts)
    (hS : heap[ts]? = some (GObject.tile_storage S))
    (hh : GEGL_IS_TILE_HANDLER heap handler = true) (hnew : handler ∉ chain) :
    (∃ chain1, gegl_buffer_add_handler position heap chain buffer handler = some chain1 ∧
      gegl_buffer_remove_handler heap chain1 buffer handler = some chain) ∧
    gegl_buffer_remove_handler heap chain buffer handler = some chain := by
  constructor
  · refine ⟨_, add_handler_eval position heap chain buffer handler ts b S hb hts hS hh hnew,
      ?_⟩
    unfold gegl_buffer_remove_handler
    simp only [hb, hh, if_true, hts, hS]
    have hfind : g_slist_find (chain.take 2 ++ handler :: chain.drop 2) handler = true := by
      unfold g_slist_find
      simp
    rw [if_pos hfind]
    have hrem := g_slist_insert_remove chain handler 2 hnew
    unfold g_slist_insert at hrem
    rw [if_neg (by decide)] at hrem
    exact congrArg some hrem
  · unfold gegl_buffer_remove_handler
    simp only [hb, hh, if_true, hts, hS]
    have hfind : g_slist_find chain handler = false := by
      unfold g_slist_find
      simpa using hnew
    rw [hfind]
    rfl

theorem C29_remove_handler_undoes_add_witness :
    (∃ chain1, gegl_buffer_add_handler 0 example_chain_heap [3, 4, 1] 0 5 = some chain1 ∧
      gegl_buffer_remove_handler example_chain_heap chain1 0 5 = some [3, 4, 1]) ∧
    gegl_buffer_remove_handler example_chain_heap [3, 4, 1] 0 5 = some [3, 4, 1] :=
  C29_remove_handler_undoes_add 0 example_chain_heap [3, 4, 1] 0 5 2 example_root _
    rfl rfl rfl rfl (by decide)

/-- C27: for every buffer of the heap, `gegl_buffer_create_sub_buffer` called with
a NULL extent or with the buffer's own extent returns the address of that very
buffer, after one `g_object_ref` of it, and leaves the heap as it was: the
object returned has the extent, abyss, shift and abyss_tracks_extent of the
original. -/
theorem C27_sub_buffer_of_own_extent_is_buffer (env : GeglEnv) (heap : Heap) (buffer : Ptr)
    (b : GeglBuffer) (extent : Option GeglRectangle)
    (hb : heap[buffer]? = some (GObject.buffer b))
    (hext : extent = none ∨ extent = some b.extent) :
    gegl_buffer_create_sub_buffer env heap buffer extent = some (env, heap, some buffer) ∧
    gegl_buffer_create_sub_buffer_refs heap buffer extent = [buffer] ∧
    ∃ r, heap[buffer]? = some (GObject.buffer r) ∧ r.extent = b.extent ∧
      r.abyss = b.abyss ∧ r.shift_x = b.shift_x ∧ r.shift_y = b.shift_y ∧
      r.abyss_tracks_extent = b.abyss_tracks_extent := by
  have heq : gegl_rectangle_equal b.extent b.extent = true :=
    (gegl_rectangle_equal_iff b.extent b.extent).mpr rfl
  unfold gegl_buffer_create_sub_buffer gegl_buffer_create_sub_buffer_refs
  rcases hext with h | h
  · subst h
    rw [hb]
    exact ⟨rfl, rfl, b, rfl, rfl, rfl, rfl, rfl, rfl⟩
  · subst h
    rw [hb]
    dsimp only
    rw [heq]
    exact ⟨rfl, rfl, b, rfl, rfl, rfl, rfl, rfl, rfl⟩

theorem C27_sub_buffer_of_own_extent_is_buffer_witness :
    (gegl_buffer_create_sub_buffer example_env (example_heap ++ [GObject.buffer example_clipped])
        3 none = some (example_env, example_heap ++ [GObject.buffer example_clipped], some 3) ∧
      gegl_buffer_create_sub_buffer_refs (example_heap ++ [GObject.buffer example_clipped])
        3 none = [3] ∧
      ∃ r, (example_heap ++ [GObject.buffer example_clipped])[3]? = some (GObject.buffer r) ∧
        r.extent = example_clipped.extent ∧
        r.abyss = example_clipped.abyss ∧ r.shift_x = example_clipped.shift_x ∧
        r.shift_y = example_clipped.shift_y ∧
        r.abyss_tracks_extent = example_clipped.abyss_tracks_extent) ∧
    (gegl_buffer_create_sub_buffer example_env example_heap 0 (some example_root.extent) =
        some (example_env, example_heap, some 0) ∧
      gegl_buffer_create_sub_buffer_refs example_heap 0 (some example_root.extent) = [0] ∧
      ∃ r, example_heap[0]? = some (GObject.buffer r) ∧
        r.extent = example_root.extent ∧
        r.abyss = example_root.abyss ∧ r.shift_x = example_root.shift_x ∧
        r.shift_y = example_root.shift_y ∧
        r.abyss_tracks_extent = example_root.abyss_tracks_extent) :=
  ⟨C27_sub_buffer_of_own_extent_is_buffer example_env
      (example_heap ++ [GObject.buffer example_clipped]) 3 example_clipped none rfl (Or.inl rfl),
   C27_sub_buffer_of_own_extent_is_buffer example_env example_heap 0 example_root
      (some example_root.extent) rfl (Or.inr rfl)⟩

theorem C24_set_own_extent_keeps_abyss_witness :
    (∃ heap2 B3, gegl_buffer_set_extent example_heap 0 example_root.extent =
        some (heap2, true) ∧
      heap2[0]? = some (GObject.buffer B3) ∧
      B3.abyss = example_root.abyss ∧ B3.extent = example_root.extent ∧
      B3.abyss_tracks_extent = example_root.abyss_tracks_extent) ∧
    (∃ heap2 B3, gegl_buffer_set_extent (example_heap ++ [GObject.buffer example_clipped]) 3
        example_clipped.extent = some (heap2, true) ∧
      heap2[3]? = some (GObject.buffer B3) ∧
      B3.abyss = example_clipped.abyss ∧ B3.extent = example_clipped.extent ∧
      B3.abyss_tracks_extent = example_clipped.abyss_tracks_extent) :=
  ⟨C24_set_own_extent_keeps_abyss example_env [] example_root_params example_env
      example_heap 0 1 example_root example_root example_backend rfl rfl rfl rfl,
   C24_set_own_extent_keeps_abyss example_env example_heap
      { GeglBufferParams.default example_env with
        source := some 0, x := 200, y := 200, width := 100, height := 100 }
      example_env (example_heap ++ [GObject.buffer example_clipped]) 3 1 example_clipped
      example_clipped example_backend rfl rfl rfl rfl⟩
end Gegl
